import Mathlib

/-!
# BBApp trace view: waterfall store, camera, persistence and paint pass

A shallow embedding of `src/views/trace_view.cpp` and the helpers of
`src/lib/bb_lib.h` it uses.

Conventions of the embedding.
* `float` and `double` values are rationals: arithmetic is exact.
* `std::vector<float>` (`GLVector`) is a list; `push_back` appends at the end,
  `insert(begin(), x)` conses at the head, `pop_back` drops the last element.
* A read `v[i]` past the end of a vector yields whatever lies behind the
  buffer; that content is the function `oob`, over which every statement is
  quantified.
* `pop_back`/`back` on an empty vector has no defined result: the functions
  that can reach it return `Option`, `none` standing for that fault.
* 32-bit conversions that occur in index expressions are written out with
  `% 2 ^ 32`; loop counters are natural numbers (a sweep vector is far
  shorter than `2 ^ 32` floats).
-/

namespace BBApp

/-! ## Definitions -/

/-- Vector of floats, `typedef std::vector<float> GLVector`. -/
abbrev GLVector := List ℚ

/-- Qt integer point, `QPoint`. -/
structure QPoint where
  x : Int
  y : Int
deriving DecidableEq, Repr

/-- Waterfall display mode of the trace view. -/
inductive WaterfallState where
  | WaterfallOFF
  | Waterfall2D
  | Waterfall3D
deriving DecidableEq, Repr

namespace bb_lib

/-- Template `max2` of bb_lib.h: `(a > b) ? a : b`. -/
def max2 {α : Type} [LinearOrder α] (a b : α) : α :=
  if a > b then a else b

/-- Template `min2` of bb_lib.h: `(a < b) ? a : b`. -/
def min2 {α : Type} [LinearOrder α] (a b : α) : α :=
  if a < b then a else b

/-- Template `max3` of bb_lib.h: `d = (a > b) ? a : b; (d > c) ? d : c`. -/
def max3 {α : Type} [LinearOrder α] (a b c : α) : α :=
  let d := if a > b then a else b
  if d > c then d else c

/-- Template `clamp` of bb_lib.h; the reference parameter `val` is returned:
`if(val < min) val = min; if(val > max) val = max;`. -/
def clamp {α : Type} [LinearOrder α] (val min max : α) : α :=
  let val1 := if val < min then min else val
  if val1 > max then max else val1

end bb_lib

/-- Conversion of an unsigned value to 32-bit `int`, as in `(int)i`. -/
def toInt32 (n : Nat) : Int :=
  if n % 2 ^ 32 < 2 ^ 31 then ((n % 2 ^ 32 : Nat) : Int)
  else ((n % 2 ^ 32 : Nat) : Int) - 2 ^ 32

/-- Read `v[i]` of a `std::vector<float>`; `oob i` is what a read past the
end finds. -/
def vecAt (oob : Nat → ℚ) (v : GLVector) (i : Nat) : ℚ :=
  match v.get? i with
  | some a => a
  | none => oob i

/-- A colour with float components, as `QColor::redF()` etc. or the arguments
of `glColor4f`. -/
structure Rgba where
  r : ℚ
  g : ℚ
  b : ℚ
  a : ℚ
deriving DecidableEq, Repr

/-- Width of the persistence surface, `#define PERSIST_WIDTH 1280`. -/
def PERSIST_WIDTH : Nat := 1280

/-- Height of the persistence surface, `#define PERSIST_HEIGHT 720`. -/
def PERSIST_HEIGHT : Nat := 720

/-- The off-screen surface behind `persist_fbo`, by pixel: the colour texture
`persist_tex` and the depth renderbuffer `persist_depth`. -/
structure PersistSurface where
  color : Nat → Nat → Rgba
  depth : Nat → Nat → ℚ

/-- The threads of the view: the GUI thread that owns the widget and the
presentation thread `swap_thread`. -/
inductive Thread where
  | gui
  | swap_thread
deriving DecidableEq, Repr

/-- The members of `TraceView` and the state behind its handles.
`width`/`height` are the widget size (`size()`), the three `grat_*` points
the graticule bounds, `persist` the surface of `persist_fbo`, `traces` the
normalized vectors `traces[TRACE_COUNT]`, `time` the instant the `QTime`
member was last started, `drawMutex` whether the mutex is locked,
`paintCondition` whether the semaphore is set, `contextThread` the thread the
GL context lives in. -/
structure TraceView where
  width : Int
  height : Int
  grat_ll : QPoint
  grat_ul : QPoint
  grat_sz : QPoint
  persist_on : Bool
  clear_persistence : Bool
  waterfall_state : WaterfallState
  waterfall_verts : List GLVector
  waterfall_coords : List GLVector
  persist : PersistSurface
  traces : List GLVector
  time : Int
  drawMutex : Bool
  paintCondition : Bool
  contextThread : Thread

/-- The two buffers of one waterfall frame under construction:
`*waterfall_verts[0]` and `*waterfall_coords[0]`. -/
structure WaterfallFrame where
  verts : GLVector
  coords : GLVector
deriving DecidableEq, Repr

/-- Index of the left neighbour read on the degenerate-avoidance path:
`bb_lib::max2(1, (int)i-1)`. -/
def waterfallLeftIndex (i : Nat) : Nat :=
  (bb_lib.max2 (1 : Int) (toInt32 i - 1)).toNat

/-- Index of the right neighbour read on the degenerate-avoidance path:
`bb_lib::min2(i+3, (unsigned)v.size()-3)`, in 32-bit unsigned arithmetic. -/
def waterfallRightIndex (size i : Nat) : Nat :=
  bb_lib.min2 ((i + 3) % 2 ^ 32) ((size % 2 ^ 32 + 2 ^ 32 - 3) % 2 ^ 32)

/-- The `x` of one loop iteration of `AddToWaterfall`: `x = v[i]`. -/
def waterfallX (oob : Nat → ℚ) (v : GLVector) (i : Nat) : ℚ :=
  vecAt oob v i

/-- The `z` of one loop iteration of `AddToWaterfall` before clamping: the
`max3` of three reads when `degenHack` is set, else `v[i+1]`. -/
def waterfallZ (oob : Nat → ℚ) (v : GLVector) (degenHack : Bool) (i : Nat) : ℚ :=
  if degenHack then
    bb_lib.max3 (vecAt oob v (waterfallLeftIndex i)) (vecAt oob v (i + 1))
      (vecAt oob v (waterfallRightIndex v.length i))
  else
    vecAt oob v (i + 1)

/-- The body of the `for` loop of `AddToWaterfall` at counter `i`: clamp `z`
and push the max point, the min point and the two texture coordinates. -/
def waterfallPush (oob : Nat → ℚ) (v : GLVector) (degenHack : Bool) (i : Nat)
    (fr : WaterfallFrame) : WaterfallFrame :=
  let x := waterfallX oob v i
  let z := bb_lib.clamp (waterfallZ oob v degenHack i) 0 1
  { verts := fr.verts ++ [x, 0, z] ++ [x, 0, 0]
    coords := fr.coords ++ [x, z] ++ [x, 0] }

/-- The loop `for(unsigned i = 0; i < v.size(); i += 4)` of `AddToWaterfall`;
`n` counts the iterations still to run, `i` is the counter. -/
def waterfallLoop (oob : Nat → ℚ) (v : GLVector) (degenHack : Bool) :
    Nat → Nat → WaterfallFrame → WaterfallFrame
  | 0, _, fr => fr
  | n + 1, i, fr => waterfallLoop oob v degenHack n (i + 4) (waterfallPush oob v degenHack i fr)

/-- The test `v.size() * 0.25 > grat_sz.x() * 0.5` that sets `degenHack`. -/
def degenHack (gratWidth : Int) (v : GLVector) : Bool :=
  decide ((v.length : ℚ) * (1 / 4) > (gratWidth : ℚ) * (1 / 2))

/-- The frame `AddToWaterfall` builds from `v` for a graticule `gratWidth`
pixels wide: the loop run from `i = 0` on two fresh vectors. The loop body
runs once for each `i = 0, 4, 8, ...` below `v.size()`. -/
def waterfallFrame (oob : Nat → ℚ) (gratWidth : Int) (v : GLVector) : WaterfallFrame :=
  waterfallLoop oob v (degenHack gratWidth v) ((v.length + 3) / 4) 0 ⟨[], []⟩

/-- The eviction loop of `AddToWaterfall`,
`while (waterfall_verts.size() >= MAX_WATERFALL_LINES)`, popping the back of
both vectors. `fuel` bounds the iterations; `none` is returned when a
`back()/pop_back()` meets an empty vector or the fuel is spent. -/
def waterfallEvict (MAX_WATERFALL_LINES : Nat) : Nat → TraceView → Option TraceView
  | 0, _ => none
  | fuel + 1, tv =>
    if tv.waterfall_verts.length ≥ MAX_WATERFALL_LINES then
      if tv.waterfall_verts.isEmpty || tv.waterfall_coords.isEmpty then none
      else waterfallEvict MAX_WATERFALL_LINES fuel
        { tv with waterfall_verts := tv.waterfall_verts.dropLast
                  waterfall_coords := tv.waterfall_coords.dropLast }
    else some tv

/-- `TraceView::AddToWaterfall`. `MAX_WATERFALL_LINES` is the constant of the
header, taken as a parameter. The eviction loop gets one unit of fuel more
than there are stored frames, which it cannot exhaust. -/
def AddToWaterfall (MAX_WATERFALL_LINES : Nat) (oob : Nat → ℚ) (tv : TraceView)
    (v : GLVector) : Option TraceView :=
  if v.length ≤ 0 then some tv
  else
    match waterfallEvict MAX_WATERFALL_LINES (tv.waterfall_verts.length + 1) tv with
    | none => none
    | some tv1 =>
      let fr := waterfallFrame oob tv1.grat_sz.x v
      some { tv1 with waterfall_verts := fr.verts :: tv1.waterfall_verts
                      waterfall_coords := fr.coords :: tv1.waterfall_coords }

/-- A sequence of `AddToWaterfall` calls; each call comes with the graticule
size in force when it is made. -/
def addAllToWaterfall (MAX_WATERFALL_LINES : Nat) (oob : Nat → ℚ) :
    TraceView → List (QPoint × GLVector) → Option TraceView
  | tv, [] => some tv
  | tv, (g, v) :: rest =>
    match AddToWaterfall MAX_WATERFALL_LINES oob { tv with grat_sz := g } v with
    | none => none
    | some tv1 => addAllToWaterfall MAX_WATERFALL_LINES oob tv1 rest

/-- The view of the insertion scenario: an 800 by 600 widget in 2D waterfall
mode with an empty store. -/
def scenarioView : TraceView :=
  { width := 800, height := 600, grat_ll := ⟨60, 50⟩, grat_ul := ⟨60, 300⟩,
    grat_sz := ⟨720, 250⟩, persist_on := false, clear_persistence := false,
    waterfall_state := WaterfallState.Waterfall2D, waterfall_verts := [],
    waterfall_coords := [],
    persist := { color := fun _ _ => ⟨0, 0, 0, 0⟩, depth := fun _ _ => 1 },
    traces := [[], [], [], [], [], []], time := 0, drawMutex := false,
    paintCondition := false, contextThread := Thread.gui }

/-- Fifty sweep vectors of 112 floats each, vector `k` filled with `k / 50`. -/
def scenarioCalls : List (QPoint × GLVector) :=
  (List.range 50).map fun (k : Nat) => (⟨720, 250⟩, List.replicate 112 ((k : ℚ) / 50))

/-- The constant `#define M_PI 3.14159265` of trace_view.cpp. -/
def M_PI : ℚ := 3.14159265

/-- Radians per pixel of a drag, `static const float RPP = 0.01`. -/
def RPP : ℚ := 0.01

/-- The file-scope statics of trace_view.cpp that hold the 3D camera and the
drag in progress: `rho, theta, phi`, `mx, my`, `dragging`. -/
structure Camera where
  rho : ℚ
  theta : ℚ
  phi : ℚ
  mx : Int
  my : Int
  dragging : Bool
deriving DecidableEq, Repr

/-- The initial values of the statics:
`rho = 1, theta = -0.5 * M_PI, phi = 0.4 * M_PI`, `mx, my` zero-initialised,
`dragging = false`. -/
def Camera.initial : Camera :=
  { rho := 1, theta := -0.5 * M_PI, phi := 0.4 * M_PI, mx := 0, my := 0, dragging := false }

/-- `TraceView::mousePressEvent`. `PointInGrat` is the member of the header,
taken as a parameter. The result is the new camera statics and the ratio
handed to `PlaceMarker`, if it is called. -/
def mousePressEvent (PointInGrat : TraceView → QPoint → Bool) (tv : TraceView)
    (cam : Camera) (pos : QPoint) : Camera × Option ℚ :=
  if PointInGrat tv pos then
    let x_pos := pos.x - tv.grat_ul.x
    if x_pos < 0 ∨ x_pos > tv.grat_sz.x then (cam, none)
    else (cam, some ((x_pos : ℚ) / (tv.grat_sz.x : ℚ)))
  else if tv.waterfall_state = WaterfallState.Waterfall3D then
    ({ cam with dragging := true, mx := pos.x, my := pos.y }, none)
  else (cam, none)

/-- `TraceView::mouseReleaseEvent`: `dragging = false`. -/
def mouseReleaseEvent (cam : Camera) : Camera :=
  { cam with dragging := false }

/-- `TraceView::mouseMoveEvent`, the part that changes state (the first part
only writes the cursor position to the status bar): while dragging, the drag
delta turns the camera and the angles are clamped. -/
def mouseMoveEvent (cam : Camera) (pos : QPoint) : Camera :=
  if cam.dragging then
    let dx := pos.x - cam.mx
    let dy := pos.y - cam.my
    let theta1 := cam.theta - (dx : ℚ) * RPP
    let phi1 := cam.phi - (dy : ℚ) * RPP
    let phi2 := if phi1 < 0.1 * M_PI then 0.1 * M_PI else phi1
    let phi3 := if phi2 > 0.5 * M_PI then 0.5 * M_PI else phi2
    let theta2 := if theta1 < -0.75 * M_PI then -0.75 * M_PI else theta1
    let theta3 := if theta2 > -0.25 * M_PI then -0.25 * M_PI else theta2
    { cam with theta := theta3, phi := phi3, mx := pos.x, my := pos.y }
  else cam

/-- `TraceView::wheelEvent` on the wheel delta `e->delta()`. -/
def wheelEvent (cam : Camera) (delta : Int) : Camera :=
  let rho1 := if delta < 0 then cam.rho + 0.1 else cam.rho
  let rho2 := if delta > 0 then rho1 - 0.1 else rho1
  let rho3 := if rho2 < 0.5 then 0.5 else rho2
  let rho4 := if rho3 > 4.0 then 4.0 else rho3
  { cam with rho := rho4 }

/-- A pointer event delivered to the trace view. -/
inductive PointerEvent where
  | press (pos : QPoint)
  | release
  | move (pos : QPoint)
  | wheel (delta : Int)
deriving DecidableEq, Repr

/-- Dispatch of one pointer event to its handler, with the view state in
force when the event arrives. -/
def pointerEvent (PointInGrat : TraceView → QPoint → Bool) (cam : Camera) :
    TraceView × PointerEvent → Camera
  | (tv, PointerEvent.press pos) => (mousePressEvent PointInGrat tv cam pos).1
  | (_, PointerEvent.release) => mouseReleaseEvent cam
  | (_, PointerEvent.move pos) => mouseMoveEvent cam pos
  | (_, PointerEvent.wheel delta) => wheelEvent cam delta

/-- The camera statics after a sequence of pointer events. -/
def pointerEvents (PointInGrat : TraceView → QPoint → Bool) (cam : Camera)
    (events : List (TraceView × PointerEvent)) : Camera :=
  events.foldl (pointerEvent PointInGrat) cam

/-- Capabilities switched by `glEnable`/`glDisable`. -/
inductive GLCap where
  | GL_DEPTH_TEST
  | GL_BLEND
  | GL_LINE_SMOOTH
  | GL_LINE_STIPPLE
  | GL_TEXTURE_2D
deriving DecidableEq, Repr

/-- Client-side arrays switched by `glEnableClientState`. -/
inductive GLClientCap where
  | GL_VERTEX_ARRAY
  | GL_TEXTURE_COORD_ARRAY
deriving DecidableEq, Repr

/-- Matrix stacks selected by `glMatrixMode`. -/
inductive GLMatrixMode where
  | GL_MODELVIEW
  | GL_PROJECTION
deriving DecidableEq, Repr

/-- Primitive kinds of `glDrawArrays` and `glBegin`. -/
inductive GLPrimitive where
  | GL_LINES
  | GL_LINE_STRIP
  | GL_TRIANGLE_STRIP
  | GL_QUAD_STRIP
  | GL_QUADS
  | GL_POLYGON
deriving DecidableEq, Repr

/-- Blend factors of `glBlendFunc`. -/
inductive GLBlendFactor where
  | GL_ZERO
  | GL_ONE
  | GL_SRC_ALPHA
  | GL_ONE_MINUS_SRC_ALPHA
deriving DecidableEq, Repr

/-- Polygon rasterisation modes of `glPolygonMode(GL_FRONT_AND_BACK, _)`. -/
inductive GLPolygonMode where
  | GL_LINE
  | GL_FILL
deriving DecidableEq, Repr

/-- Depth comparison functions of `glDepthFunc`. -/
inductive GLDepthFunc where
  | GL_LESS
  | GL_LEQUAL
deriving DecidableEq, Repr

/-- Buffer objects bound by `glBindBuffer(GL_ARRAY_BUFFER, _)`; `zero` is the
name 0 that unbinds. -/
inductive GLBuffer where
  | zero
  | traceVBO
  | textureVBO
  | gratVBO
  | borderVBO
deriving DecidableEq, Repr

/-- Framebuffers bound by `glBindFramebuffer(GL_FRAMEBUFFER, _)`; `zero` is
the window. -/
inductive GLFramebuffer where
  | zero
  | persist_fbo
deriving DecidableEq, Repr

/-- Textures bound by `glBindTexture(GL_TEXTURE_2D, _)`. -/
inductive GLTexture where
  | waterfall_tex
  | persist_tex
deriving DecidableEq, Repr

/-- Shader programs selected by `glUseProgram`; `zero` is the fixed pipeline. -/
inductive GLProgramHandle where
  | zero
  | persist_program
deriving DecidableEq, Repr

/-- Fonts of the view: the members `textFont`, `divFont` and the temporaries
`QFont("Arial", 14)`, `QFont("Arial", 20)`. -/
inductive Font where
  | textFont
  | divFont
  | arial14
  | arial20
deriving DecidableEq, Repr

/-- Text alignment argument of `DrawString`. -/
inductive TextAlignment where
  | LEFT_ALIGNED
  | RIGHT_ALIGNED
  | CENTER_ALIGNED
deriving DecidableEq, Repr

/-- The strings the view renders (`QString` values), named by what they show;
the formatted numbers and strings inside them come from the session and stay
symbolic. -/
inductive Text where
  /-- The string `tr("No Device Connected")`. -/
  | noDeviceConnected
  /-- The string `tr("Device Idle")`. -/
  | deviceIdle
  /-- The session title, `session_ptr->GetTitle()`. -/
  | title
  /-- The line `"Elapsed %d, SweepSize %d"`. -/
  | elapsedSweepSize
  | center
  | span
  | start
  | stop
  | ref
  | div
  | rbw
  | atten
  | vbw
  /-- The y-axis label of loop counter `i`, `"%.2f"`. -/
  | yAxisLabel (i : Nat)
  | passed
  | failed
  /-- The warning that the signal level is higher than the reference level. -/
  | levelWarning
  | lowVoltage
  | ifOverload
  | deviceTemp
  | uncal
  /-- The line `"Mkr n Delta: " + m->DeltaText()`. -/
  | markerDelta (num : Nat)
  /-- The line `"Mkr n: " + m->Text()`. -/
  | markerValue (num : Nat)
  /-- The label `"%d"` inside a marker glyph. -/
  | markerNum (num : Int)
  /-- The label `"R%d"` inside a delta marker glyph. -/
  | deltaMarkerNum (num : Int)
  /-- The value `"%f"` of channel `i`. -/
  | channelPower (i : Nat)
  /-- The value `"%f dBc"` of channel `i` relative to channel 1. -/
  | channelPowerDbc (i : Nat)
deriving DecidableEq, Repr

/-- A graphics call issued by the view, with the arguments that matter to the
embedding. Symbolic constants left out of a constructor are fixed in the
source (`GL_ARRAY_BUFFER`, `GL_FLOAT`, `GL_FRONT_AND_BACK`, ...). -/
inductive GLCall where
  | makeCurrent
  | doneCurrent
  | glClearColor (r g b a : ℚ)
  | glClear (color depth : Bool)
  | glTexEnvf
  | glViewport (x y w h : Int)
  | glMatrixMode (mode : GLMatrixMode)
  | glLoadIdentity
  | glPushMatrix
  | glPopMatrix
  | glOrtho (left right bottom top near far : ℚ)
  | glFrustum (left right bottom top near far : ℚ)
  | glMultMatrixf (m : List ℚ)
  | glTranslatef (x y z : ℚ)
  | glScalef (x y z : ℚ)
  | glEnable (cap : GLCap)
  | glDisable (cap : GLCap)
  | glEnableClientState (cap : GLClientCap)
  | glDisableClientState (cap : GLClientCap)
  | glColor4f (r g b a : ℚ)
  | glLineWidth (w : ℚ)
  | glLineStipple (factor pattern : Nat)
  | glBindBuffer (buffer : GLBuffer)
  | glBufferData (bytes : Nat) (data : GLVector)
  | glVertexPointer (size stride offset : Nat)
  | glTexCoordPointer (size stride offset : Nat)
  | glDrawArrays (mode : GLPrimitive) (first count : Nat)
  | glPushAttrib
  | glPopAttrib
  | glBlendFunc (sfactor dfactor : GLBlendFactor)
  | glBlendEquation
  | glPolygonMode (mode : GLPolygonMode)
  | glDepthFunc (func : GLDepthFunc)
  | glUseProgram (program : GLProgramHandle)
  | glBindTexture (texture : GLTexture)
  | glGenerateMipmap
  | glBindFramebuffer (fbo : GLFramebuffer)
  | glBegin (mode : GLPrimitive)
  | glTexCoord2f (s t : ℚ)
  | glVertex2f (x y : ℚ)
  | glEnd
  | renderText (x y z : Int) (s : Text) (f : Font)
deriving DecidableEq, Repr

/-- The call `glColor3f(r, g, b)`: it sets alpha to 1. -/
def glColor3f (r g b : ℚ) : GLCall :=
  GLCall.glColor4f r g b 1

/-- The helper `glQColor(c)`: the current colour becomes `c`. -/
def glQColor (c : Rgba) : GLCall :=
  GLCall.glColor4f c.r c.g c.b c.a

/-- Whether a call is a draw call of the vertex-array path. -/
def GLCall.isDrawArrays : GLCall → Bool
  | GLCall.glDrawArrays _ _ _ => true
  | _ => false

/-- `TraceView::DrawTrace(t, v)`; `c` is `t->Color()`. -/
def DrawTrace (c : Rgba) (v : GLVector) : List (GLCall) :=
  if v.length < 1 then []
  else
    [ glColor3f c.r c.g c.b,
      -- Put the trace in the vbo
      GLCall.glBindBuffer GLBuffer.traceVBO,
      GLCall.glBufferData (v.length * 4) v,
      GLCall.glVertexPointer 2 0 0,
      -- Draw fill
      GLCall.glDrawArrays GLPrimitive.GL_TRIANGLE_STRIP 0 (v.length / 2),
      GLCall.glPolygonMode GLPolygonMode.GL_LINE,
      -- Draw lines
      GLCall.glVertexPointer 2 16 0,
      GLCall.glDrawArrays GLPrimitive.GL_LINE_STRIP 0 (v.length / 4),
      GLCall.glVertexPointer 2 16 8,
      GLCall.glDrawArrays GLPrimitive.GL_LINE_STRIP 0 (v.length / 4),
      GLCall.glPolygonMode GLPolygonMode.GL_FILL,
      -- Unbind array
      GLCall.glBindBuffer GLBuffer.zero ]

/-- The least number of vertices from which a primitive kind forms a
primitive: 2 for lines and line strips, 3 for triangle strips and polygons,
4 for quads and quad strips. -/
def GLPrimitive.minVertices : GLPrimitive → Nat
  | GLPrimitive.GL_LINES => 2
  | GLPrimitive.GL_LINE_STRIP => 2
  | GLPrimitive.GL_TRIANGLE_STRIP => 3
  | GLPrimitive.GL_POLYGON => 3
  | GLPrimitive.GL_QUAD_STRIP => 4
  | GLPrimitive.GL_QUADS => 4

/-- Whether a call is a `glDrawArrays` whose vertex count suffices for at
least one primitive of its kind, that is, whether it can rasterise anything. -/
def GLCall.drawsPrimitive : GLCall → Bool
  | GLCall.glDrawArrays mode _ count => decide (mode.minVertices ≤ count)
  | _ => false

/-- The rasteriser of the GL implementation, as far as `AddToPersistence`
uses it: whether the quad strip of a frame `v`, under the matrices and the
viewport `AddToPersistence` sets, yields a fragment on pixel `(x, y)`, drawn
filled (`fill`) and drawn as outlines of width 2 (`line`). -/
structure Rasterizer where
  fill : GLVector → Nat → Nat → Bool
  line : GLVector → Nat → Nat → Bool

/-- Clamping of a blended component to the range of a normalized colour
buffer (`GL_RGBA`, `GL_UNSIGNED_BYTE`). -/
def glClamp01 (c : ℚ) : ℚ :=
  if c < 0 then 0 else if c > 1 then 1 else c

/-- The weight a blend factor stands for, given the source colour. -/
def GLBlendFactor.weight (f : GLBlendFactor) (src : Rgba) : ℚ :=
  match f with
  | GLBlendFactor.GL_ZERO => 0
  | GLBlendFactor.GL_ONE => 1
  | GLBlendFactor.GL_SRC_ALPHA => src.a
  | GLBlendFactor.GL_ONE_MINUS_SRC_ALPHA => 1 - src.a

/-- Blending with `glBlendEquation(GL_FUNC_ADD)` and
`glBlendFunc(sfactor, dfactor)`: each component becomes
`src * sfactor + dst * dfactor`, clamped. -/
def glBlend (sfactor dfactor : GLBlendFactor) (src dst : Rgba) : Rgba :=
  { r := glClamp01 (src.r * sfactor.weight src + dst.r * dfactor.weight src)
    g := glClamp01 (src.g * sfactor.weight src + dst.g * dfactor.weight src)
    b := glClamp01 (src.b * sfactor.weight src + dst.b * dfactor.weight src)
    a := glClamp01 (src.a * sfactor.weight src + dst.a * dfactor.weight src) }

/-- The depth test: whether a fragment of depth `z` passes against the
stored depth. -/
def GLDepthFunc.passes (func : GLDepthFunc) (z stored : ℚ) : Bool :=
  match func with
  | GLDepthFunc.GL_LESS => decide (z < stored)
  | GLDepthFunc.GL_LEQUAL => decide (z ≤ stored)

/-- The call `glClear(GL_COLOR_BUFFER_BIT | GL_DEPTH_BUFFER_BIT)` on the
surface with clear colour `(0, 0, 0, 0)` and the clear depth 1.0 set in the
constructor. -/
def PersistSurface.clearAll (_s : PersistSurface) : PersistSurface :=
  { color := fun _ _ => ⟨0, 0, 0, 0⟩, depth := fun _ _ => 1 }

/-- The call `glClear(GL_DEPTH_BUFFER_BIT)` on the surface. -/
def PersistSurface.clearDepth (s : PersistSurface) : PersistSurface :=
  { s with depth := fun _ _ => 1 }

/-- A draw with the depth test disabled of geometry that puts one fragment of
colour `src` on every pixel of `cover`: the fragment is blended in and the
depth buffer is left alone. -/
def PersistSurface.drawNoDepth (s : PersistSurface) (cover : Nat → Nat → Bool)
    (sfactor dfactor : GLBlendFactor) (src : Rgba) : PersistSurface :=
  { s with color := fun x y =>
      if cover x y then glBlend sfactor dfactor src (s.color x y) else s.color x y }

/-- A draw with the depth test enabled of flat geometry, all of whose
fragments have depth `z` and colour `src`, on the pixels of `cover`. A
fragment that passes the depth test is blended in and stores `z`; under
`GL_LESS` any further fragment of the same call on that pixel then fails, so
a covered pixel is blended at most once. -/
def PersistSurface.drawDepth (s : PersistSurface) (cover : Nat → Nat → Bool)
    (func : GLDepthFunc) (z : ℚ) (sfactor dfactor : GLBlendFactor) (src : Rgba) :
    PersistSurface :=
  { color := fun x y =>
      if cover x y && func.passes z (s.depth x y) then
        glBlend sfactor dfactor src (s.color x y)
      else s.color x y
    depth := fun x y =>
      if cover x y && func.passes z (s.depth x y) then z else s.depth x y }

/-- Window depth of the filled strip of `AddToPersistence`: its vertices have
`z = 0`, which `glOrtho(.., -1, 1)` maps to the middle of the depth range. -/
def persistFillDepth : ℚ := 1 / 2

/-- Window depth of the outline pass of `AddToPersistence`: drawn after
`glTranslatef(0, 0, -0.5)` on the projection matrix, half way behind the fill. -/
def persistLineDepth : ℚ := 3 / 4

/-- The surface part of `AddToPersistence` after the clear: the depth clears,
the decay quad over the whole surface (depth test off), then the frame drawn
additively, filled and as outline, under the depth test `GL_LESS`. -/
def PersistSurface.accumulate (R : Rasterizer) (v : GLVector) (s : PersistSurface) :
    PersistSurface :=
  -- glClear(GL_DEPTH_BUFFER_BIT); glDepthFunc(GL_LESS); glDisable(GL_DEPTH_TEST)
  let s1 := s.clearDepth
  -- glBlendFunc(GL_ZERO, GL_ONE_MINUS_SRC_ALPHA); glColor4f(0, 0, 0, 2 * .01); the quad
  let s2 := s1.drawNoDepth (fun _ _ => true) GLBlendFactor.GL_ZERO
    GLBlendFactor.GL_ONE_MINUS_SRC_ALPHA ⟨0, 0, 0, 2 * 0.01⟩
  -- glEnable(GL_DEPTH_TEST); glClear(GL_DEPTH_BUFFER_BIT)
  let s3 := s2.clearDepth
  -- glBlendFunc(GL_ONE, GL_ONE); glColor3f(0.04, 0.04, 0.04); filled quad strip
  let s4 := s3.drawDepth (R.fill v) GLDepthFunc.GL_LESS persistFillDepth GLBlendFactor.GL_ONE
    GLBlendFactor.GL_ONE ⟨0.04, 0.04, 0.04, 1⟩
  -- glTranslatef(0, 0, -0.5); glPolygonMode(GL_LINE); the quad strip again
  s4.drawDepth (R.line v) GLDepthFunc.GL_LESS persistLineDepth GLBlendFactor.GL_ONE
    GLBlendFactor.GL_ONE ⟨0.04, 0.04, 0.04, 1⟩

/-- The graphics calls of `AddToPersistence` for a non-empty `v`, in source
order; `clear` is the value of `clear_persistence` on entry, `w` and `h` the
widget size. -/
def persistenceCalls (clear : Bool) (w h : Int) (v : GLVector) : List GLCall :=
  -- Prep GL state, bind FBO
  [GLCall.glBindFramebuffer GLFramebuffer.persist_fbo] ++
  (if clear then [GLCall.glClearColor 0 0 0 0, GLCall.glClear true true] else []) ++
  [ GLCall.glViewport 0 0 PERSIST_WIDTH PERSIST_HEIGHT,
    GLCall.glClear false true,
    GLCall.glDepthFunc GLDepthFunc.GL_LESS,
    GLCall.glDisable GLCap.GL_DEPTH_TEST,
    GLCall.glLineWidth 2,
    -- Prep matrices
    GLCall.glMatrixMode GLMatrixMode.GL_MODELVIEW,
    GLCall.glPushMatrix,
    GLCall.glLoadIdentity,
    GLCall.glScalef PERSIST_WIDTH PERSIST_HEIGHT 1,
    GLCall.glMatrixMode GLMatrixMode.GL_PROJECTION,
    GLCall.glPushMatrix,
    GLCall.glLoadIdentity,
    GLCall.glOrtho 0 PERSIST_WIDTH 0 PERSIST_HEIGHT (-1) 1,
    GLCall.glEnable GLCap.GL_BLEND,
    GLCall.glBlendEquation,
    -- Reduce current color by blending a big full screen quad
    GLCall.glBlendFunc GLBlendFactor.GL_ZERO GLBlendFactor.GL_ONE_MINUS_SRC_ALPHA,
    GLCall.glColor4f 0 0 0 (2 * 0.01),
    GLCall.glBegin GLPrimitive.GL_QUADS,
    GLCall.glTexCoord2f 0 0, GLCall.glVertex2f 0 0,
    GLCall.glTexCoord2f 0 1, GLCall.glVertex2f 0 1,
    GLCall.glTexCoord2f 1 1, GLCall.glVertex2f 1 1,
    GLCall.glTexCoord2f 1 0, GLCall.glVertex2f 1 0,
    GLCall.glEnd,
    -- Prep the trace, use decay rate to add to persistence
    GLCall.glBlendFunc GLBlendFactor.GL_ONE GLBlendFactor.GL_ONE,
    GLCall.glBindBuffer GLBuffer.traceVBO,
    glColor3f 0.04 0.04 0.04,
    GLCall.glBufferData (v.length * 4) v,
    GLCall.glVertexPointer 2 0 0,
    GLCall.glEnable GLCap.GL_DEPTH_TEST,
    GLCall.glClear false true,
    -- Draw the trace
    GLCall.glPolygonMode GLPolygonMode.GL_FILL,
    GLCall.glDrawArrays GLPrimitive.GL_QUAD_STRIP 0 (v.length / 2),
    GLCall.glTranslatef 0 0 (-0.5),
    GLCall.glPolygonMode GLPolygonMode.GL_LINE,
    GLCall.glDrawArrays GLPrimitive.GL_QUAD_STRIP 0 (v.length / 2),
    GLCall.glPolygonMode GLPolygonMode.GL_FILL,
    -- Revert GL state
    GLCall.glDisable GLCap.GL_BLEND,
    GLCall.glDepthFunc GLDepthFunc.GL_LEQUAL,
    GLCall.glLineWidth 1,
    GLCall.glViewport 0 0 w h,
    GLCall.glMatrixMode GLMatrixMode.GL_MODELVIEW,
    GLCall.glPopMatrix,
    GLCall.glMatrixMode GLMatrixMode.GL_PROJECTION,
    GLCall.glPopMatrix,
    -- Unbind FBO
    GLCall.glBindFramebuffer GLFramebuffer.zero ]

/-- `TraceView::AddToPersistence`: the new view state and the graphics calls
issued. An empty vector returns at once. Otherwise, with `persist_fbo`
bound, a pending clear wipes the surface and resets `clear_persistence`, and
the frame is accumulated. -/
def AddToPersistence (R : Rasterizer) (tv : TraceView) (v : GLVector) :
    TraceView × List GLCall :=
  if v.length < 1 then (tv, [])
  else
    let tv1 :=
      if tv.clear_persistence then
        { tv with persist := tv.persist.clearAll, clear_persistence := false }
      else tv
    ({ tv1 with persist := tv1.persist.accumulate R v },
      persistenceCalls tv.clear_persistence tv.width tv.height v)

/-- A rasteriser for the persistence scenarios: a frame covers the pixels of
the columns left of its length, filled up to the row of its length, and its
outline reaches one row further. -/
def persistScenarioRaster : Rasterizer :=
  { fill := fun v x y => decide (x < v.length) && decide (y < v.length)
    line := fun v x y => decide (x < v.length) && decide (y ≤ v.length) }

/-- A view with persistence on, a clear pending and a surface that still
holds old content (every pixel at half intensity). -/
def persistScenarioView : TraceView :=
  { scenarioView with
      persist_on := true
      clear_persistence := true
      persist := { color := fun _ _ => ⟨1 / 2, 1 / 2, 1 / 2, 1⟩, depth := fun _ _ => 1 / 2 } }

/-- Frame `A` of the persistence scenarios: two point groups. -/
def persistFrameA : GLVector := [0, 1 / 2, 0, 1 / 4, 1, 3 / 4, 1, 1 / 2]

/-- Frame `B` of the persistence scenarios: one point group. -/
def persistFrameB : GLVector := [0, 1 / 4, 0, 1 / 8]

/-- A trace of the trace manager, as far as the view reads it: `Active()`,
`Color()`, `Length()` and the samples that `normalize_trace` turns into
geometry. -/
structure Trace where
  Active : Bool
  Color : Rgba
  Length : Nat
  samples : List ℚ

/-- A marker after solving, as the view reads it. -/
structure Marker where
  Active : Bool
  InView : Bool
  xRatio : ℚ
  yRatio : ℚ
  DeltaActive : Bool
  DeltaInView : Bool
  delxRatio : ℚ
  delyRatio : ℚ

/-- The limit line of the trace manager. -/
structure LimitLine where
  Active : Bool
  LimitsPassed : Bool
  store : Trace

/-- The channel power information of the trace manager. -/
structure ChannelPower where
  IsEnabled : Bool
  IsChannelInView : Nat → Bool
  GetChannelStart : Nat → ℚ
  GetChannelStop : Nat → ℚ
  GetChannelPower : Nat → ℚ

/-- Modelled from the spec: the trace ring buffer `trace_buffer` of the trace
manager, whose class is not under src/. It holds the sweep vectors pushed by
acquisition and not yet drained, oldest first, at most `capacity` of them;
`Back()` peeks at the oldest undrained vector or reports that there is none,
`IncrementBack()` advances the drain cursor past it, and a push into a full
buffer overwrites the oldest entry. -/
structure TraceBuffer where
  capacity : Nat
  undrained : List GLVector

/-- Modelled from the spec: `Back()` of the trace ring buffer, the oldest
undrained vector, or `none` for the null pointer when nothing is new. -/
def TraceBuffer.Back (b : TraceBuffer) : Option GLVector :=
  b.undrained.head?

/-- Modelled from the spec: `IncrementBack()` of the trace ring buffer, which
advances the drain cursor by one entry. -/
def TraceBuffer.IncrementBack (b : TraceBuffer) : TraceBuffer :=
  { b with undrained := b.undrained.tail }

/-- The trace manager of the session, as the view reads it. -/
structure TraceManager where
  traces : List Trace
  markers : List Marker
  limitLine : LimitLine
  channelPower : ChannelPower
  trace_buffer : TraceBuffer
  LastTraceAboveReference : Bool

/-- The colours of `ColorPrefs`. -/
structure ColorPrefs where
  background : Rgba
  text : Rgba
  graticule : Rgba
  markers : Rgba
  markerText : Rgba
  limitLines : Rgba

/-- The preferences the view reads. -/
structure Preferences where
  trace_width : ℚ
  graticule_width : ℚ
  graticule_stipple : Bool

/-- The device status flags the view reads. -/
structure Device where
  IsOpen : Bool
  IsPowered : Bool
  ADCOverflow : Bool
  NeedsTempCal : Bool

/-- The sweep settings the view computes with: whether `Mode() == BB_IDLE`,
and the start and stop frequency. -/
structure SweepSettings where
  ModeIsIdle : Bool
  Start : ℚ
  Stop : ℚ

/-- The session the view renders: settings, device, trace manager, whether the
title is null, and the clock `now` that `QTime` reads, in milliseconds. -/
structure Session where
  colors : ColorPrefs
  prefs : Preferences
  titleIsNull : Bool
  device : Device
  sweep_settings : SweepSettings
  trace_manager : TraceManager
  now : Int

/-- The functions of `<cmath>` the view calls, on exact values. -/
structure FloatMath where
  sin : ℚ → ℚ
  cos : ℚ → ℚ
  tan : ℚ → ℚ
  sqrt : ℚ → ℚ

/-- The collaborators of the view that are not under src/: the constant
`MAX_WATERFALL_LINES` of the header, the content of memory behind a vector,
the rasteriser, the math library, the text metrics `GetTextWidth`,
`normalize_trace` (its result vector) and `TraceManager::SolveMarkers`. -/
structure Env where
  MAX_WATERFALL_LINES : Nat
  oob : Nat → ℚ
  raster : Rasterizer
  math : FloatMath
  GetTextWidth : Text → Font → Int
  normalize_trace : Trace → QPoint → GLVector
  SolveMarkers : SweepSettings → TraceManager → TraceManager

/-- Conversion of a `double` to `int`: truncation toward zero. -/
def truncToInt (q : ℚ) : Int :=
  if 0 ≤ q then Int.floor q else Int.ceil q

/-- The vertex data `graticule` built in the constructor: eleven horizontal
and eleven vertical lines of the unit square. -/
def graticule : GLVector :=
  ((List.range 11).map fun (i : Nat) => [0, 0.1 * (i : ℚ), 1, 0.1 * (i : ℚ)]).flatten ++
  ((List.range 11).map fun (i : Nat) => [0.1 * (i : ℚ), 0, 0.1 * (i : ℚ), 1]).flatten

/-- The vertex data `grat_border` built in the constructor. -/
def grat_border : GLVector := [0, 0, 1, 0, 1, 1, 0, 1, 0, 0]

/-- `TraceView::DrawString`: the point is moved left by the text width
(right aligned) or half of it (centred), then `renderText` is called. -/
def DrawString (env : Env) (s : Text) (f : Font) (p : QPoint) (align : TextAlignment) :
    List GLCall :=
  let p1 : QPoint :=
    if align = TextAlignment.RIGHT_ALIGNED then ⟨p.x - env.GetTextWidth s f, p.y⟩
    else if align = TextAlignment.CENTER_ALIGNED then
      ⟨p.x - (env.GetTextWidth s f).tdiv 2, p.y⟩
    else p
  [GLCall.renderText p1.x p1.y 0 s f]

/-- `TraceView::RenderGraticule`. -/
def RenderGraticule (s : Session) (tv : TraceView) : List GLCall :=
  -- Model view for graticule
  [ GLCall.glMatrixMode GLMatrixMode.GL_MODELVIEW,
    GLCall.glPushMatrix,
    GLCall.glLoadIdentity,
    GLCall.glTranslatef tv.grat_ll.x tv.grat_ll.y 0,
    GLCall.glScalef tv.grat_sz.x tv.grat_sz.y 1,
    -- Projection for graticule
    GLCall.glMatrixMode GLMatrixMode.GL_PROJECTION,
    GLCall.glPushMatrix,
    GLCall.glLoadIdentity,
    GLCall.glOrtho 0 tv.width 0 tv.height (-1) 1,
    GLCall.glLineWidth s.prefs.graticule_width,
    glQColor s.colors.graticule ] ++
  -- Draw inner grat
  (if s.prefs.graticule_stipple then
    [GLCall.glLineStipple 1 0x8888, GLCall.glEnable GLCap.GL_LINE_STIPPLE] else []) ++
  [ GLCall.glBindBuffer GLBuffer.gratVBO,
    GLCall.glVertexPointer 2 0 0,
    GLCall.glDrawArrays GLPrimitive.GL_LINES 0 (graticule.length / 2) ] ++
  (if s.prefs.graticule_stipple then [GLCall.glDisable GLCap.GL_LINE_STIPPLE] else []) ++
  -- Border
  [ GLCall.glBindBuffer GLBuffer.borderVBO,
    GLCall.glVertexPointer 2 0 0,
    GLCall.glDrawArrays GLPrimitive.GL_LINE_STRIP 0 (grat_border.length / 2),
    GLCall.glBindBuffer GLBuffer.zero,
    GLCall.glMatrixMode GLMatrixMode.GL_MODELVIEW,
    GLCall.glPopMatrix,
    GLCall.glMatrixMode GLMatrixMode.GL_PROJECTION,
    GLCall.glPopMatrix,
    GLCall.glLineWidth 1 ]

/-- `TraceView::DrawPersistence`: the accumulated surface drawn as one
textured quad over the graticule. -/
def DrawPersistence (tv : TraceView) : List GLCall :=
  -- Draw a single quad over our grat
  [ GLCall.glUseProgram GLProgramHandle.persist_program,
    GLCall.glEnable GLCap.GL_TEXTURE_2D,
    GLCall.glBindTexture GLTexture.persist_tex,
    GLCall.glGenerateMipmap,
    GLCall.glMatrixMode GLMatrixMode.GL_MODELVIEW,
    GLCall.glPushMatrix,
    GLCall.glLoadIdentity,
    GLCall.glTranslatef tv.grat_ll.x tv.grat_ll.y 0,
    GLCall.glScalef tv.grat_sz.x tv.grat_sz.y 1,
    GLCall.glEnable GLCap.GL_BLEND,
    GLCall.glBlendFunc GLBlendFactor.GL_SRC_ALPHA GLBlendFactor.GL_ONE_MINUS_SRC_ALPHA,
    GLCall.glBegin GLPrimitive.GL_QUADS,
    GLCall.glTexCoord2f 0 0, GLCall.glVertex2f 0 0,
    GLCall.glTexCoord2f 0 1, GLCall.glVertex2f 0 1,
    GLCall.glTexCoord2f 1 1, GLCall.glVertex2f 1 1,
    GLCall.glTexCoord2f 1 0, GLCall.glVertex2f 1 0,
    GLCall.glEnd,
    GLCall.glDisable GLCap.GL_BLEND,
    GLCall.glDisable GLCap.GL_TEXTURE_2D,
    GLCall.glPopMatrix,
    GLCall.glUseProgram GLProgramHandle.zero ]

/-- `TraceView::DrawLimitLines(limitTrace, v)`. -/
def DrawLimitLines (s : Session) (limitTrace : Trace) (v : GLVector) : List GLCall :=
  if limitTrace.Length < 1 then []
  else
    [ GLCall.glLineWidth 3,
      glQColor s.colors.limitLines,
      GLCall.glBindBuffer GLBuffer.traceVBO,
      GLCall.glBufferData (v.length * 4) v,
      GLCall.glPolygonMode GLPolygonMode.GL_LINE,
      -- Draw max
      GLCall.glVertexPointer 2 16 0,
      GLCall.glDrawArrays GLPrimitive.GL_LINE_STRIP 0 (v.length / 4),
      -- Draw min
      GLCall.glVertexPointer 2 16 8,
      GLCall.glDrawArrays GLPrimitive.GL_LINE_STRIP 0 (v.length / 4),
      GLCall.glPolygonMode GLPolygonMode.GL_FILL,
      GLCall.glPopMatrix,
      GLCall.glLineWidth 1 ]
/-- A vector of three floats, `float f[3]`. -/
structure Vec3 (K : Type) where
  x : K
  y : K
  z : K
deriving DecidableEq, Repr

/-- The static `normalize(float* f)` of trace_view.cpp, over a field `K` with
the square root `sqrt`: a zero magnitude is replaced by `0.1e-5`. -/
def normalize {K : Type} [Field K] [DecidableEq K] (sqrt : K → K) (f : Vec3 K) : Vec3 K :=
  let mag := sqrt (f.x * f.x + f.y * f.y + f.z * f.z)
  let mag1 := if mag = 0 then 1 / 1000000 else mag
  let invMag := 1 / mag1
  ⟨f.x * invMag, f.y * invMag, f.z * invMag⟩

/-- The static `cross(float* r, float* a, float* b)` of trace_view.cpp; `r`
is returned. -/
def cross {K : Type} [Field K] (a b : Vec3 K) : Vec3 K :=
  ⟨a.y * b.z - a.z * b.y, a.z * b.x - a.x * b.z, a.x * b.y - a.y * b.x⟩

/-- The vectors `glLookAt` computes: forward `f`, normalized up `UP`, side
`s` and recomputed up `u`. -/
structure LookAtBasis (K : Type) where
  f : Vec3 K
  UP : Vec3 K
  s : Vec3 K
  u : Vec3 K

/-- The vector part of `glLookAt(ex, ey, ez, cx, cy, cz, ux, uy, uz)`. -/
def glLookAtBasis {K : Type} [Field K] [DecidableEq K] (sqrt : K → K)
    (e c up : Vec3 K) : LookAtBasis K :=
  -- Find Forward Vector
  let f := normalize sqrt ⟨c.x - e.x, c.y - e.y, c.z - e.z⟩
  -- Normalize Up
  let UP := normalize sqrt up
  -- Find s and u
  let s := normalize sqrt (cross f UP)
  let u := cross s f
  ⟨f, UP, s, u⟩

/-- The function `glLookAt` of trace_view.cpp: the look-at matrix `LA` is
multiplied onto the current matrix, then the eye is translated to the origin. -/
def glLookAt (m : FloatMath) (e c up : Vec3 ℚ) : List GLCall :=
  let B := glLookAtBasis m.sqrt e c up
  [ GLCall.glMultMatrixf
      [ B.s.x, B.u.x, -B.f.x, 0,
        B.s.y, B.u.y, -B.f.y, 0,
        B.s.z, B.u.z, -B.f.z, 0,
        0, 0, 0, 1 ],
    GLCall.glTranslatef (-e.x) (-e.y) (-e.z) ]

/-- The function `glPerspective` of trace_view.cpp. -/
def glPerspective (m : FloatMath) (angle aRatio near_val far_val : ℚ) : List GLCall :=
  let R := m.tan (angle * (M_PI / 360)) * near_val
  let T := R * aRatio
  [GLCall.glFrustum (-T) T (-R) R near_val far_val]

/-- The static `sphereToCart(theta, phi, rho, &x, &y, &z)` of trace_view.cpp,
over a field `K` with the functions `sin` and `cos`. -/
def sphereToCart {K : Type} [Field K] (sin cos : K → K) (theta phi rho : K) : Vec3 K :=
  ⟨rho * sin phi * cos theta, rho * sin phi * sin theta, rho * cos phi⟩

/-- The body of the drain loop of `RenderTraces` for one peeked vector `v`:
it goes to `AddToPersistence` if persistence is on and to `AddToWaterfall` if
the waterfall is not off. -/
def drainOne (env : Env) (tv : TraceView) (v : GLVector) : Option (TraceView × List GLCall) :=
  let r1 := if tv.persist_on then AddToPersistence env.raster tv v else (tv, [])
  if r1.1.waterfall_state ≠ WaterfallState.WaterfallOFF then
    match AddToWaterfall env.MAX_WATERFALL_LINES env.oob r1.1 v with
    | none => none
    | some tv2 => some (tv2, r1.2)
  else some r1

/-- The drain loop of `RenderTraces`,
`while(v_ptr = manager->trace_buffer.Back()) { ...; IncrementBack(); }`.
`fuel` bounds the iterations; `none` is a spent fuel or a fault of
`AddToWaterfall`. -/
def drainLoop (env : Env) : Nat → Session → TraceView →
    Option (Session × TraceView × List GLCall)
  | 0, _, _ => none
  | fuel + 1, s, tv =>
    match s.trace_manager.trace_buffer.Back with
    | none => some (s, tv, [])
    | some v =>
      match drainOne env tv v with
      | none => none
      | some (tv1, calls1) =>
        let s1 := { s with trace_manager := { s.trace_manager with
          trace_buffer := s.trace_manager.trace_buffer.IncrementBack } }
        match drainLoop env fuel s1 tv1 with
        | none => none
        | some (s2, tv2, calls2) => some (s2, tv2, calls1 ++ calls2)

/-- The loop of `RenderTraces` over the traces `GetTrace(i)`, `i` below
`TRACE_COUNT`: an active trace is normalized into `traces[i]` and drawn. -/
def renderTraceLoop (env : Env) : List (Nat × Trace) → TraceView → TraceView × List GLCall
  | [], tv => (tv, [])
  | (i, trace) :: rest, tv =>
    if trace.Active then
      let v := env.normalize_trace trace tv.grat_sz
      let r := renderTraceLoop env rest { tv with traces := tv.traces.set i v }
      (r.1, DrawTrace trace.Color v ++ r.2)
    else renderTraceLoop env rest tv

/-- `TraceView::RenderTraces`. The traces of the manager are its
`TRACE_COUNT` traces in order; the drain loop gets one unit of fuel more than
there are undrained vectors. -/
def RenderTraces (env : Env) (s : Session) (tv : TraceView) :
    Option (Session × TraceView × List GLCall) :=
  -- Un-buffer persist/waterfall data
  match (if tv.persist_on || decide (tv.waterfall_state ≠ WaterfallState.WaterfallOFF) then
      drainLoop env (s.trace_manager.trace_buffer.undrained.length + 1) s tv
    else some (s, tv, [])) with
  | none => none
  | some (s1, tv1, calls1) =>
    if tv1.persist_on then some (s1, tv1, calls1 ++ DrawPersistence tv1)
    else
      let manager := s1.trace_manager
      -- Loop through each trace
      let r := renderTraceLoop env manager.traces.enum tv1
      let limit : TraceView × List GLCall :=
        if manager.limitLine.Active then
          let v := env.normalize_trace manager.limitLine.store r.1.grat_sz
          ({ r.1 with traces := r.1.traces.set 0 v }, DrawLimitLines s1 manager.limitLine.store v)
        else (r.1, [])
      some (s1, limit.1,
        calls1 ++
        -- Prep viewport
        [ GLCall.glPushAttrib,
          GLCall.glViewport tv1.grat_ll.x tv1.grat_ll.y tv1.grat_sz.x tv1.grat_sz.y,
          -- Prep modelview
          GLCall.glMatrixMode GLMatrixMode.GL_MODELVIEW,
          GLCall.glPushMatrix,
          GLCall.glLoadIdentity,
          -- Ortho
          GLCall.glMatrixMode GLMatrixMode.GL_PROJECTION,
          GLCall.glPushMatrix,
          GLCall.glLoadIdentity,
          GLCall.glOrtho 0 1 0 1 (-1) 1,
          -- Nice lines, doesn't smooth quads
          GLCall.glEnable GLCap.GL_BLEND,
          GLCall.glEnable GLCap.GL_LINE_SMOOTH,
          GLCall.glBlendFunc GLBlendFactor.GL_SRC_ALPHA GLBlendFactor.GL_ONE_MINUS_SRC_ALPHA,
          GLCall.glBlendEquation,
          GLCall.glLineWidth s1.prefs.trace_width ] ++
        r.2 ++ limit.2 ++
        -- Disable nice lines
        [ GLCall.glLineWidth 1,
          GLCall.glDisable GLCap.GL_BLEND,
          GLCall.glDisable GLCap.GL_LINE_SMOOTH,
          GLCall.glMatrixMode GLMatrixMode.GL_MODELVIEW,
          GLCall.glPopMatrix,
          GLCall.glMatrixMode GLMatrixMode.GL_PROJECTION,
          GLCall.glPopMatrix,
          GLCall.glPopAttrib ])

/-- The graphics calls of one iteration of the frame loop of `DrawWaterfall`,
for the vertex buffer `r` and the texture coordinates `t` of a frame. -/
def drawWaterfallFrame (state : WaterfallState) (r t : GLVector) : List GLCall :=
  -- Buffer the data, each 2D and 3D handle setting pointers
  [ GLCall.glBindBuffer GLBuffer.textureVBO,
    GLCall.glBufferData (t.length * 4) t,
    GLCall.glBindBuffer GLBuffer.traceVBO,
    GLCall.glBufferData (r.length * 4) r ] ++
  (if state = WaterfallState.Waterfall2D then
    -- Reset glPointers, draw line across top of trace, then shift
    [ GLCall.glLineWidth 5,
      GLCall.glBindBuffer GLBuffer.textureVBO,
      GLCall.glTexCoordPointer 2 16 0,
      GLCall.glBindBuffer GLBuffer.traceVBO,
      GLCall.glVertexPointer 3 24 0,
      GLCall.glDrawArrays GLPrimitive.GL_LINE_STRIP 0 (r.length / 6),
      GLCall.glTranslatef 0 4 0,
      GLCall.glLineWidth 1 ]
  else if state = WaterfallState.Waterfall3D then
    -- Main draw and pointers
    [ GLCall.glBindBuffer GLBuffer.textureVBO,
      GLCall.glTexCoordPointer 2 0 0,
      GLCall.glBindBuffer GLBuffer.traceVBO,
      GLCall.glVertexPointer 3 0 0,
      GLCall.glDrawArrays GLPrimitive.GL_QUAD_STRIP 0 (r.length / 3),
      -- Draw the waterfall outline
      GLCall.glDisable GLCap.GL_TEXTURE_2D,
      glColor3f 0 0 0,
      GLCall.glBindBuffer GLBuffer.traceVBO,
      GLCall.glVertexPointer 3 24 0,
      GLCall.glDrawArrays GLPrimitive.GL_LINE_STRIP 0 (r.length / 6),
      GLCall.glPolygonMode GLPolygonMode.GL_FILL,
      GLCall.glEnable GLCap.GL_TEXTURE_2D,
      GLCall.glTranslatef 0 0.05 0 ]
  else [])

/-- `TraceView::DrawWaterfall`. Frame `i` is drawn from `waterfall_verts[i]`
and `waterfall_coords[i]`; the two vectors have equal length whenever
`AddToWaterfall` and `ClearWaterfall` are the only writers. -/
def DrawWaterfall (env : Env) (cam : Camera) (tv : TraceView) : List GLCall :=
  -- Step 1 : Setup
  [ GLCall.glEnableClientState GLClientCap.GL_VERTEX_ARRAY,
    GLCall.glEnableClientState GLClientCap.GL_TEXTURE_COORD_ARRAY,
    GLCall.glEnable GLCap.GL_TEXTURE_2D,
    GLCall.glEnable GLCap.GL_DEPTH_TEST,
    GLCall.glPushAttrib,
    GLCall.glBindTexture GLTexture.waterfall_tex ] ++
  (if tv.waterfall_state = WaterfallState.Waterfall2D then
    -- Create perfect fit viewport for 2D waterfall, auto clips for us
    [ GLCall.glViewport tv.grat_ul.x (tv.grat_ul.y + 50) tv.grat_sz.x
        (truncToInt ((tv.height : ℚ) * 0.40)),
      GLCall.glMatrixMode GLMatrixMode.GL_MODELVIEW,
      GLCall.glPushMatrix,
      GLCall.glLoadIdentity,
      GLCall.glScalef tv.grat_sz.x 1 1,
      GLCall.glMatrixMode GLMatrixMode.GL_PROJECTION,
      GLCall.glPushMatrix,
      GLCall.glLoadIdentity,
      GLCall.glOrtho 0 tv.grat_sz.x 0 ((tv.height : ℚ) * 0.35) (-1) 1 ]
  else if tv.waterfall_state = WaterfallState.Waterfall3D then
    [ GLCall.glViewport 0 (tv.grat_ul.y + 50) tv.width (truncToInt ((tv.height : ℚ) * 0.4)),
      GLCall.glMatrixMode GLMatrixMode.GL_PROJECTION,
      GLCall.glPushMatrix,
      GLCall.glLoadIdentity ] ++
    glPerspective env.math 90 (0.4 * (tv.width : ℚ) / (tv.height : ℚ)) 0.1 100 ++
    -- Look At stuff
    [ GLCall.glMatrixMode GLMatrixMode.GL_MODELVIEW,
      GLCall.glPushMatrix,
      GLCall.glLoadIdentity ] ++
    (let e := sphereToCart env.math.sin env.math.cos cam.theta cam.phi cam.rho
     glLookAt env.math ⟨e.x + 0.5, e.y, e.z + 0.5⟩ ⟨0.5, 0, 0.5⟩ ⟨0, 0, 1⟩)
  else []) ++
  -- Step 2 : Data Buffering and drawing
  ((List.range tv.waterfall_verts.length).map fun i =>
    drawWaterfallFrame tv.waterfall_state (tv.waterfall_verts.getD i [])
      (tv.waterfall_coords.getD i [])).flatten ++
  -- Step 3 : Clean up/Revert GL state
  [ GLCall.glDisableClientState GLClientCap.GL_TEXTURE_COORD_ARRAY,
    GLCall.glDisable GLCap.GL_TEXTURE_2D,
    GLCall.glMatrixMode GLMatrixMode.GL_MODELVIEW,
    GLCall.glPopMatrix,
    GLCall.glMatrixMode GLMatrixMode.GL_PROJECTION,
    GLCall.glPopMatrix,
    GLCall.glPopAttrib,
    GLCall.glDisable GLCap.GL_DEPTH_TEST ]
/-- The y-axis labels of `RenderGratText`, `for(int i = 0; i <= 8; i += 2)`. -/
def yAxisLabels (env : Env) (tv : TraceView) : List GLCall :=
  ([0, 2, 4, 6, 8].map fun (i : Nat) =>
    DrawString env (Text.yAxisLabel i) Font.divFont
      ⟨58, (tv.grat_sz.y.tdiv 10) * (i : Int) + tv.grat_ll.y - 5⟩
      TextAlignment.RIGHT_ALIGNED).flatten

/-- The uncal text strings at the end of `RenderGratText`; `uncal_y` moves
down 16 pixels after each warning drawn. -/
def uncalStrings (env : Env) (s : Session) (tv : TraceView) : List GLCall :=
  let uncal_x := tv.grat_ul.x + 5
  let y0 := tv.grat_ul.y - 22
  let y1 := if !s.device.IsPowered then y0 - 16 else y0
  let y2 := if s.device.ADCOverflow then y1 - 16 else y1
  [glColor3f 1 0 0] ++
  (if !s.device.IsPowered then
    DrawString env Text.lowVoltage Font.textFont ⟨uncal_x, y0⟩ TextAlignment.LEFT_ALIGNED
  else []) ++
  (if s.device.ADCOverflow then
    DrawString env Text.ifOverload Font.textFont ⟨uncal_x, y1⟩ TextAlignment.LEFT_ALIGNED
  else []) ++
  (if s.device.NeedsTempCal then
    DrawString env Text.deviceTemp Font.textFont ⟨uncal_x, y2⟩ TextAlignment.LEFT_ALIGNED
  else []) ++
  (if !s.device.IsPowered || s.device.ADCOverflow || s.device.NeedsTempCal then
    DrawString env Text.uncal Font.textFont ⟨tv.grat_ul.x - 5, tv.grat_ul.y - 22⟩
      TextAlignment.RIGHT_ALIGNED
  else [])

/-- `TraceView::RenderGratText`: the view with its `QTime` restarted, and the
calls issued. -/
def RenderGratText (env : Env) (s : Session) (tv : TraceView) : TraceView × List GLCall :=
  let tm := s.trace_manager
  ({ tv with time := s.now },
    [ glQColor s.colors.text,
      GLCall.glMatrixMode GLMatrixMode.GL_MODELVIEW,
      GLCall.glPushMatrix,
      GLCall.glLoadIdentity,
      GLCall.glMatrixMode GLMatrixMode.GL_PROJECTION,
      GLCall.glPushMatrix,
      GLCall.glLoadIdentity,
      GLCall.glOrtho 0 tv.width 0 tv.height (-1) 1 ] ++
    (if !s.titleIsNull then
      DrawString env Text.title Font.arial20 ⟨tv.width.tdiv 2, tv.height - 22⟩
        TextAlignment.CENTER_ALIGNED
    else []) ++
    DrawString env Text.elapsedSweepSize Font.textFont
      ⟨tv.grat_ll.x + tv.grat_sz.x - 5, tv.grat_ll.y - 40⟩ TextAlignment.RIGHT_ALIGNED ++
    DrawString env Text.center Font.textFont
      ⟨tv.width.tdiv 2, tv.grat_ll.y - 20⟩ TextAlignment.CENTER_ALIGNED ++
    DrawString env Text.span Font.textFont
      ⟨tv.width.tdiv 2, tv.grat_ll.y - 40⟩ TextAlignment.CENTER_ALIGNED ++
    DrawString env Text.start Font.textFont
      ⟨tv.grat_ll.x + 5, tv.grat_ll.y - 20⟩ TextAlignment.LEFT_ALIGNED ++
    DrawString env Text.stop Font.textFont
      ⟨tv.grat_ll.x + tv.grat_sz.x - 5, tv.grat_ll.y - 20⟩ TextAlignment.RIGHT_ALIGNED ++
    DrawString env Text.ref Font.textFont
      ⟨tv.grat_ll.x + 5, tv.grat_ul.y + 22⟩ TextAlignment.LEFT_ALIGNED ++
    DrawString env Text.div Font.textFont
      ⟨tv.grat_ul.x + 5, tv.grat_ul.y + 2⟩ TextAlignment.LEFT_ALIGNED ++
    DrawString env Text.rbw Font.textFont
      ⟨tv.width.tdiv 2, tv.grat_ul.y + 22⟩ TextAlignment.CENTER_ALIGNED ++
    DrawString env Text.atten Font.textFont
      ⟨tv.width.tdiv 2, tv.grat_ul.y + 2⟩ TextAlignment.CENTER_ALIGNED ++
    DrawString env Text.vbw Font.textFont
      ⟨tv.grat_ul.x + tv.grat_sz.x - 5, tv.grat_ul.y + 22⟩ TextAlignment.RIGHT_ALIGNED ++
    -- y-axis labels
    yAxisLabels env tv ++
    (if tm.limitLine.Active then
      let limitTextLoc : QPoint :=
        ⟨truncToInt ((tv.grat_ul.x : ℚ) + (tv.grat_sz.x : ℚ) * 0.5),
         truncToInt ((tv.grat_ul.y : ℚ) - (tv.grat_sz.y : ℚ) * 0.25)⟩
      if tm.limitLine.LimitsPassed then
        [glColor3f 0 1 0] ++
        DrawString env Text.passed Font.textFont limitTextLoc TextAlignment.CENTER_ALIGNED
      else
        [glColor3f 1 0 0] ++
        DrawString env Text.failed Font.textFont limitTextLoc TextAlignment.CENTER_ALIGNED
    else []) ++
    -- Amplitude high warning
    (if tm.LastTraceAboveReference then
      [glColor3f 1 0 0] ++
      DrawString env Text.levelWarning Font.textFont
        ⟨truncToInt (((tv.grat_ul.x + tv.grat_sz.x : Int) : ℚ) / 2), tv.grat_ul.y - 22⟩
        TextAlignment.CENTER_ALIGNED
    else []) ++
    -- Uncal text strings
    uncalStrings env s tv ++
    [ GLCall.glMatrixMode GLMatrixMode.GL_MODELVIEW,
      GLCall.glPopMatrix,
      GLCall.glMatrixMode GLMatrixMode.GL_PROJECTION,
      GLCall.glPopMatrix ])

/-- `TraceView::DrawMarker(x, y, num)`: the diamond glyph and its label. -/
def DrawMarker (env : Env) (x y num : Int) : List GLCall :=
  [ glColor3f 1 1 1,
    GLCall.glBegin GLPrimitive.GL_POLYGON,
    GLCall.glVertex2f x y,
    GLCall.glVertex2f (x + 10 : Int) (y + 15 : Int),
    GLCall.glVertex2f x (y + 30 : Int),
    GLCall.glVertex2f (x - 10 : Int) (y + 15 : Int),
    GLCall.glEnd,
    glColor3f 0 0 0,
    GLCall.glBegin GLPrimitive.GL_LINE_STRIP,
    GLCall.glVertex2f x y,
    GLCall.glVertex2f (x + 10 : Int) (y + 15 : Int),
    GLCall.glVertex2f x (y + 30 : Int),
    GLCall.glVertex2f (x - 10 : Int) (y + 15 : Int),
    GLCall.glVertex2f x y,
    GLCall.glEnd,
    glColor3f 0 0 0 ] ++
  DrawString env (Text.markerNum num) Font.divFont ⟨x, y + 10⟩ TextAlignment.CENTER_ALIGNED

/-- `TraceView::DrawDeltaMarker(x, y, num)`: the five-cornered glyph and its
label. -/
def DrawDeltaMarker (env : Env) (x y num : Int) : List GLCall :=
  [ glColor3f 1 1 1,
    GLCall.glBegin GLPrimitive.GL_POLYGON,
    GLCall.glVertex2f x y,
    GLCall.glVertex2f (x + 11 : Int) (y + 11 : Int),
    GLCall.glVertex2f (x + 11 : Int) (y + 27 : Int),
    GLCall.glVertex2f (x - 11 : Int) (y + 27 : Int),
    GLCall.glVertex2f (x - 11 : Int) (y + 11 : Int),
    GLCall.glEnd,
    glColor3f 0 0 0,
    GLCall.glBegin GLPrimitive.GL_LINE_STRIP,
    GLCall.glVertex2f x y,
    GLCall.glVertex2f (x + 11 : Int) (y + 11 : Int),
    GLCall.glVertex2f (x + 11 : Int) (y + 27 : Int),
    GLCall.glVertex2f (x - 11 : Int) (y + 27 : Int),
    GLCall.glVertex2f (x - 11 : Int) (y + 11 : Int),
    GLCall.glVertex2f x y,
    GLCall.glEnd,
    glColor3f 0 0 0 ] ++
  DrawString env (Text.deltaMarkerNum num) Font.divFont ⟨x, y + 11⟩ TextAlignment.CENTER_ALIGNED

/-- The loop of `RenderMarkers` over the markers `GetMarker(i)`; `y_print` is
the height of the next text line, `x_print` their right edge. -/
def renderMarkerLoop (env : Env) (s : Session) (tv : TraceView) (x_print : Int) :
    List (Nat × Marker) → Int → List GLCall
  | [], _ => []
  | (i, m) :: rest, y_print =>
    if !m.Active || !m.InView then renderMarkerLoop env s tv x_print rest y_print
    else
      (if m.InView then
        DrawMarker env (truncToInt (m.xRatio * (tv.grat_sz.x : ℚ)))
          (truncToInt (m.yRatio * (tv.grat_sz.y : ℚ))) ((i : Int) + 1)
      else []) ++
      (if m.DeltaActive && m.DeltaInView then
        DrawDeltaMarker env (truncToInt (m.delxRatio * (tv.grat_sz.x : ℚ)))
          (truncToInt (m.delyRatio * (tv.grat_sz.y : ℚ))) ((i : Int) + 1)
      else []) ++
      -- Does not have to be in view to draw the delta values
      (if m.DeltaActive then
        [glQColor s.colors.markerText] ++
        DrawString env (Text.markerDelta (i + 1)) Font.textFont ⟨x_print, y_print⟩
          TextAlignment.RIGHT_ALIGNED ++
        renderMarkerLoop env s tv x_print rest (y_print - 20)
      else if m.Active then
        [glQColor s.colors.markerText] ++
        DrawString env (Text.markerValue (i + 1)) Font.textFont ⟨x_print, y_print⟩
          TextAlignment.RIGHT_ALIGNED ++
        renderMarkerLoop env s tv x_print rest (y_print - 20)
      else renderMarkerLoop env s tv x_print rest y_print)

/-- `TraceView::RenderMarkers`: the session with its markers solved, and the
calls issued. The markers of the manager are its `MARKER_COUNT` markers in
order. -/
def RenderMarkers (env : Env) (s : Session) (tv : TraceView) : Session × List GLCall :=
  let x_print := tv.grat_sz.x - 5
  let y_print := tv.grat_sz.y - 20
  let s1 := { s with trace_manager := env.SolveMarkers s.sweep_settings s.trace_manager }
  (s1,
    -- Viewport on grat, full pixel scale
    [ GLCall.glPushAttrib,
      GLCall.glViewport tv.grat_ll.x tv.grat_ll.y tv.grat_sz.x tv.grat_sz.y,
      GLCall.glMatrixMode GLMatrixMode.GL_MODELVIEW,
      GLCall.glPushMatrix,
      GLCall.glLoadIdentity,
      GLCall.glMatrixMode GLMatrixMode.GL_PROJECTION,
      GLCall.glPushMatrix,
      GLCall.glLoadIdentity,
      GLCall.glOrtho 0 tv.grat_sz.x 0 tv.grat_sz.y (-1) 1,
      -- Nice lines, doesn't smooth quads
      GLCall.glEnable GLCap.GL_LINE_SMOOTH,
      GLCall.glEnable GLCap.GL_BLEND,
      GLCall.glBlendFunc GLBlendFactor.GL_SRC_ALPHA GLBlendFactor.GL_ONE_MINUS_SRC_ALPHA,
      GLCall.glBlendEquation,
      GLCall.glLineWidth 1 ] ++
    renderMarkerLoop env s1 tv x_print s1.trace_manager.markers.enum y_print ++
    -- Disable nice lines
    [ GLCall.glDisable GLCap.GL_LINE_SMOOTH,
      GLCall.glDisable GLCap.GL_BLEND,
      GLCall.glMatrixMode GLMatrixMode.GL_MODELVIEW,
      GLCall.glPopMatrix,
      GLCall.glMatrixMode GLMatrixMode.GL_PROJECTION,
      GLCall.glPopMatrix,
      GLCall.glPopAttrib ])

/-- The body of the channel loop of `RenderChannelPower` for channel `i`. -/
def renderChannel (env : Env) (s : Session) (tv : TraceView) (start span : ℚ) (i : Nat) :
    List GLCall :=
  let cp := s.trace_manager.channelPower
  if !cp.IsChannelInView i then []
  else
    let x1 := (cp.GetChannelStart i - start) / span
    let x2 := (cp.GetChannelStop i - start) / span
    let xCen := (x1 + x2) / 2
    [ GLCall.glColor4f 0.5 0.5 0.5 0.4,
      GLCall.glBegin GLPrimitive.GL_QUADS,
      GLCall.glVertex2f (x1 * (tv.grat_sz.x : ℚ)) 0,
      GLCall.glVertex2f (x2 * (tv.grat_sz.x : ℚ)) 0,
      GLCall.glVertex2f (x2 * (tv.grat_sz.x : ℚ)) tv.grat_sz.y,
      GLCall.glVertex2f (x1 * (tv.grat_sz.x : ℚ)) tv.grat_sz.y,
      GLCall.glEnd,
      -- Draw Channel power text
      glQColor s.colors.text ] ++
    DrawString env (Text.channelPower i) Font.textFont
      ⟨truncToInt (xCen * (tv.grat_sz.x : ℚ)), 40⟩ TextAlignment.CENTER_ALIGNED ++
    -- Draw dBc power text
    (if i = 0 ∨ i = 2 then
      DrawString env (Text.channelPowerDbc i) Font.textFont
        ⟨truncToInt (xCen * (tv.grat_sz.x : ℚ)), 20⟩ TextAlignment.CENTER_ALIGNED
    else [])

/-- `TraceView::RenderChannelPower`. -/
def RenderChannelPower (env : Env) (s : Session) (tv : TraceView) : List GLCall :=
  let cp := s.trace_manager.channelPower
  if !cp.IsEnabled then []
  else
    let start := s.sweep_settings.Start
    let stop := s.sweep_settings.Stop
    let span := stop - start
    if span = 0 then []
    else
      [ GLCall.glPushAttrib,
        GLCall.glViewport tv.grat_ll.x tv.grat_ll.y tv.grat_sz.x tv.grat_sz.y,
        GLCall.glMatrixMode GLMatrixMode.GL_MODELVIEW,
        GLCall.glPushMatrix,
        GLCall.glLoadIdentity,
        GLCall.glMatrixMode GLMatrixMode.GL_PROJECTION,
        GLCall.glPushMatrix,
        GLCall.glLoadIdentity,
        GLCall.glOrtho 0 tv.grat_sz.x 0 tv.grat_sz.y (-1) 1,
        GLCall.glEnable GLCap.GL_BLEND,
        GLCall.glBlendFunc GLBlendFactor.GL_SRC_ALPHA GLBlendFactor.GL_ONE_MINUS_SRC_ALPHA ] ++
      ([0, 1, 2].map fun (i : Nat) => renderChannel env s tv start span i).flatten ++
      [ GLCall.glDisable GLCap.GL_BLEND,
        GLCall.glMatrixMode GLMatrixMode.GL_PROJECTION,
        GLCall.glPopMatrix,
        GLCall.glMatrixMode GLMatrixMode.GL_MODELVIEW,
        GLCall.glPopMatrix,
        GLCall.glPopAttrib ]
/-- `TraceView::resizeEvent`: the graticule bounds follow the widget size. -/
def resizeEvent (tv : TraceView) : TraceView :=
  { tv with
      grat_ll := ⟨60, 50⟩
      grat_ul := ⟨60, tv.height - 50⟩
      grat_sz := ⟨tv.width - 80, tv.height - 100⟩ }

/-- The helper `glQClearColor(c, alpha)`. -/
def glQClearColor (c : Rgba) (alpha : ℚ) : GLCall :=
  GLCall.glClearColor c.r c.g c.b alpha

/-- The graticule bounds `Paint` computes from the window size, the title and
the waterfall mode: `grat_upper_left` and `grat_size`. -/
def paintBounds (s : Session) (tv : TraceView) : QPoint × QPoint :=
  let b0 : QPoint × QPoint := (⟨60, tv.height - 50⟩, ⟨tv.width - 80, tv.height - 100⟩)
  let b1 : QPoint × QPoint :=
    if !s.titleIsNull then (⟨60, tv.height - 70⟩, ⟨tv.width - 80, tv.height - 120⟩) else b0
  if tv.waterfall_state ≠ WaterfallState.WaterfallOFF then
    (⟨60, tv.height.tdiv 2⟩, ⟨tv.width - 80, tv.height.tdiv 2 - 50⟩)
  else b1

/-- The last branch of `Paint`, taken when the device is open and not idle:
traces, waterfall, graticule text, markers and channel power. -/
def paintContent (env : Env) (cam : Camera) (s : Session) (tv : TraceView) :
    Option (Session × TraceView × List GLCall) :=
  match RenderTraces env s tv with
  | none => none
  | some (s1, tv1, calls1) =>
    let calls2 :=
      if tv1.waterfall_state ≠ WaterfallState.WaterfallOFF then DrawWaterfall env cam tv1
      else []
    let text := RenderGratText env s1 tv1
    let markers := RenderMarkers env s1 text.1
    some (markers.1, text.1,
      calls1 ++ calls2 ++
      [ GLCall.glDisable GLCap.GL_DEPTH_TEST,
        GLCall.glDisableClientState GLClientCap.GL_VERTEX_ARRAY,
        GLCall.glBindBuffer GLBuffer.zero ] ++
      text.2 ++ markers.2 ++ RenderChannelPower env markers.1 text.1)

/-- `TraceView::Paint`, the main paint routine: the session and the view
after the pass, and the graphics calls issued, in order. -/
def Paint (env : Env) (cam : Camera) (s : Session) (tv : TraceView) :
    Option (Session × TraceView × List GLCall) :=
  -- Before we paint, ensure the glcontext belongs to the main thread
  if tv.contextThread ≠ Thread.gui then some (s, tv, [])
  else
    let head : List GLCall :=
      [ GLCall.makeCurrent,
        glQClearColor s.colors.background 0,
        GLCall.glClear true true,
        -- Must be called for textures to be drawn properly
        GLCall.glTexEnvf ]
    -- Draw nothing but background color if the graticule has a
    --   negative width or height
    if tv.grat_sz.x ≤ 0 ∨ tv.grat_sz.y ≤ 0 then some (s, tv, head)
    else
      -- Calculate dimensions based on window size
      let tv1 : TraceView :=
        { tv with
            grat_ll := ⟨60, 50⟩
            grat_ul := (paintBounds s tv).1
            grat_sz := (paintBounds s tv).2 }
      let setup : List GLCall :=
        [ GLCall.glViewport 0 0 tv.width tv.height,
          GLCall.glMatrixMode GLMatrixMode.GL_MODELVIEW,
          GLCall.glLoadIdentity,
          GLCall.glMatrixMode GLMatrixMode.GL_PROJECTION,
          GLCall.glLoadIdentity,
          GLCall.glOrtho 0 tv.width 0 tv.height (-1) 1,
          GLCall.glEnable GLCap.GL_DEPTH_TEST,
          GLCall.glEnableClientState GLClientCap.GL_VERTEX_ARRAY ]
      -- Graticule always shown
      let grat := RenderGraticule s tv1
      if !s.device.IsOpen then
        some (s, tv1, head ++ setup ++ grat ++ [glQColor s.colors.text] ++
          DrawString env Text.noDeviceConnected Font.arial14
            ⟨tv1.grat_ul.x, tv1.grat_ul.y + 5⟩ TextAlignment.LEFT_ALIGNED ++
          [GLCall.doneCurrent])
      else if s.sweep_settings.ModeIsIdle then
        some (s, tv1, head ++ setup ++ grat ++ [glQColor s.colors.text] ++
          DrawString env Text.deviceIdle Font.arial14
            ⟨tv1.grat_ul.x, tv1.grat_ul.y + 5⟩ TextAlignment.LEFT_ALIGNED ++
          [GLCall.doneCurrent])
      else
        match paintContent env cam s tv1 with
        | none => none
        | some (s2, tv2, calls) =>
          some (s2, tv2, head ++ setup ++ grat ++ calls ++ [GLCall.doneCurrent])

/-- The test `drawMutex.try_lock()` of `paintEvent`: the view with the mutex
taken, or `none` when the mutex is already held. -/
def tryLockDrawMutex (tv : TraceView) : Option TraceView :=
  if tv.drawMutex then none else some { tv with drawMutex := true }

/-- The body of `paintEvent` under the draw lock: `paintCondition.notify()`,
`Paint()`, `context()->moveToThread(swap_thread)`, `drawMutex.unlock()`. -/
def paintLocked (env : Env) (cam : Camera) (s : Session) (tv : TraceView) :
    Option (Session × TraceView × List GLCall) :=
  match Paint env cam s { tv with paintCondition := true } with
  | none => none
  | some (s1, tv1, calls) =>
    some (s1, { tv1 with contextThread := Thread.swap_thread, drawMutex := false }, calls)

/-- `TraceView::paintEvent`: draw if the lock can be taken, otherwise nothing. -/
def paintEvent (env : Env) (cam : Camera) (s : Session) (tv : TraceView) :
    Option (Session × TraceView × List GLCall) :=
  match tryLockDrawMutex tv with
  | none => some (s, tv, [])
  | some tv1 => paintLocked env cam s tv1

/-- Where a caller of `paintEvent` stands: before the `try_lock`, inside the
locked body, or returned. -/
inductive PaintPc where
  | start
  | painting
  | returned
deriving DecidableEq, Repr

/-- Several callers of `paintEvent` interleaved at the granularity of the
mutex operations: the shared session and view, and each caller's position. -/
structure PaintSystem where
  session : Session
  view : TraceView
  pc : Nat → PaintPc

/-- One step of caller `i`: at `start` it runs the `try_lock` and either
enters the locked body or returns; in `painting` it runs the locked body to
its `unlock` and returns (a fault of the paint pass leaves it where it is). -/
def PaintSystem.step (env : Env) (cam : Camera) (sys : PaintSystem) (i : Nat) : PaintSystem :=
  match sys.pc i with
  | PaintPc.start =>
    match tryLockDrawMutex sys.view with
    | none => { sys with pc := Function.update sys.pc i PaintPc.returned }
    | some tv1 => { sys with view := tv1, pc := Function.update sys.pc i PaintPc.painting }
  | PaintPc.painting =>
    match paintLocked env cam sys.session sys.view with
    | none => sys
    | some (s1, tv1, _) =>
      { session := s1, view := tv1, pc := Function.update sys.pc i PaintPc.returned }
  | PaintPc.returned => sys

/-- The system after the callers named by `schedule` have stepped in turn. -/
def PaintSystem.run (env : Env) (cam : Camera) (sys : PaintSystem) (schedule : List Nat) :
    PaintSystem :=
  schedule.foldl (PaintSystem.step env cam) sys
/-- An environment for the scenarios: 48 waterfall lines, zeroed memory
behind vectors, the scenario rasteriser, math functions and text metrics that
return zero, a `normalize_trace` that returns the samples, and a trivial
marker solver. -/
def scenarioEnv : Env :=
  { MAX_WATERFALL_LINES := 48
    oob := fun _ => 0
    raster := persistScenarioRaster
    math := { sin := fun _ => 0, cos := fun _ => 0, tan := fun _ => 0, sqrt := fun _ => 0 }
    GetTextWidth := fun _ _ => 0
    normalize_trace := fun t _ => t.samples
    SolveMarkers := fun _ tm => tm }

/-- A session for the scenarios: an open, sweeping device, one active trace,
no markers, and one undrained sweep vector in the trace buffer. -/
def scenarioSession : Session :=
  { colors :=
      { background := ⟨34 / 255, 40 / 255, 42 / 255, 1⟩, text := ⟨1, 1, 1, 1⟩,
        graticule := ⟨1, 1, 1, 1⟩, markers := ⟨1, 1, 1, 1⟩, markerText := ⟨1, 1, 1, 1⟩,
        limitLines := ⟨1, 0, 0, 1⟩ }
    prefs := { trace_width := 1, graticule_width := 1, graticule_stipple := true }
    titleIsNull := true
    device := { IsOpen := true, IsPowered := true, ADCOverflow := false, NeedsTempCal := false }
    sweep_settings := { ModeIsIdle := false, Start := 0, Stop := 100 }
    trace_manager :=
      { traces := [{ Active := true, Color := ⟨1, 1, 0, 1⟩, Length := 2,
                     samples := persistFrameA }]
        markers := []
        limitLine := { Active := false, LimitsPassed := true,
                       store := { Active := false, Color := ⟨1, 0, 0, 1⟩, Length := 0,
                                  samples := [] } }
        channelPower := { IsEnabled := false, IsChannelInView := fun _ => false,
                          GetChannelStart := fun _ => 0, GetChannelStop := fun _ => 0,
                          GetChannelPower := fun _ => 0 }
        trace_buffer := { capacity := 48, undrained := [persistFrameA] }
        LastTraceAboveReference := false }
    now := 1000 }

/-- Two callers of `paintEvent` on the scenario view, both before their
`try_lock`, with the mutex free. -/
def scenarioPaintSystem : PaintSystem :=
  { session := scenarioSession, view := scenarioView, pc := fun _ => PaintPc.start }

/-- A sweep of three point groups `(x, max, x, min)` whose values rise from
group to group: maxima 1/5, 3/10, 9/10 and minima 1/10, 1/4, 4/5. -/
def risingSweep : GLVector :=
  [0, 1 / 5, 0, 1 / 10, 1 / 2, 3 / 10, 1 / 2, 1 / 4, 1, 9 / 10, 1, 4 / 5]

/-- The drain pass as the specification words it: every undrained vector is
taken exactly once, in buffer order; the same vector goes to
`AddToPersistence` if persistence is on and to `AddToWaterfall` if the
waterfall is not off. The result is the view after the last vector and the
graphics calls of all of them, or `none` when `AddToWaterfall` faults. -/
def feedSinksInOrder (env : Env) : TraceView → List GLVector →
    Option (TraceView × List GLCall)
  | tv, [] => some (tv, [])
  | tv, v :: rest =>
    let p := if tv.persist_on then AddToPersistence env.raster tv v else (tv, [])
    match (if tv.waterfall_state ≠ WaterfallState.WaterfallOFF then
        AddToWaterfall env.MAX_WATERFALL_LINES env.oob p.1 v else some p.1) with
    | none => none
    | some tv1 =>
      match feedSinksInOrder env tv1 rest with
      | none => none
      | some r => some (r.1, p.2 ++ r.2)

/-- Whether a call draws a live trace or a limit line: a `glDrawArrays` of a
triangle strip or a line strip, the two kinds `DrawTrace` and
`DrawLimitLines` issue. -/
def GLCall.isTraceDraw : GLCall → Bool
  | GLCall.glDrawArrays GLPrimitive.GL_TRIANGLE_STRIP _ _ => true
  | GLCall.glDrawArrays GLPrimitive.GL_LINE_STRIP _ _ => true
  | _ => false

/-- Whether a call belongs to the drawing of the persistence surface: the
selection of the persistence program or the binding of the persistence
texture, which only `DrawPersistence` issues. -/
def GLCall.isPersistenceDraw : GLCall → Bool
  | GLCall.glUseProgram GLProgramHandle.persist_program => true
  | GLCall.glBindTexture GLTexture.persist_tex => true
  | _ => false

/-- The session with the drain cursor of its trace buffer advanced past every
entry: nothing is left undrained. -/
def Session.drained (s : Session) : Session :=
  { s with trace_manager := { s.trace_manager with
      trace_buffer := { s.trace_manager.trace_buffer with undrained := [] } } }

/-- A session with a title set, otherwise the scenario session. -/
def titledSession : Session :=
  { scenarioSession with titleIsNull := false }

/-- An 800 by 110 widget with the waterfall off, as `resizeEvent` leaves it:
the stored graticule size is 720 by 10. -/
def lowView : TraceView :=
  resizeEvent { scenarioView with
    width := 800, height := 110, waterfall_state := WaterfallState.WaterfallOFF }
/-- Dot product of two vectors of three components. -/
def Vec3.dot {K : Type} [Field K] (a b : Vec3 K) : K :=
  a.x * b.x + a.y * b.y + a.z * b.z

/-- Conversion of a `double` to a 32-bit `int`: truncation toward zero; a
value that does not fit has no defined result (`none`). -/
def doubleToInt (q : ℚ) : Option Int :=
  if -(2 : Int) ^ 31 ≤ truncToInt q ∧ truncToInt q < (2 : Int) ^ 31 then some (truncToInt q)
  else none

namespace bb_lib

/-- The loop `for(int i = 0; i < n-1; i++) r *= a;` of `power`, `k`
iterations to go: `r` is an `int`, so each product is converted back. -/
def powerLoop (a : ℚ) : Nat → Int → Option Int
  | 0, r => some r
  | k + 1, r =>
    match doubleToInt ((r : ℚ) * a) with
    | none => none
    | some r1 => powerLoop a k r1

/-- The function `power(double a, int n)` of bb_lib.h, documented `a ^ n`.
A failed `assert(n >= 0)` and a conversion that does not fit an `int` are
`none`. The accumulator is declared `int r = a`. -/
def power (a : ℚ) (n : Int) : Option ℚ :=
  if n < 0 then none
  else if n = 0 then some 1
  else
    match doubleToInt a with
    | none => none
    | some r => (powerLoop a (n.toNat - 1) r).map fun (r1 : Int) => (r1 : ℚ)

/-- The function `fmod` of `<cmath>` on exact values: the remainder of `x / y`
with the quotient truncated toward zero. -/
def fmod (x y : ℚ) : ℚ :=
  x - (truncToInt (x / y) : ℚ) * y

/-- The function `next_multiple_of(double factor, double start)` of bb_lib.h;
`none` when `int(start / factor) + 1` does not fit an `int`. -/
def next_multiple_of (factor start : ℚ) : Option ℚ :=
  if fmod start factor = 0 then some start
  else
    match doubleToInt (start / factor) with
    | none => none
    | some t =>
      if t + 1 < (2 : Int) ^ 31 then some (((t + 1 : Int) : ℚ) * factor) else none

end bb_lib

namespace bb_lib

/-- The function `frac_between(start, stop, f)` of bb_lib.h, documented as
the fraction of `f` between `[start, stop]`: `(f - start) / (stop - start)`. -/
def frac_between (start stop f : ℚ) : ℚ :=
  (f - start) / (stop - start)

end bb_lib

/-- The colour `QColor(r, g, b)` of three 8-bit components, by its float
components; alpha is opaque. -/
def QColor (r g b : Nat) : Rgba :=
  ⟨(r : ℚ) / 255, (g : ℚ) / 255, (b : ℚ) / 255, 1⟩

/-- The keys `ColorPrefs` reads and writes in the settings store:
`"ColorPrefs/Background"`, `"ColorPrefs/Text"`, and so on. -/
inductive ColorKey where
  | Background
  | Text
  | Graticule
  | Markers
  | MarkerText
  | LimitLines
deriving DecidableEq, Repr

/-- The `QSettings` store of the preferences file, as `ColorPrefs` uses it:
the colour stored under each key, if any. -/
structure QSettings where
  stored : ColorKey → Option Rgba

/-- The store with no preference saved. -/
def QSettings.empty : QSettings :=
  ⟨fun _ => none⟩

/-- The read `s.value(key, defaultValue).value<QColor>()`: the stored colour,
or the default when the key is absent. -/
def QSettings.value (s : QSettings) (key : ColorKey) (defaultValue : Rgba) : Rgba :=
  match s.stored key with
  | some c => c
  | none => defaultValue

/-- The write `s.setValue(key, c)`. -/
def QSettings.setValue (s : QSettings) (key : ColorKey) (c : Rgba) : QSettings :=
  ⟨fun k => if k = key then some c else s.stored k⟩

/-- `ColorPrefs::LoadDefaults`, the defaults of the file menu. -/
def ColorPrefs.LoadDefaults : ColorPrefs :=
  { background := QColor 34 40 42
    text := QColor 255 255 255
    graticule := QColor 255 255 255
    markers := QColor 255 255 255
    markerText := QColor 255 255 255
    limitLines := QColor 255 0 0 }

/-- `ColorPrefs::LoadPrinterFriendly`. -/
def ColorPrefs.LoadPrinterFriendly : ColorPrefs :=
  { background := QColor 255 255 255
    text := QColor 0 0 0
    graticule := QColor 0 0 0
    markers := QColor 0 0 0
    markerText := QColor 0 0 0
    limitLines := QColor 255 0 0 }

/-- `ColorPrefs::Load`, the load from file on startup, on the store `s`. -/
def ColorPrefs.Load (s : QSettings) : ColorPrefs :=
  { background := s.value ColorKey.Background (QColor 255 255 255)
    text := s.value ColorKey.Text (QColor 0 0 0)
    graticule := s.value ColorKey.Graticule (QColor 0 0 0)
    markers := s.value ColorKey.Markers (QColor 0 0 0)
    markerText := s.value ColorKey.MarkerText (QColor 0 0 0)
    limitLines := s.value ColorKey.LimitLines (QColor 255 0 0) }

/-- `ColorPrefs::Save`, the save on program close, into the store `s`. -/
def ColorPrefs.Save (c : ColorPrefs) (s : QSettings) : QSettings :=
  (((((s.setValue ColorKey.Background c.background).setValue ColorKey.Text c.text).setValue
    ColorKey.Graticule c.graticule).setValue ColorKey.Markers c.markers).setValue
    ColorKey.MarkerText c.markerText).setValue ColorKey.LimitLines c.limitLines

/-- A sample of an IQ capture, `complex_f`. -/
structure complex_f where
  re : ℚ
  im : ℚ

/-- Read `iq[i]` of a `std::vector<complex_f>`; `oob i` is what a read past
the end finds. -/
def iqAt (oob : Nat → complex_f) (iq : List complex_f) (i : Nat) : complex_f :=
  match iq.get? i with
  | some a => a
  | none => oob i

/-- The members of `DemodIQTimePlot` that `DrawIQLines` uses: the graticule
bounds and the two vectors `traces[0]`, `traces[1]`. -/
structure DemodIQTimePlot where
  grat_ll : QPoint
  grat_ul : QPoint
  grat_sz : QPoint
  traces : GLVector × GLVector

namespace DemodIQTimePlot

/-- The loop `for(int i = 0; i < 1024; i++)` of `DrawIQLines`, `n` iterations
to go at counter `i`: the pair `(i, iq[i].re)` goes to `traces[0]` and the
pair `(i, iq[i].im)` to `traces[1]`. -/
def iqLoop (oob : Nat → complex_f) (iq : List complex_f) :
    Nat → Nat → GLVector × GLVector → GLVector × GLVector
  | 0, _, t => t
  | n + 1, i, t =>
    iqLoop oob iq n (i + 1)
      (t.1 ++ [(i : ℚ), (iqAt oob iq i).re], t.2 ++ [(i : ℚ), (iqAt oob iq i).im])

/-- `DemodIQTimePlot::DrawTrace(v)`. -/
def DrawTrace (v : GLVector) : List GLCall :=
  if v.length < 2 then []
  else
    [ -- Put the trace in the vbo
      GLCall.glBindBuffer GLBuffer.traceVBO,
      GLCall.glBufferData (v.length * 4) v,
      GLCall.glVertexPointer 2 0 0,
      GLCall.glPolygonMode GLPolygonMode.GL_LINE,
      GLCall.glDrawArrays GLPrimitive.GL_LINE_STRIP 0 (v.length / 2),
      GLCall.glPolygonMode GLPolygonMode.GL_FILL,
      -- Unbind array
      GLCall.glBindBuffer GLBuffer.zero ]

/-- `DemodIQTimePlot::DrawIQLines` on the capture `iq`
(`GetSession()->iq_capture.sweep`) with the preferences `prefs`: the plot
with its two traces rebuilt, and the calls issued. -/
def DrawIQLines (oob : Nat → complex_f) (prefs : Preferences) (iq : List complex_f)
    (plot : DemodIQTimePlot) : DemodIQTimePlot × List GLCall :=
  if iq.length ≤ 0 then ({ plot with traces := ([], []) }, [])
  else
    let traces := iqLoop oob iq 1024 0 ([], [])
    ({ plot with traces := traces },
      [ glColor3f 1 0 0,
        GLCall.glViewport plot.grat_ll.x plot.grat_ll.y plot.grat_sz.x plot.grat_sz.y,
        GLCall.glMatrixMode GLMatrixMode.GL_MODELVIEW,
        GLCall.glPushMatrix,
        GLCall.glLoadIdentity,
        GLCall.glScalef 1 1 1,
        GLCall.glMatrixMode GLMatrixMode.GL_PROJECTION,
        GLCall.glPushMatrix,
        GLCall.glLoadIdentity,
        GLCall.glOrtho 0 (iq.length : ℚ) (-0.5) 0.5 (-1) 1,
        -- Nice lines, doesn't smooth quads
        GLCall.glEnable GLCap.GL_BLEND,
        GLCall.glEnable GLCap.GL_LINE_SMOOTH,
        GLCall.glBlendFunc GLBlendFactor.GL_SRC_ALPHA GLBlendFactor.GL_ONE_MINUS_SRC_ALPHA,
        GLCall.glBlendEquation,
        GLCall.glLineWidth prefs.trace_width,
        glQColor (QColor 255 0 0) ] ++
      DrawTrace traces.1 ++
      [ glQColor (QColor 0 255 0) ] ++
      DrawTrace traces.2 ++
      [ -- Disable nice lines
        GLCall.glLineWidth 1,
        GLCall.glDisable GLCap.GL_BLEND,
        GLCall.glDisable GLCap.GL_LINE_SMOOTH,
        GLCall.glMatrixMode GLMatrixMode.GL_MODELVIEW,
        GLCall.glPopMatrix,
        GLCall.glMatrixMode GLMatrixMode.GL_PROJECTION,
        GLCall.glPopMatrix ])

end DemodIQTimePlot

/-- A capture of one sample. -/
def oneSampleCapture : List complex_f :=
  [⟨1 / 4, -1 / 4⟩]

/-- Whether `RenderMarkers` handles a marker at all: it is active and in
view (the loop skips every other marker with `continue`). -/
def Marker.shown (m : Marker) : Bool :=
  m.Active && m.InView

/-- What the specification says is drawn for the shown marker of index `i`
whose text line is at height `y`: the marker glyph at
`(xRatio * grat_sz.x, yRatio * grat_sz.y)` with label `i + 1`, the delta
glyph when the delta reference is active and in view, and one right-aligned
text line, the delta text when a delta reference is active, otherwise the
value. -/
def markerBlock (env : Env) (s : Session) (tv : TraceView) (x_print y : Int) (i : Nat)
    (m : Marker) : List GLCall :=
  DrawMarker env (truncToInt (m.xRatio * (tv.grat_sz.x : ℚ)))
    (truncToInt (m.yRatio * (tv.grat_sz.y : ℚ))) ((i : Int) + 1) ++
  (if m.DeltaActive && m.DeltaInView then
    DrawDeltaMarker env (truncToInt (m.delxRatio * (tv.grat_sz.x : ℚ)))
      (truncToInt (m.delyRatio * (tv.grat_sz.y : ℚ))) ((i : Int) + 1)
  else []) ++
  [glQColor s.colors.markerText] ++
  DrawString env (if m.DeltaActive then Text.markerDelta (i + 1) else Text.markerValue (i + 1))
    Font.textFont ⟨x_print, y⟩ TextAlignment.RIGHT_ALIGNED

/-- The stack of marker blocks as the specification words it: one block for
each shown marker, in marker order, the text line of the `j`-th shown marker
`20 * j` pixels below the first one at height `y0`. -/
def markerStack (env : Env) (s : Session) (tv : TraceView) (x_print y0 : Int)
    (markers : List (Nat × Marker)) : List GLCall :=
  ((markers.filter fun p => p.2.shown).enum.map fun (p : Nat × Nat × Marker) =>
    markerBlock env s tv x_print (y0 - 20 * (p.1 : Int)) p.2.1 p.2.2).flatten

/-- Whether a call renders one of the marker text lines `"Mkr n: ..."` or
`"Mkr n Delta: ..."`. -/
def GLCall.isMarkerLine : GLCall → Bool
  | GLCall.renderText _ _ _ (Text.markerDelta _) _ => true
  | GLCall.renderText _ _ _ (Text.markerValue _) _ => true
  | _ => false

/-- A marker that is active but out of view, with an active delta reference. -/
def hiddenMarker : Marker :=
  { Active := true, InView := false, xRatio := 1 / 2, yRatio := 1 / 2, DeltaActive := true,
    DeltaInView := true, delxRatio := 1 / 4, delyRatio := 1 / 4 }

/-- A marker that is active and in view, without a delta reference. -/
def visibleMarker : Marker :=
  { Active := true, InView := true, xRatio := 1 / 2, yRatio := 1 / 2, DeltaActive := false,
    DeltaInView := false, delxRatio := 0, delyRatio := 0 }

/-- The scenario session with two markers: marker 1 active but out of view,
marker 2 active and in view. -/
def markerSession : Session :=
  { scenarioSession with
    trace_manager := { scenarioSession.trace_manager with
      markers := [hiddenMarker, visibleMarker] } }

/-- Whether a call draws part of a glyph or a text: `glBegin`, `glVertex2f`,
`glEnd` or `renderText`. -/
def GLCall.isGlyphOrText : GLCall → Bool
  | GLCall.glBegin _ => true
  | GLCall.glVertex2f _ _ => true
  | GLCall.glEnd => true
  | GLCall.renderText _ _ _ _ _ => true
  | _ => false

/-- The text of the line of marker `i`: the delta text when a delta reference
is active, otherwise the value. -/
def markerLineText (i : Nat) (m : Marker) : Text :=
  if m.DeltaActive then Text.markerDelta (i + 1) else Text.markerValue (i + 1)

/-- A sweep of three point groups `(x, max, x, min)` that dips in the middle:
maxima 1/2, 3/10, 9/10 and minima 2/5, 1/4, 4/5. -/
def dippingSweep : GLVector :=
  [0, 1 / 2, 0, 2 / 5, 1 / 2, 3 / 10, 1 / 2, 1 / 4, 1, 9 / 10, 1, 4 / 5]

/-- The scenario view with a graticule 4 pixels wide, on which the
degenerate-avoidance rule applies to a sweep of three points. -/
def narrowView : TraceView :=
  { scenarioView with grat_sz := ⟨4, 250⟩ }

/-! ## Theorems -/


theorem waterfallEvict_eq (M : Nat) (hM : 1 ≤ M) :
    ∀ (fuel : Nat) (tv : TraceView),
      tv.waterfall_verts.length = tv.waterfall_coords.length →
      tv.waterfall_verts.length < fuel →
      waterfallEvict M fuel tv =
        some { tv with waterfall_verts := tv.waterfall_verts.take (M - 1)
                       waterfall_coords := tv.waterfall_coords.take (M - 1) } := by
  intro fuel
  induction fuel with
  | zero => intro tv _ h; omega
  | succ fuel ih =>
    intro tv hlen hfuel
    unfold waterfallEvict
    by_cases hge : tv.waterfall_verts.length ≥ M
    · have hv : tv.waterfall_verts ≠ [] := by
        intro h; rw [h] at hge; simp at hge; omega
      have hc : tv.waterfall_coords ≠ [] := by
        intro h; rw [h] at hlen; simp at hlen; exact hv hlen
      have hve : tv.waterfall_verts.isEmpty = false := by
        cases hh : tv.waterfall_verts with
        | nil => exact absurd hh hv
        | cons a l => rfl
      have hce : tv.waterfall_coords.isEmpty = false := by
        cases hh : tv.waterfall_coords with
        | nil => exact absurd hh hc
        | cons a l => rfl
      rw [if_pos hge, hve, hce]
      simp only [Bool.or_self, Bool.false_eq_true, if_false]
      rw [ih _ (by simp [hlen]) (by simp; omega)]
      simp only [List.dropLast_eq_take, List.take_take]
      have h1 : min (M - 1) (tv.waterfall_verts.length - 1) = M - 1 := by omega
      have h2 : min (M - 1) (tv.waterfall_coords.length - 1) = M - 1 := by omega
      rw [h1, h2]
    · rw [if_neg hge]
      have h1 : tv.waterfall_verts.take (M - 1) = tv.waterfall_verts :=
        List.take_of_length_le (by omega)
      have h2 : tv.waterfall_coords.take (M - 1) = tv.waterfall_coords :=
        List.take_of_length_le (by omega)
      rw [h1, h2]


theorem AddToWaterfall_step (M : Nat) (hM : 1 ≤ M) (oob : Nat → ℚ) (tv : TraceView)
    (v : GLVector) (hlen : tv.waterfall_verts.length = tv.waterfall_coords.length)
    (hv : v ≠ []) :
    AddToWaterfall M oob tv v =
      some { tv with
        waterfall_verts := (waterfallFrame oob tv.grat_sz.x v).verts ::
          tv.waterfall_verts.take (M - 1)
        waterfall_coords := (waterfallFrame oob tv.grat_sz.x v).coords ::
          tv.waterfall_coords.take (M - 1) } := by
  have hpos : ¬ v.length ≤ 0 := by
    cases v with
    | nil => exact absurd rfl hv
    | cons a l => simp
  unfold AddToWaterfall
  rw [if_neg hpos, waterfallEvict_eq M hM _ tv hlen (Nat.lt_succ_self _)]

theorem take_append_cons_take {α : Type} (M : Nat) (A B : List α) (x : α) :
    (A ++ x :: B.take (M - 1)).take M = (A ++ x :: B).take M := by
  rw [List.take_append_eq_append_take, List.take_append_eq_append_take]
  congr 1
  cases h : M - A.length with
  | zero => rfl
  | succ n =>
    rw [List.take_succ_cons, List.take_succ_cons, List.take_take]
    congr 2
    omega

theorem addAllToWaterfall_eq (M : Nat) (hM : 1 ≤ M) (oob : Nat → ℚ) :
    ∀ (calls : List (QPoint × GLVector)) (tv : TraceView),
      tv.waterfall_verts.length = tv.waterfall_coords.length →
      tv.waterfall_verts.length ≤ M →
      (∀ c ∈ calls, c.2 ≠ []) →
      ∃ tv1, addAllToWaterfall M oob tv calls = some tv1 ∧
        tv1.waterfall_verts =
          ((calls.reverse.map fun c => (waterfallFrame oob c.1.x c.2).verts) ++
            tv.waterfall_verts).take M ∧
        tv1.waterfall_coords =
          ((calls.reverse.map fun c => (waterfallFrame oob c.1.x c.2).coords) ++
            tv.waterfall_coords).take M := by
  intro calls
  induction calls with
  | nil =>
    intro tv hlen hle _
    refine ⟨tv, rfl, ?_, ?_⟩
    · simp [List.take_of_length_le hle]
    · simp [List.take_of_length_le (hlen ▸ hle)]
  | cons c rest ih =>
    intro tv hlen hle hne
    obtain ⟨g, v⟩ := c
    have hv : v ≠ [] := hne (g, v) (List.mem_cons_self _ _)
    unfold addAllToWaterfall
    rw [AddToWaterfall_step M hM oob { tv with grat_sz := g } v hlen hv]
    obtain ⟨tv1, h1, h2, h3⟩ := ih ({ tv with
        grat_sz := g
        waterfall_verts := (waterfallFrame oob g.x v).verts :: tv.waterfall_verts.take (M - 1)
        waterfall_coords := (waterfallFrame oob g.x v).coords ::
          tv.waterfall_coords.take (M - 1) } : TraceView)
      (by simp only [List.length_cons, List.length_take]; omega)
      (by simp only [List.length_cons, List.length_take]; omega)
      (fun c hc => hne c (List.mem_cons_of_mem _ hc))
    refine ⟨tv1, h1, ?_, ?_⟩
    · rw [h2]
      simp only [List.reverse_cons, List.map_append, List.map_cons, List.map_nil,
        List.append_assoc, List.singleton_append]
      exact take_append_cons_take M _ _ _
    · rw [h3]
      simp only [List.reverse_cons, List.map_append, List.map_cons, List.map_nil,
        List.append_assoc, List.singleton_append]
      exact take_append_cons_take M _ _ _

theorem addAllToWaterfall_bounded (M : Nat) (hM : 1 ≤ M) (oob : Nat → ℚ) :
    ∀ (calls : List (QPoint × GLVector)) (tv : TraceView),
      tv.waterfall_verts.length = tv.waterfall_coords.length →
      tv.waterfall_verts.length ≤ M →
      ∃ tv1, addAllToWaterfall M oob tv calls = some tv1 ∧
        tv1.waterfall_verts.length = tv1.waterfall_coords.length ∧
        tv1.waterfall_verts.length ≤ M := by
  intro calls
  induction calls with
  | nil => intro tv hlen hle; exact ⟨tv, rfl, hlen, hle⟩
  | cons c rest ih =>
    intro tv hlen hle
    obtain ⟨g, v⟩ := c
    unfold addAllToWaterfall
    by_cases hv : v = []
    · subst hv
      have : AddToWaterfall M oob { tv with grat_sz := g } [] = some { tv with grat_sz := g } := rfl
      rw [this]
      exact ih _ hlen hle
    · rw [AddToWaterfall_step M hM oob { tv with grat_sz := g } v hlen hv]
      exact ih ({ tv with
        grat_sz := g
        waterfall_verts := (waterfallFrame oob g.x v).verts :: tv.waterfall_verts.take (M - 1)
        waterfall_coords := (waterfallFrame oob g.x v).coords ::
          tv.waterfall_coords.take (M - 1) } : TraceView)
        (by simp only [List.length_cons, List.length_take]; omega)
        (by simp only [List.length_cons, List.length_take]; omega)

/-- C1. For every sequence of `AddToWaterfall` calls (any vectors, any
graticule size per call) from an empty store with `MAX_WATERFALL_LINES ≥ 1`,
every call returns, and after each call (after the first `k` calls, for every
`k`) both `waterfall_verts` and `waterfall_coords` hold at most
`MAX_WATERFALL_LINES` frames. -/
theorem C1_waterfall_store_bounded (MAX_WATERFALL_LINES : Nat) (oob : Nat → ℚ)
    (hmax : 1 ≤ MAX_WATERFALL_LINES) (tv0 : TraceView)
    (hverts : tv0.waterfall_verts = []) (hcoords : tv0.waterfall_coords = [])
    (calls : List (QPoint × GLVector)) (k : Nat) :
    ∃ tv, addAllToWaterfall MAX_WATERFALL_LINES oob tv0 (calls.take k) = some tv ∧
      tv.waterfall_verts.length ≤ MAX_WATERFALL_LINES ∧
      tv.waterfall_coords.length ≤ MAX_WATERFALL_LINES := by
  obtain ⟨tv, h1, h2, h3⟩ := addAllToWaterfall_bounded MAX_WATERFALL_LINES hmax oob
    (calls.take k) tv0 (by simp [hverts, hcoords]) (by simp [hverts])
  exact ⟨tv, h1, h3, h2 ▸ h3⟩

/-- C2. After `k` calls of `AddToWaterfall` with non-empty vectors on an
empty store (for every `k` up to the length of the call sequence), the store
holds exactly `min k MAX_WATERFALL_LINES` frames: the frames built from the
most recent `min k MAX_WATERFALL_LINES` vectors, newest first (index 0 is
built from the last vector). Once the store is full, every further call
with a non-empty vector puts its frame in front and removes exactly the last
stored frame, the one built from the oldest vector still held. -/
theorem C2_waterfall_store_most_recent (MAX_WATERFALL_LINES : Nat) (oob : Nat → ℚ)
    (hmax : 1 ≤ MAX_WATERFALL_LINES) (tv0 : TraceView)
    (hverts : tv0.waterfall_verts = []) (hcoords : tv0.waterfall_coords = [])
    (calls : List (QPoint × GLVector)) (hne : ∀ c ∈ calls, c.2 ≠ [])
    (k : Nat) (hk : k ≤ calls.length) :
    ∃ tv, addAllToWaterfall MAX_WATERFALL_LINES oob tv0 (calls.take k) = some tv ∧
      tv.waterfall_verts.length = min k MAX_WATERFALL_LINES ∧
      tv.waterfall_coords.length = min k MAX_WATERFALL_LINES ∧
      tv.waterfall_verts =
        (((calls.take k).reverse.take MAX_WATERFALL_LINES).map
          fun c => (waterfallFrame oob c.1.x c.2).verts) ∧
      tv.waterfall_coords =
        (((calls.take k).reverse.take MAX_WATERFALL_LINES).map
          fun c => (waterfallFrame oob c.1.x c.2).coords) ∧
      (MAX_WATERFALL_LINES ≤ k → ∀ (g : QPoint) (v : GLVector), v ≠ [] →
        AddToWaterfall MAX_WATERFALL_LINES oob { tv with grat_sz := g } v =
          some { tv with
            grat_sz := g
            waterfall_verts := (waterfallFrame oob g.x v).verts :: tv.waterfall_verts.dropLast
            waterfall_coords :=
              (waterfallFrame oob g.x v).coords :: tv.waterfall_coords.dropLast }) := by
  obtain ⟨tv, h1, h2, h3⟩ := addAllToWaterfall_eq MAX_WATERFALL_LINES hmax oob
    (calls.take k) tv0 (by simp [hverts, hcoords]) (by simp [hverts])
    (fun c hc => hne c (List.mem_of_mem_take hc))
  rw [hverts, List.append_nil, ← List.map_take] at h2
  rw [hcoords, List.append_nil, ← List.map_take] at h3
  have hlv : tv.waterfall_verts.length = min k MAX_WATERFALL_LINES := by
    rw [h2]; simp [List.length_take]; omega
  have hlc : tv.waterfall_coords.length = min k MAX_WATERFALL_LINES := by
    rw [h3]; simp [List.length_take]; omega
  refine ⟨tv, h1, hlv, hlc, h2, h3, ?_⟩
  intro hfull g v hv
  rw [AddToWaterfall_step MAX_WATERFALL_LINES hmax oob { tv with grat_sz := g } v
    (by rw [hlv, hlc]) hv]
  have e1 : tv.waterfall_verts.length - 1 = MAX_WATERFALL_LINES - 1 := by omega
  have e2 : tv.waterfall_coords.length - 1 = MAX_WATERFALL_LINES - 1 := by omega
  simp only [List.dropLast_eq_take, e1, e2]

theorem C1_waterfall_store_bounded_witness :
    ∃ tv, addAllToWaterfall 48 (fun _ => 0) scenarioView (scenarioCalls.take 50) = some tv ∧
      tv.waterfall_verts.length ≤ 48 ∧ tv.waterfall_coords.length ≤ 48 :=
  C1_waterfall_store_bounded 48 (fun _ => 0) (by decide) scenarioView rfl rfl scenarioCalls 50

theorem C2_waterfall_store_most_recent_witness :
    ∃ tv, addAllToWaterfall 48 (fun _ => 0) scenarioView (scenarioCalls.take 50) = some tv ∧
      tv.waterfall_verts.length = 48 ∧
      tv.waterfall_coords.length = 48 ∧
      tv.waterfall_verts =
        (((scenarioCalls.take 50).reverse.take 48).map
          fun c => (waterfallFrame (fun _ => 0) c.1.x c.2).verts) ∧
      tv.waterfall_coords =
        (((scenarioCalls.take 50).reverse.take 48).map
          fun c => (waterfallFrame (fun _ => 0) c.1.x c.2).coords) := by
  obtain ⟨tv, h1, h2, h3, h4, h5, _⟩ :=
    C2_waterfall_store_most_recent 48 (fun _ => 0) (by decide) scenarioView rfl rfl
      scenarioCalls
      (by
        intro c hc
        simp only [scenarioCalls, List.mem_map] at hc
        obtain ⟨k, _, rfl⟩ := hc
        simp)
      50 (by rw [scenarioCalls, List.length_map, List.length_range])
  exact ⟨tv, h1, h2, h3, h4, h5⟩

theorem clamp_ifs_bounds (lo hi x : ℚ) (h : lo ≤ hi) :
    lo ≤ (if (if x < lo then lo else x) > hi then hi else (if x < lo then lo else x)) ∧
      (if (if x < lo then lo else x) > hi then hi else (if x < lo then lo else x)) ≤ hi := by
  split_ifs <;> constructor <;> linarith

theorem mouseMoveEvent_angles (cam : Camera) (pos : QPoint)
    (h : (0.1 * M_PI ≤ cam.phi ∧ cam.phi ≤ 0.5 * M_PI) ∧
      (-0.75 * M_PI ≤ cam.theta ∧ cam.theta ≤ -0.25 * M_PI)) :
    (0.1 * M_PI ≤ (mouseMoveEvent cam pos).phi ∧ (mouseMoveEvent cam pos).phi ≤ 0.5 * M_PI) ∧
      (-0.75 * M_PI ≤ (mouseMoveEvent cam pos).theta ∧
        (mouseMoveEvent cam pos).theta ≤ -0.25 * M_PI) := by
  unfold mouseMoveEvent
  split
  · exact ⟨clamp_ifs_bounds _ _ _ (by norm_num [M_PI]),
      clamp_ifs_bounds _ _ _ (by norm_num [M_PI])⟩
  · exact h

theorem pointerEvent_angles (PointInGrat : TraceView → QPoint → Bool) (cam : Camera)
    (e : TraceView × PointerEvent)
    (h : (0.1 * M_PI ≤ cam.phi ∧ cam.phi ≤ 0.5 * M_PI) ∧
      (-0.75 * M_PI ≤ cam.theta ∧ cam.theta ≤ -0.25 * M_PI)) :
    (0.1 * M_PI ≤ (pointerEvent PointInGrat cam e).phi ∧
        (pointerEvent PointInGrat cam e).phi ≤ 0.5 * M_PI) ∧
      (-0.75 * M_PI ≤ (pointerEvent PointInGrat cam e).theta ∧
        (pointerEvent PointInGrat cam e).theta ≤ -0.25 * M_PI) := by
  obtain ⟨tv, ev⟩ := e
  cases ev with
  | press pos =>
    simp only [pointerEvent, mousePressEvent]
    split_ifs <;> exact h
  | release => exact h
  | move pos => exact mouseMoveEvent_angles cam pos h
  | wheel delta => exact h

theorem pointerEvents_angles (PointInGrat : TraceView → QPoint → Bool) :
    ∀ (events : List (TraceView × PointerEvent)) (cam : Camera),
      ((0.1 * M_PI ≤ cam.phi ∧ cam.phi ≤ 0.5 * M_PI) ∧
        (-0.75 * M_PI ≤ cam.theta ∧ cam.theta ≤ -0.25 * M_PI)) →
      (0.1 * M_PI ≤ (pointerEvents PointInGrat cam events).phi ∧
          (pointerEvents PointInGrat cam events).phi ≤ 0.5 * M_PI) ∧
        (-0.75 * M_PI ≤ (pointerEvents PointInGrat cam events).theta ∧
          (pointerEvents PointInGrat cam events).theta ≤ -0.25 * M_PI) := by
  intro events
  induction events with
  | nil => intro cam h; exact h
  | cons e rest ih =>
    intro cam h
    exact ih _ (pointerEvent_angles PointInGrat cam e h)

/-- C3. From the initial camera statics, after every sequence of pointer
events (press, move and release at arbitrary positions, wheel events too,
under any view state and any `PointInGrat`), the elevation `phi` lies in
`[0.1 * M_PI, 0.5 * M_PI]` and the azimuth `theta` in
`[-0.75 * M_PI, -0.25 * M_PI]`, with exact arithmetic and `M_PI = 3.14159265`. -/
theorem C3_camera_angles_clamped (PointInGrat : TraceView → QPoint → Bool)
    (events : List (TraceView × PointerEvent)) :
    (0.1 * M_PI ≤ (pointerEvents PointInGrat Camera.initial events).phi ∧
        (pointerEvents PointInGrat Camera.initial events).phi ≤ 0.5 * M_PI) ∧
      (-0.75 * M_PI ≤ (pointerEvents PointInGrat Camera.initial events).theta ∧
        (pointerEvents PointInGrat Camera.initial events).theta ≤ -0.25 * M_PI) := by
  apply pointerEvents_angles
  norm_num [Camera.initial, M_PI]

theorem wheelEvent_rho_bounds (cam : Camera) (delta : Int) :
    0.5 ≤ (wheelEvent cam delta).rho ∧ (wheelEvent cam delta).rho ≤ 4.0 := by
  unfold wheelEvent
  exact clamp_ifs_bounds _ _ _ (by norm_num)

theorem pointerEvent_rho_bounds (PointInGrat : TraceView → QPoint → Bool) (cam : Camera)
    (e : TraceView × PointerEvent) (h : 0.5 ≤ cam.rho ∧ cam.rho ≤ 4.0) :
    0.5 ≤ (pointerEvent PointInGrat cam e).rho ∧ (pointerEvent PointInGrat cam e).rho ≤ 4.0 := by
  obtain ⟨tv, ev⟩ := e
  cases ev with
  | press pos =>
    simp only [pointerEvent, mousePressEvent]
    split_ifs <;> exact h
  | release => exact h
  | move pos =>
    simp only [pointerEvent, mouseMoveEvent]
    split_ifs <;> exact h
  | wheel delta => exact wheelEvent_rho_bounds cam delta

theorem pointerEvents_rho_bounds (PointInGrat : TraceView → QPoint → Bool) :
    ∀ (events : List (TraceView × PointerEvent)) (cam : Camera),
      (0.5 ≤ cam.rho ∧ cam.rho ≤ 4.0) →
      0.5 ≤ (pointerEvents PointInGrat cam events).rho ∧
        (pointerEvents PointInGrat cam events).rho ≤ 4.0 := by
  intro events
  induction events with
  | nil => intro cam h; exact h
  | cons e rest ih =>
    intro cam h
    exact ih _ (pointerEvent_rho_bounds PointInGrat cam e h)

theorem wheelEvent_rho_monotone (cam : Camera) (delta : Int)
    (h : 0.5 ≤ cam.rho ∧ cam.rho ≤ 4.0) :
    (delta < 0 → cam.rho ≤ (wheelEvent cam delta).rho) ∧
      (delta > 0 → (wheelEvent cam delta).rho ≤ cam.rho) := by
  obtain ⟨h1, h2⟩ := h
  unfold wheelEvent
  constructor
  · intro hd
    have hd2 : ¬ delta > 0 := by omega
    simp only [if_pos hd, if_neg hd2]
    split_ifs <;> linarith
  · intro hd
    have hd2 : ¬ delta < 0 := by omega
    simp only [if_pos hd, if_neg hd2]
    split_ifs <;> linarith

/-- C4. From the initial radius `rho = 1`, after every sequence of pointer
events (wheel events with any delta, interleaved with any other pointer
events), the camera radius `rho` lies in `[0.5, 4.0]`; in every state so
reached a wheel event with a negative delta does not decrease `rho` and one
with a positive delta does not increase it. -/
theorem C4_camera_radius_clamped (PointInGrat : TraceView → QPoint → Bool)
    (events : List (TraceView × PointerEvent)) (delta : Int) :
    (0.5 ≤ (pointerEvents PointInGrat Camera.initial events).rho ∧
        (pointerEvents PointInGrat Camera.initial events).rho ≤ 4.0) ∧
      (delta < 0 → (pointerEvents PointInGrat Camera.initial events).rho ≤
        (wheelEvent (pointerEvents PointInGrat Camera.initial events) delta).rho) ∧
      (delta > 0 → (wheelEvent (pointerEvents PointInGrat Camera.initial events) delta).rho ≤
        (pointerEvents PointInGrat Camera.initial events).rho) := by
  have hb := pointerEvents_rho_bounds PointInGrat events Camera.initial
    (by norm_num [Camera.initial])
  exact ⟨hb, wheelEvent_rho_monotone _ delta hb⟩

theorem C4_camera_radius_clamped_witness :
    (0.5 ≤ (pointerEvents (fun _ _ => false) Camera.initial
          [(scenarioView, PointerEvent.wheel (-120))]).rho ∧
        (pointerEvents (fun _ _ => false) Camera.initial
          [(scenarioView, PointerEvent.wheel (-120))]).rho ≤ 4.0) ∧
      ((-120 : Int) < 0 → (pointerEvents (fun _ _ => false) Camera.initial
          [(scenarioView, PointerEvent.wheel (-120))]).rho ≤
        (wheelEvent (pointerEvents (fun _ _ => false) Camera.initial
          [(scenarioView, PointerEvent.wheel (-120))]) (-120)).rho) ∧
      ((-120 : Int) > 0 → (wheelEvent (pointerEvents (fun _ _ => false) Camera.initial
          [(scenarioView, PointerEvent.wheel (-120))]) (-120)).rho ≤
        (pointerEvents (fun _ _ => false) Camera.initial
          [(scenarioView, PointerEvent.wheel (-120))]).rho) :=
  C4_camera_radius_clamped (fun _ _ => false) [(scenarioView, PointerEvent.wheel (-120))] (-120)

/-- C5, as stated, fails: for a trace of length 1 (one interleaved max/min
point group, four floats) `DrawTrace` issues three `glDrawArrays` calls. -/
theorem C5_counterexample :
    ((DrawTrace ⟨1, 1, 0, 1⟩ [0, 1 / 2, 0, 1 / 4]).filter
      GLCall.isDrawArrays).length = 3 := by
  rfl

/-- C5, amended. For every empty normalized vector `DrawTrace` issues no
graphics call at all; for a vector of one to four floats (a single point
group at most) the `glDrawArrays` calls it issues are a triangle strip of
`v.size()/2` vertices and two line strips of `v.size()/4` vertices each,
and none of the three has enough vertices to form a primitive. -/
theorem C5_draw_trace_short (c : Rgba) (v : GLVector) (h : v.length ≤ 4) :
    (v.length = 0 → DrawTrace c v = []) ∧
      (0 < v.length →
        (DrawTrace c v).filter GLCall.isDrawArrays =
          [GLCall.glDrawArrays GLPrimitive.GL_TRIANGLE_STRIP 0 (v.length / 2),
           GLCall.glDrawArrays GLPrimitive.GL_LINE_STRIP 0 (v.length / 4),
           GLCall.glDrawArrays GLPrimitive.GL_LINE_STRIP 0 (v.length / 4)]) ∧
      ∀ call ∈ DrawTrace c v, call.drawsPrimitive = false := by
  refine ⟨?_, ?_, ?_⟩
  · intro h0
    simp [DrawTrace, h0]
  · intro hpos
    have hn : ¬ v.length < 1 := by omega
    simp [DrawTrace, hn, GLCall.isDrawArrays, glColor3f]
  · intro call hcall
    unfold DrawTrace at hcall
    split at hcall
    · simp at hcall
    · have h2 : v.length / 2 < 3 := by omega
      have h4 : v.length / 4 < 2 := by omega
      simp only [List.mem_cons, List.mem_singleton, List.not_mem_nil, or_false] at hcall
      rcases hcall with h | h | h | h | h | h | h | h | h | h | h | h <;> subst h <;>
        simp [GLCall.drawsPrimitive, glColor3f, GLPrimitive.minVertices, h2, h4]

theorem C5_draw_trace_short_witness :
    (([0, 1 / 2, 0, 1 / 4] : GLVector).length = 0 →
        DrawTrace ⟨1, 1, 0, 1⟩ [0, 1 / 2, 0, 1 / 4] = []) ∧
      (0 < ([0, 1 / 2, 0, 1 / 4] : GLVector).length →
        (DrawTrace ⟨1, 1, 0, 1⟩ [0, 1 / 2, 0, 1 / 4]).filter GLCall.isDrawArrays =
          [GLCall.glDrawArrays GLPrimitive.GL_TRIANGLE_STRIP 0
             (([0, 1 / 2, 0, 1 / 4] : GLVector).length / 2),
           GLCall.glDrawArrays GLPrimitive.GL_LINE_STRIP 0
             (([0, 1 / 2, 0, 1 / 4] : GLVector).length / 4),
           GLCall.glDrawArrays GLPrimitive.GL_LINE_STRIP 0
             (([0, 1 / 2, 0, 1 / 4] : GLVector).length / 4)]) ∧
      ∀ call ∈ DrawTrace ⟨1, 1, 0, 1⟩ [0, 1 / 2, 0, 1 / 4],
        call.drawsPrimitive = false :=
  C5_draw_trace_short ⟨1, 1, 0, 1⟩ [0, 1 / 2, 0, 1 / 4] (by decide)

theorem glClamp01_of_mem (c : ℚ) (h0 : 0 ≤ c) (h1 : c ≤ 1) : glClamp01 c = c := by
  unfold glClamp01
  split_ifs <;> first | rfl | linarith

/-- The colour `AddToPersistence` leaves on a pixel: the prior colour decayed
by the full-surface quad, and the frame colour added once where the filled
strip or its outline puts a fragment. -/
theorem accumulate_color (R : Rasterizer) (v : GLVector) (s : PersistSurface) (x y : Nat) :
    (s.accumulate R v).color x y =
      if R.fill v x y || R.line v x y then
        glBlend GLBlendFactor.GL_ONE GLBlendFactor.GL_ONE ⟨0.04, 0.04, 0.04, 1⟩
          (glBlend GLBlendFactor.GL_ZERO GLBlendFactor.GL_ONE_MINUS_SRC_ALPHA
            ⟨0, 0, 0, 2 * 0.01⟩ (s.color x y))
      else
        glBlend GLBlendFactor.GL_ZERO GLBlendFactor.GL_ONE_MINUS_SRC_ALPHA
          ⟨0, 0, 0, 2 * 0.01⟩ (s.color x y) := by
  have h1 : GLDepthFunc.GL_LESS.passes persistFillDepth 1 = true := by
    simp [GLDepthFunc.passes, persistFillDepth]; norm_num
  have h2 : GLDepthFunc.GL_LESS.passes persistLineDepth persistFillDepth = false := by
    simp [GLDepthFunc.passes, persistLineDepth, persistFillDepth]; norm_num
  have h3 : GLDepthFunc.GL_LESS.passes persistLineDepth 1 = true := by
    simp [GLDepthFunc.passes, persistLineDepth]; norm_num
  simp only [PersistSurface.accumulate, PersistSurface.drawDepth, PersistSurface.drawNoDepth,
    PersistSurface.clearDepth, if_true, h1, Bool.and_true]
  cases hf : R.fill v x y <;> cases hl : R.line v x y <;> simp [h2, h3]

theorem AddToPersistence_of_ne_nil (R : Rasterizer) (tv : TraceView) (v : GLVector)
    (hv : v ≠ []) :
    AddToPersistence R tv v =
      ({ (if tv.clear_persistence then
            { tv with persist := tv.persist.clearAll, clear_persistence := false }
          else tv) with
          persist := (if tv.clear_persistence then
            { tv with persist := tv.persist.clearAll, clear_persistence := false }
          else tv).persist.accumulate R v },
        persistenceCalls tv.clear_persistence tv.width tv.height v) := by
  have hpos : ¬ v.length < 1 := by
    cases v with
    | nil => exact absurd rfl hv
    | cons a l => simp
  unfold AddToPersistence
  rw [if_neg hpos]

/-- C6. With a clear requested, for every prior content of the persistence
surface and every non-empty frame `v`, the surface after one
`AddToPersistence(v)` is the surface the same call leaves on an all-zero
surface (whatever the depth buffer held, and whether or not the clear flag is
set there): it carries no residual of the prior content. -/
theorem C6_clear_leaves_no_residual (R : Rasterizer) (tv : TraceView) (v : GLVector)
    (hv : v ≠ []) (hclear : tv.clear_persistence = true)
    (d : Nat → Nat → ℚ) (flag : Bool) :
    (AddToPersistence R tv v).1.persist =
      (AddToPersistence R
        { tv with persist := { color := fun _ _ => ⟨0, 0, 0, 0⟩, depth := d }
                  clear_persistence := flag } v).1.persist := by
  rw [AddToPersistence_of_ne_nil R tv v hv, AddToPersistence_of_ne_nil R _ v hv]
  cases flag <;> simp only [hclear, if_true] <;> rfl

theorem C6_clear_leaves_no_residual_witness :
    (AddToPersistence persistScenarioRaster persistScenarioView persistFrameA).1.persist =
      (AddToPersistence persistScenarioRaster
        { persistScenarioView with
            persist := { color := fun _ _ => ⟨0, 0, 0, 0⟩, depth := fun _ _ => 0 }
            clear_persistence := false } persistFrameA).1.persist :=
  C6_clear_leaves_no_residual persistScenarioRaster persistScenarioView persistFrameA
    (List.cons_ne_nil _ _) rfl (fun _ _ => 0) false

/-- The surface after a pending clear and one frame: the frame colour where
the frame puts a fragment, zero elsewhere. -/
theorem AddToPersistence_after_clear_color (R : Rasterizer) (tv : TraceView) (v : GLVector)
    (hv : v ≠ []) (hclear : tv.clear_persistence = true) (x y : Nat) :
    (AddToPersistence R tv v).1.persist.color x y =
      if R.fill v x y || R.line v x y then ⟨0.04, 0.04, 0.04, 1⟩ else ⟨0, 0, 0, 0⟩ := by
  rw [AddToPersistence_of_ne_nil R tv v hv]
  simp only [hclear, if_true]
  rw [accumulate_color]
  simp only [PersistSurface.clearAll, glBlend, GLBlendFactor.weight]
  have e1 : glClamp01 (0 * 0 + 0 * (1 - 2 * 0.01)) = 0 := by
    rw [glClamp01_of_mem] <;> norm_num
  have e2 : glClamp01 (2 * 0.01 * 0 + 0 * (1 - 2 * 0.01)) = 0 := by
    rw [glClamp01_of_mem] <;> norm_num
  have e3 : glClamp01 (0.04 * 1 + 0 * 1) = 0.04 := by
    rw [glClamp01_of_mem] <;> norm_num
  have e4 : glClamp01 ((1 : ℚ) * 1 + 0 * 1) = 1 := by
    rw [glClamp01_of_mem] <;> norm_num
  rw [e1, e2, e3, e4]

/-- C7. A clear request is consumed exactly once. After a clear request,
accumulating a non-empty frame `A` and then a non-empty frame `B`: the first
call issues the full clear and resets the flag, the second call issues no
colour clear; on every pixel the colour after `B` is the colour after `A`
scaled by `1 - 0.02`, plus `0.04` per colour channel (alpha: plus 1) where
the geometry of `B` puts a fragment, saturating at 1; and on every pixel that
`A` covers it differs from what `B` alone leaves after a clear, so it still
depends on `A`. -/
theorem C7_clear_consumed_once (R : Rasterizer) (tv : TraceView) (A B : GLVector)
    (hA : A ≠ []) (hB : B ≠ []) (hclear : tv.clear_persistence = true) (x y : Nat) :
    (AddToPersistence R tv A).1.clear_persistence = false ∧
      GLCall.glClear true true ∈ (AddToPersistence R tv A).2 ∧
      GLCall.glClear true true ∉ (AddToPersistence R (AddToPersistence R tv A).1 B).2 ∧
      (AddToPersistence R (AddToPersistence R tv A).1 B).1.persist.color x y =
        (if R.fill B x y || R.line B x y then
          { r := min 1 ((1 - 0.02) * ((AddToPersistence R tv A).1.persist.color x y).r + 0.04)
            g := min 1 ((1 - 0.02) * ((AddToPersistence R tv A).1.persist.color x y).g + 0.04)
            b := min 1 ((1 - 0.02) * ((AddToPersistence R tv A).1.persist.color x y).b + 0.04)
            a := min 1 ((1 - 0.02) * ((AddToPersistence R tv A).1.persist.color x y).a + 1) }
        else
          { r := (1 - 0.02) * ((AddToPersistence R tv A).1.persist.color x y).r
            g := (1 - 0.02) * ((AddToPersistence R tv A).1.persist.color x y).g
            b := (1 - 0.02) * ((AddToPersistence R tv A).1.persist.color x y).b
            a := (1 - 0.02) * ((AddToPersistence R tv A).1.persist.color x y).a }) ∧
      ((R.fill A x y || R.line A x y) = true →
        (AddToPersistence R (AddToPersistence R tv A).1 B).1.persist.color x y ≠
          (AddToPersistence R tv B).1.persist.color x y) := by
  have hflag : (AddToPersistence R tv A).1.clear_persistence = false := by
    rw [AddToPersistence_of_ne_nil R tv A hA]
    simp only [hclear, if_true]
  have hcolA := AddToPersistence_after_clear_color R tv A hA hclear x y
  have hcolB := AddToPersistence_after_clear_color R tv B hB hclear x y
  have hAB : (AddToPersistence R (AddToPersistence R tv A).1 B).1.persist.color x y =
      if R.fill B x y || R.line B x y then
        glBlend GLBlendFactor.GL_ONE GLBlendFactor.GL_ONE ⟨0.04, 0.04, 0.04, 1⟩
          (glBlend GLBlendFactor.GL_ZERO GLBlendFactor.GL_ONE_MINUS_SRC_ALPHA
            ⟨0, 0, 0, 2 * 0.01⟩ ((AddToPersistence R tv A).1.persist.color x y))
      else
        glBlend GLBlendFactor.GL_ZERO GLBlendFactor.GL_ONE_MINUS_SRC_ALPHA
          ⟨0, 0, 0, 2 * 0.01⟩ ((AddToPersistence R tv A).1.persist.color x y) := by
    rw [AddToPersistence_of_ne_nil R _ B hB]
    simp only [hflag, Bool.false_eq_true, if_false]
    rw [accumulate_color]
  refine ⟨hflag, ?_, ?_, ?_, ?_⟩
  · rw [AddToPersistence_of_ne_nil R tv A hA]
    simp [hclear, persistenceCalls]
  · rw [AddToPersistence_of_ne_nil R _ B hB]
    simp [hflag, persistenceCalls, glColor3f]
  · rw [hAB, hcolA]
    cases hcA : (R.fill A x y || R.line A x y) <;> cases hcB : (R.fill B x y || R.line B x y) <;>
      simp only [if_true, if_false, Bool.false_eq_true, glBlend, GLBlendFactor.weight] <;>
      norm_num [glClamp01]
  · intro hcA
    rw [hAB, hcolA, hcolB, hcA]
    cases hcB : (R.fill B x y || R.line B x y) <;>
      simp only [if_true, if_false, Bool.false_eq_true, glBlend, GLBlendFactor.weight] <;>
      norm_num [glClamp01]

theorem C7_clear_consumed_once_witness :
    (AddToPersistence persistScenarioRaster persistScenarioView persistFrameA).1.clear_persistence
        = false ∧
      GLCall.glClear true true ∈
        (AddToPersistence persistScenarioRaster persistScenarioView persistFrameA).2 ∧
      GLCall.glClear true true ∉
        (AddToPersistence persistScenarioRaster
          (AddToPersistence persistScenarioRaster persistScenarioView persistFrameA).1
          persistFrameB).2 ∧
      (AddToPersistence persistScenarioRaster
          (AddToPersistence persistScenarioRaster persistScenarioView persistFrameA).1
          persistFrameB).1.persist.color 1 1 =
        (if persistScenarioRaster.fill persistFrameB 1 1 ||
            persistScenarioRaster.line persistFrameB 1 1 then
          { r := min 1 ((1 - 0.02) * ((AddToPersistence persistScenarioRaster persistScenarioView
                persistFrameA).1.persist.color 1 1).r + 0.04)
            g := min 1 ((1 - 0.02) * ((AddToPersistence persistScenarioRaster persistScenarioView
                persistFrameA).1.persist.color 1 1).g + 0.04)
            b := min 1 ((1 - 0.02) * ((AddToPersistence persistScenarioRaster persistScenarioView
                persistFrameA).1.persist.color 1 1).b + 0.04)
            a := min 1 ((1 - 0.02) * ((AddToPersistence persistScenarioRaster persistScenarioView
                persistFrameA).1.persist.color 1 1).a + 1) }
        else
          { r := (1 - 0.02) * ((AddToPersistence persistScenarioRaster persistScenarioView
                persistFrameA).1.persist.color 1 1).r
            g := (1 - 0.02) * ((AddToPersistence persistScenarioRaster persistScenarioView
                persistFrameA).1.persist.color 1 1).g
            b := (1 - 0.02) * ((AddToPersistence persistScenarioRaster persistScenarioView
                persistFrameA).1.persist.color 1 1).b
            a := (1 - 0.02) * ((AddToPersistence persistScenarioRaster persistScenarioView
                persistFrameA).1.persist.color 1 1).a }) ∧
      ((persistScenarioRaster.fill persistFrameA 1 1 ||
          persistScenarioRaster.line persistFrameA 1 1) = true →
        (AddToPersistence persistScenarioRaster
            (AddToPersistence persistScenarioRaster persistScenarioView persistFrameA).1
            persistFrameB).1.persist.color 1 1 ≠
          (AddToPersistence persistScenarioRaster persistScenarioView
            persistFrameB).1.persist.color 1 1) :=
  C7_clear_consumed_once persistScenarioRaster persistScenarioView persistFrameA persistFrameB
    (List.cons_ne_nil _ _) (List.cons_ne_nil _ _) rfl 1 1

/-- C8, as stated, fails: with a clear pending and an empty input vector the
call returns at once and the clear stays pending. -/
theorem C8_counterexample :
    (AddToPersistence persistScenarioRaster persistScenarioView []).1.clear_persistence = true ∧
      (AddToPersistence persistScenarioRaster persistScenarioView []).2 = [] := by
  exact ⟨rfl, rfl⟩

/-- C8, amended. On every `AddToPersistence` call made while a clear is
pending, for every non-empty input vector, the surface is fully cleared and
the flag is reset before the call proceeds: the first calls issued are the
binding of `persist_fbo` and the clear of colour and depth to zero, the
resulting surface is the frame accumulated on the cleared surface, and
`clear_persistence` is false after the call. For an empty vector the call
returns at once, issuing no call and changing nothing. -/
theorem C8_pending_clear_applied (R : Rasterizer) (tv : TraceView) (v : GLVector)
    (hclear : tv.clear_persistence = true) :
    (v ≠ [] →
      (AddToPersistence R tv v).1.clear_persistence = false ∧
        (AddToPersistence R tv v).1.persist = tv.persist.clearAll.accumulate R v ∧
        (AddToPersistence R tv v).2.take 3 =
          [GLCall.glBindFramebuffer GLFramebuffer.persist_fbo,
           GLCall.glClearColor 0 0 0 0, GLCall.glClear true true]) ∧
      (v = [] → AddToPersistence R tv v = (tv, [])) := by
  constructor
  · intro hv
    rw [AddToPersistence_of_ne_nil R tv v hv]
    simp only [hclear, if_true]
    exact ⟨trivial, trivial, rfl⟩
  · intro hv
    subst hv
    rfl

theorem C8_pending_clear_applied_witness :
    (persistFrameA ≠ [] →
      (AddToPersistence persistScenarioRaster persistScenarioView persistFrameA).1.clear_persistence
          = false ∧
        (AddToPersistence persistScenarioRaster persistScenarioView persistFrameA).1.persist =
          persistScenarioView.persist.clearAll.accumulate persistScenarioRaster persistFrameA ∧
        (AddToPersistence persistScenarioRaster persistScenarioView persistFrameA).2.take 3 =
          [GLCall.glBindFramebuffer GLFramebuffer.persist_fbo,
           GLCall.glClearColor 0 0 0 0, GLCall.glClear true true]) ∧
      (persistFrameA = [] →
        AddToPersistence persistScenarioRaster persistScenarioView persistFrameA =
          (persistScenarioView, [])) :=
  C8_pending_clear_applied persistScenarioRaster persistScenarioView persistFrameA rfl

theorem tryLockDrawMutex_some (tv tv1 : TraceView) (h : tryLockDrawMutex tv = some tv1) :
    tv.drawMutex = false ∧ tv1.drawMutex = true := by
  unfold tryLockDrawMutex at h
  split at h
  · exact absurd h (by simp)
  · rename_i hm
    simp only [Option.some.injEq] at h
    subst h
    exact ⟨by simpa using hm, rfl⟩

/-- The mutex discipline of `paintEvent`: at most one caller is inside the
locked body, and while one is, the mutex is held. -/
theorem PaintSystem.step_invariant (env : Env) (cam : Camera) (sys : PaintSystem) (k : Nat)
    (h1 : ∀ i j, sys.pc i = PaintPc.painting → sys.pc j = PaintPc.painting → i = j)
    (h2 : ∀ i, sys.pc i = PaintPc.painting → sys.view.drawMutex = true) :
    (∀ i j, (sys.step env cam k).pc i = PaintPc.painting →
        (sys.step env cam k).pc j = PaintPc.painting → i = j) ∧
      (∀ i, (sys.step env cam k).pc i = PaintPc.painting →
        (sys.step env cam k).view.drawMutex = true) := by
  unfold PaintSystem.step
  cases hk : sys.pc k with
  | start =>
    simp only
    cases ht : tryLockDrawMutex sys.view with
    | none =>
      simp only
      have key : ∀ i, Function.update sys.pc k PaintPc.returned i = PaintPc.painting →
          sys.pc i = PaintPc.painting := by
        intro i hi
        by_cases hik : i = k
        · subst hik; simp at hi
        · rwa [Function.update_noteq hik] at hi
      exact ⟨fun i j hi hj => h1 i j (key i hi) (key j hj), fun i hi => h2 i (key i hi)⟩
    | some tv1 =>
      simp only
      obtain ⟨hfree, hheld⟩ := tryLockDrawMutex_some _ _ ht
      have key : ∀ i, Function.update sys.pc k PaintPc.painting i = PaintPc.painting →
          i = k := by
        intro i hi
        by_contra hik
        rw [Function.update_noteq hik] at hi
        have := h2 i hi
        rw [hfree] at this
        exact absurd this (by simp)
      exact ⟨fun i j hi hj => (key i hi).trans (key j hj).symm, fun _ _ => hheld⟩
  | painting =>
    simp only
    cases hp : paintLocked env cam sys.session sys.view with
    | none => exact ⟨h1, h2⟩
    | some r =>
      obtain ⟨s1, tv1, calls⟩ := r
      simp only
      have key : ∀ i, Function.update sys.pc k PaintPc.returned i ≠ PaintPc.painting := by
        intro i hi
        by_cases hik : i = k
        · subst hik; simp at hi
        · rw [Function.update_noteq hik] at hi
          exact hik (h1 i k hi hk)
      exact ⟨fun i j hi _ => absurd hi (key i), fun i hi => absurd hi (key i)⟩
  | returned => exact ⟨h1, h2⟩

theorem PaintSystem.run_invariant (env : Env) (cam : Camera) :
    ∀ (schedule : List Nat) (sys : PaintSystem),
      (∀ i j, sys.pc i = PaintPc.painting → sys.pc j = PaintPc.painting → i = j) →
      (∀ i, sys.pc i = PaintPc.painting → sys.view.drawMutex = true) →
      (∀ i j, (sys.run env cam schedule).pc i = PaintPc.painting →
          (sys.run env cam schedule).pc j = PaintPc.painting → i = j) ∧
        (∀ i, (sys.run env cam schedule).pc i = PaintPc.painting →
          (sys.run env cam schedule).view.drawMutex = true) := by
  intro schedule
  induction schedule with
  | nil => intro sys h1 h2; exact ⟨h1, h2⟩
  | cons k rest ih =>
    intro sys h1 h2
    obtain ⟨g1, g2⟩ := PaintSystem.step_invariant env cam sys k h1 h2
    exact ih (sys.step env cam k) g1 g2

/-- C9. If `paintEvent` is called while the draw lock is held (`try_lock`
fails), the call returns with the session and every field of the view
unchanged (the semaphore `paintCondition` is not notified, graticule bounds,
trace buffer, persistence surface and waterfall store stay as they were) and
with no graphics call issued. And at most one paint is in flight: however
callers of `paintEvent` interleave, starting with no caller inside the locked
body, two callers are never inside it together, and the mutex is held while
one is. -/
theorem C9_paint_event_dropped_when_locked (env : Env) (cam : Camera) (s : Session)
    (tv : TraceView) (hlock : tv.drawMutex = true)
    (sys : PaintSystem) (hstart : ∀ i, sys.pc i ≠ PaintPc.painting)
    (schedule : List Nat) (i j : Nat) :
    paintEvent env cam s tv = some (s, tv, []) ∧
      ((sys.run env cam schedule).pc i = PaintPc.painting →
        (sys.run env cam schedule).pc j = PaintPc.painting → i = j) ∧
      ((sys.run env cam schedule).pc i = PaintPc.painting →
        (sys.run env cam schedule).view.drawMutex = true) := by
  refine ⟨?_, ?_, ?_⟩
  · simp [paintEvent, tryLockDrawMutex, hlock]
  · exact (PaintSystem.run_invariant env cam schedule sys
      (fun a _ ha _ => absurd ha (hstart a)) (fun a ha => absurd ha (hstart a))).1 i j
  · exact (PaintSystem.run_invariant env cam schedule sys
      (fun a _ ha _ => absurd ha (hstart a)) (fun a ha => absurd ha (hstart a))).2 i

theorem C9_paint_event_dropped_when_locked_witness :
    paintEvent scenarioEnv Camera.initial scenarioSession
        { scenarioView with drawMutex := true } =
      some (scenarioSession, { scenarioView with drawMutex := true }, []) ∧
      ((scenarioPaintSystem.run scenarioEnv Camera.initial [0, 1, 1, 0]).pc 0 =
          PaintPc.painting →
        (scenarioPaintSystem.run scenarioEnv Camera.initial [0, 1, 1, 0]).pc 1 =
          PaintPc.painting → 0 = 1) ∧
      ((scenarioPaintSystem.run scenarioEnv Camera.initial [0, 1, 1, 0]).pc 0 =
          PaintPc.painting →
        (scenarioPaintSystem.run scenarioEnv Camera.initial [0, 1, 1, 0]).view.drawMutex =
          true) :=
  C9_paint_event_dropped_when_locked scenarioEnv Camera.initial scenarioSession
    { scenarioView with drawMutex := true } rfl scenarioPaintSystem
    (fun _ h => PaintPc.noConfusion h) [0, 1, 1, 0] 0 1

/-- C10. If the graphics context does not live in the GUI thread when `Paint`
is called, `Paint` returns immediately: it issues no graphics call and leaves
the session (with its trace buffer and drain cursor) and every field of the
view (graticule bounds, persistence flags and surface, waterfall store)
unchanged. -/
theorem C10_paint_aborts_off_thread (env : Env) (cam : Camera) (s : Session) (tv : TraceView)
    (hthread : tv.contextThread ≠ Thread.gui) :
    Paint env cam s tv = some (s, tv, []) := by
  unfold Paint
  rw [if_pos hthread]

theorem C10_paint_aborts_off_thread_witness :
    Paint scenarioEnv Camera.initial scenarioSession
        { scenarioView with contextThread := Thread.swap_thread } =
      some (scenarioSession, { scenarioView with contextThread := Thread.swap_thread }, []) :=
  C10_paint_aborts_off_thread scenarioEnv Camera.initial scenarioSession
    { scenarioView with contextThread := Thread.swap_thread } (by decide)

/-- Closed form of the loop of `AddToWaterfall`: run for `n` iterations from
counter `i`, it appends for each iteration the six vertex floats and the four
texture floats of that iteration, in order. -/
theorem waterfallLoop_eq (oob : Nat → ℚ) (v : GLVector) (dh : Bool) :
    ∀ (n i : Nat) (fr : WaterfallFrame),
      waterfallLoop oob v dh n i fr =
        { verts := fr.verts ++ ((List.range n).map fun j =>
            [vecAt oob v (i + 4 * j), 0,
              bb_lib.clamp (waterfallZ oob v dh (i + 4 * j)) 0 1,
              vecAt oob v (i + 4 * j), 0, 0]).flatten
          coords := fr.coords ++ ((List.range n).map fun j =>
            [vecAt oob v (i + 4 * j),
              bb_lib.clamp (waterfallZ oob v dh (i + 4 * j)) 0 1,
              vecAt oob v (i + 4 * j), 0]).flatten } := by
  intro n
  induction n with
  | zero => intro i fr; simp [waterfallLoop]
  | succ n ih =>
    intro i fr
    rw [waterfallLoop, ih, List.range_succ_eq_map]
    have e : ∀ j : Nat, i + 4 + 4 * j = i + 4 * (j + 1) := fun j => by omega
    simp [waterfallPush, waterfallX, e, Function.comp_def]

/-- Reading a list of `m` chunks of equal length `c`: position `c * k + r`
lies in chunk `k` at offset `r`. -/
theorem flatten_chunks_getElem? {α : Type} (f : Nat → List α) (c : Nat)
    (hc : ∀ j, (f j).length = c) (r : Nat) (hr : r < c) :
    ∀ (m k : Nat), k < m → ((List.range m).map f).flatten[c * k + r]? = (f k)[r]? := by
  have hlen : ∀ m, ((List.range m).map f).flatten.length = c * m := by
    intro m
    induction m with
    | zero => simp
    | succ m ih =>
      rw [List.range_succ, List.map_append, List.flatten_append, List.length_append, ih]
      simp [hc, Nat.mul_succ]
  intro m
  induction m with
  | zero => intro k hk; omega
  | succ m ih =>
    intro k hk
    rw [List.range_succ, List.map_append, List.flatten_append]
    by_cases hkm : k < m
    · rw [List.getElem?_append_left, ih k hkm]
      rw [hlen]
      calc c * k + r < c * k + c := by omega
        _ = c * (k + 1) := by rw [Nat.mul_succ]
        _ ≤ c * m := Nat.mul_le_mul_left c hkm
    · have hk2 : k = m := by omega
      subst hk2
      rw [List.getElem?_append_right (by rw [hlen]; omega), hlen]
      simp

theorem flatten_chunks_length {α : Type} (f : Nat → List α) (c : Nat)
    (hc : ∀ j, (f j).length = c) (m : Nat) :
    ((List.range m).map f).flatten.length = c * m := by
  induction m with
  | zero => simp
  | succ m ih =>
    rw [List.range_succ, List.map_append, List.flatten_append, List.length_append, ih]
    simp [hc, Nat.mul_succ]

theorem vecAt_of_lt (oob : Nat → ℚ) (v : GLVector) (i : Nat) (h : i < v.length) :
    v[i]? = some (vecAt oob v i) := by
  unfold vecAt
  rw [List.get?_eq_getElem?, List.getElem?_eq_getElem h]

theorem bb_lib.clamp_unit (z : ℚ) :
    (0 ≤ bb_lib.clamp z 0 1 ∧ bb_lib.clamp z 0 1 ≤ 1) ∧
      (0 ≤ z → z ≤ 1 → bb_lib.clamp z 0 1 = z) ∧
      (z < 0 → bb_lib.clamp z 0 1 = 0) ∧
      (1 < z → bb_lib.clamp z 0 1 = 1) := by
  unfold bb_lib.clamp
  refine ⟨?_, ?_, ?_, ?_⟩
  · dsimp only
    split_ifs <;> constructor <;> linarith
  · intro h0 h1
    dsimp only
    split_ifs <;> linarith
  · intro h0
    dsimp only
    split_ifs <;> linarith
  · intro h1
    dsimp only
    split_ifs <;> linarith
/-- The frame `AddToWaterfall` builds from a vector of `m` point groups, in
closed form. -/
theorem waterfallFrame_eq (oob : Nat → ℚ) (g : Int) (v : GLVector) (m : Nat)
    (hv : v.length = 4 * m) :
    waterfallFrame oob g v =
      { verts := ((List.range m).map fun k =>
          [v.getD (4 * k) 0, 0, bb_lib.clamp (waterfallZ oob v (degenHack g v) (4 * k)) 0 1,
            v.getD (4 * k) 0, 0, 0]).flatten
        coords := ((List.range m).map fun k =>
          [v.getD (4 * k) 0, bb_lib.clamp (waterfallZ oob v (degenHack g v) (4 * k)) 0 1,
            v.getD (4 * k) 0, 0]).flatten } := by
  have hn : (v.length + 3) / 4 = m := by omega
  have hx : ∀ k ∈ List.range m, vecAt oob v (4 * k) = v.getD (4 * k) 0 := by
    intro k hk
    have hlt : 4 * k < v.length := by
      have := List.mem_range.mp hk
      omega
    have h1 := vecAt_of_lt oob v (4 * k) hlt
    rw [List.getD_eq_getElem?_getD, h1]
    rfl
  unfold waterfallFrame
  rw [hn, waterfallLoop_eq]
  simp only [List.nil_append, Nat.zero_add]
  congr 1
  · congr 1
    apply List.map_congr_left
    intro k hk
    rw [hx k hk]
  · congr 1
    apply List.map_congr_left
    intro k hk
    rw [hx k hk]

/-- The height `AddToWaterfall` stores for group `k` of a vector of `m`
groups: the clamped selected sample, at vertex float `6k+2` and at texture
float `4k+1` of the new frame. -/
theorem AddToWaterfall_stored_height (M : Nat) (oob : Nat → ℚ)
    (tv : TraceView) (v : GLVector) (m k : Nat) (hmax : 1 ≤ M)
    (hstore : tv.waterfall_verts.length = tv.waterfall_coords.length)
    (hm : 0 < m) (hv : v.length = 4 * m) (hk : k < m) :
    ∃ tv1 fr tc, AddToWaterfall M oob tv v = some tv1 ∧
      tv1.waterfall_verts.head? = some fr ∧ tv1.waterfall_coords.head? = some tc ∧
      fr[6 * k + 2]? =
        some (bb_lib.clamp (waterfallZ oob v (degenHack tv.grat_sz.x v) (4 * k)) 0 1) ∧
      tc[4 * k + 1]? =
        some (bb_lib.clamp (waterfallZ oob v (degenHack tv.grat_sz.x v) (4 * k)) 0 1) := by
  have hne : v ≠ [] := by
    intro h
    rw [h] at hv
    simp at hv
    omega
  refine ⟨_, _, _, AddToWaterfall_step M hmax oob tv v hstore hne, rfl, rfl, ?_, ?_⟩
  · rw [waterfallFrame_eq oob tv.grat_sz.x v m hv]
    refine Eq.trans (flatten_chunks_getElem? _ 6 ?_ 2 (by omega) m k hk) rfl
    intro j
    rfl
  · rw [waterfallFrame_eq oob tv.grat_sz.x v m hv]
    refine Eq.trans (flatten_chunks_getElem? _ 4 ?_ 1 (by omega) m k hk) rfl
    intro j
    rfl

/-- C15. For every input vector whose length is a positive multiple of 4
(`m` point groups), whatever the graticule width (so on the degenerate path
and on the normal path alike), `AddToWaterfall` returns, and for every group
`k` the height it stores in the new frame, as the `z` of the top vertex
(vertex float `6k+2`) and as the second component of the matching texture
coordinate (float `4k+1`), is the selected sample value clamped: it lies in
`[0, 1]`, equals the selected value when that is already in `[0, 1]`, is 0
when it is below 0 and 1 when it is above 1. -/
theorem C15_waterfall_heights_clamped (MAX_WATERFALL_LINES : Nat) (oob : Nat → ℚ)
    (tv : TraceView) (v : GLVector) (m k : Nat) (hmax : 1 ≤ MAX_WATERFALL_LINES)
    (hstore : tv.waterfall_verts.length = tv.waterfall_coords.length)
    (hm : 0 < m) (hv : v.length = 4 * m) (hk : k < m) :
    ∃ tv1 fr tc, AddToWaterfall MAX_WATERFALL_LINES oob tv v = some tv1 ∧
      tv1.waterfall_verts.head? = some fr ∧ tv1.waterfall_coords.head? = some tc ∧
      fr[6 * k + 2]? =
        some (bb_lib.clamp (waterfallZ oob v (degenHack tv.grat_sz.x v) (4 * k)) 0 1) ∧
      tc[4 * k + 1]? =
        some (bb_lib.clamp (waterfallZ oob v (degenHack tv.grat_sz.x v) (4 * k)) 0 1) ∧
      (0 ≤ bb_lib.clamp (waterfallZ oob v (degenHack tv.grat_sz.x v) (4 * k)) 0 1 ∧
        bb_lib.clamp (waterfallZ oob v (degenHack tv.grat_sz.x v) (4 * k)) 0 1 ≤ 1) ∧
      (0 ≤ waterfallZ oob v (degenHack tv.grat_sz.x v) (4 * k) →
        waterfallZ oob v (degenHack tv.grat_sz.x v) (4 * k) ≤ 1 →
        bb_lib.clamp (waterfallZ oob v (degenHack tv.grat_sz.x v) (4 * k)) 0 1 =
          waterfallZ oob v (degenHack tv.grat_sz.x v) (4 * k)) ∧
      (waterfallZ oob v (degenHack tv.grat_sz.x v) (4 * k) < 0 →
        bb_lib.clamp (waterfallZ oob v (degenHack tv.grat_sz.x v) (4 * k)) 0 1 = 0) ∧
      (1 < waterfallZ oob v (degenHack tv.grat_sz.x v) (4 * k) →
        bb_lib.clamp (waterfallZ oob v (degenHack tv.grat_sz.x v) (4 * k)) 0 1 = 1) := by
  obtain ⟨hb, hin, hlo, hhi⟩ :=
    bb_lib.clamp_unit (waterfallZ oob v (degenHack tv.grat_sz.x v) (4 * k))
  obtain ⟨tv1, fr, tc, h1, h2, h3, h4, h5⟩ :=
    AddToWaterfall_stored_height MAX_WATERFALL_LINES oob tv v m k hmax hstore hm hv hk
  exact ⟨tv1, fr, tc, h1, h2, h3, h4, h5, hb, hin, hlo, hhi⟩

/-- C17. For every input vector of length `n = 4 * m` with `m` positive, the
frame `AddToWaterfall` inserts at the front of the store has `m` vertex
pairs, in group order: for group `i` the vertex buffer holds the top vertex
`(x_i, 0, z_i)` followed by the bottom vertex `(x_i, 0, 0)`, and the
texture-coordinate buffer the matching pair `(x_i, z_i)`, `(x_i, 0)`, with
`x_i = v[4i]` and `z_i` the clamped height of the group; the vertex buffer
has `6 * m` floats and the coordinate buffer `4 * m`. -/
theorem C17_waterfall_frame_layout (MAX_WATERFALL_LINES : Nat) (oob : Nat → ℚ)
    (tv : TraceView) (v : GLVector) (m : Nat) (hmax : 1 ≤ MAX_WATERFALL_LINES)
    (hstore : tv.waterfall_verts.length = tv.waterfall_coords.length)
    (hm : 0 < m) (hv : v.length = 4 * m) :
    ∃ tv1 fr tc, AddToWaterfall MAX_WATERFALL_LINES oob tv v = some tv1 ∧
      tv1.waterfall_verts.head? = some fr ∧ tv1.waterfall_coords.head? = some tc ∧
      fr = ((List.range m).map fun i =>
          [v.getD (4 * i) 0, 0,
            bb_lib.clamp (waterfallZ oob v (degenHack tv.grat_sz.x v) (4 * i)) 0 1,
            v.getD (4 * i) 0, 0, 0]).flatten ∧
      tc = ((List.range m).map fun i =>
          [v.getD (4 * i) 0,
            bb_lib.clamp (waterfallZ oob v (degenHack tv.grat_sz.x v) (4 * i)) 0 1,
            v.getD (4 * i) 0, 0]).flatten ∧
      fr.length = 6 * m ∧ tc.length = 4 * m := by
  have hne : v ≠ [] := by
    intro h
    rw [h] at hv
    simp at hv
    omega
  refine ⟨_, _, _, AddToWaterfall_step MAX_WATERFALL_LINES hmax oob tv v hstore hne,
    rfl, rfl, ?_, ?_, ?_, ?_⟩
  · rw [waterfallFrame_eq oob tv.grat_sz.x v m hv]
  · rw [waterfallFrame_eq oob tv.grat_sz.x v m hv]
  · rw [waterfallFrame_eq oob tv.grat_sz.x v m hv]
    refine flatten_chunks_length _ 6 ?_ m
    intro j
    rfl
  · rw [waterfallFrame_eq oob tv.grat_sz.x v m hv]
    refine flatten_chunks_length _ 4 ?_ m
    intro j
    rfl
theorem C15_waterfall_heights_clamped_witness :
    ∃ tv1 fr tc, AddToWaterfall 48 (fun _ => 0) scenarioView persistFrameA = some tv1 ∧
      tv1.waterfall_verts.head? = some fr ∧ tv1.waterfall_coords.head? = some tc ∧
      fr[6 * 1 + 2]? =
        some (bb_lib.clamp
          (waterfallZ (fun _ => 0) persistFrameA
            (degenHack scenarioView.grat_sz.x persistFrameA) (4 * 1)) 0 1) ∧
      (0 ≤ bb_lib.clamp
          (waterfallZ (fun _ => 0) persistFrameA
            (degenHack scenarioView.grat_sz.x persistFrameA) (4 * 1)) 0 1 ∧
        bb_lib.clamp
          (waterfallZ (fun _ => 0) persistFrameA
            (degenHack scenarioView.grat_sz.x persistFrameA) (4 * 1)) 0 1 ≤ 1) := by
  obtain ⟨tv1, fr, tc, h1, h2, h3, h4, _, h6, _⟩ :=
    C15_waterfall_heights_clamped 48 (fun _ => 0) scenarioView persistFrameA 2 1
      (by decide) rfl (by decide) rfl (by decide)
  exact ⟨tv1, fr, tc, h1, h2, h3, h4, h6⟩

theorem C17_waterfall_frame_layout_witness :
    ∃ tv1 fr tc, AddToWaterfall 48 (fun _ => 0) scenarioView persistFrameA = some tv1 ∧
      tv1.waterfall_verts.head? = some fr ∧ tv1.waterfall_coords.head? = some tc ∧
      fr.length = 6 * 2 ∧ tc.length = 4 * 2 := by
  obtain ⟨tv1, fr, tc, h1, h2, h3, _, _, h6, h7⟩ :=
    C17_waterfall_frame_layout 48 (fun _ => 0) scenarioView persistFrameA 2
      (by decide) rfl (by decide) rfl
  exact ⟨tv1, fr, tc, h1, h2, h3, h6, h7⟩

/-- The indices read on the degenerate-avoidance path for group `k` of a
vector of `m` groups (shorter than `2 ^ 31` floats): on the left `4k - 1`,
the last float of group `k - 1` (index 1 for the first group), on the right
`4k + 3`, the last float of group `k` itself (`4k + 1` for the last group). -/
theorem waterfall_degenerate_indices (m k : Nat) (hk : k < m) (hm : 4 * m < 2 ^ 31) :
    waterfallLeftIndex (4 * k) = (if k = 0 then 1 else 4 * k - 1) ∧
      waterfallRightIndex (4 * m) (4 * k) = (if k + 1 = m then 4 * k + 1 else 4 * k + 3) := by
  constructor
  · have h1 : 4 * k % 2 ^ 32 = 4 * k := Nat.mod_eq_of_lt (by omega)
    have h2 : toInt32 (4 * k) = ((4 * k : Nat) : Int) := by
      unfold toInt32
      rw [h1, if_pos (by omega)]
    unfold waterfallLeftIndex bb_lib.max2
    rw [h2]
    by_cases h0 : k = 0
    · subst h0
      simp
    · rw [if_neg h0, if_neg (by omega)]
      omega
  · unfold waterfallRightIndex bb_lib.min2
    have h1 : (4 * k + 3) % 2 ^ 32 = 4 * k + 3 := Nat.mod_eq_of_lt (by omega)
    have h2 : (4 * m % 2 ^ 32 + 2 ^ 32 - 3) % 2 ^ 32 = 4 * m - 3 := by omega
    rw [h1, h2]
    by_cases hl : k + 1 = m
    · rw [if_pos hl, if_neg (by omega)]
      omega
    · rw [if_neg hl, if_pos (by omega)]

/-- What `AddToPersistence` leaves alone: every field of the view but the
persistence surface and the pending-clear flag. -/
theorem AddToPersistence_frame (R : Rasterizer) (tv : TraceView) (v : GLVector) :
    (AddToPersistence R tv v).1 =
      { tv with persist := (AddToPersistence R tv v).1.persist
                clear_persistence := (AddToPersistence R tv v).1.clear_persistence } := by
  unfold AddToPersistence
  split
  · rfl
  · split <;> rfl

/-- With at least one waterfall line allowed and the two stores equally
long, `AddToWaterfall` returns, changes nothing but the two stores and keeps
them equally long. -/
theorem AddToWaterfall_frame (M : Nat) (hM : 1 ≤ M) (oob : Nat → ℚ) (tv : TraceView)
    (v : GLVector) (hlen : tv.waterfall_verts.length = tv.waterfall_coords.length) :
    ∃ tv1, AddToWaterfall M oob tv v = some tv1 ∧
      tv1 = { tv with waterfall_verts := tv1.waterfall_verts
                      waterfall_coords := tv1.waterfall_coords } ∧
      tv1.waterfall_verts.length = tv1.waterfall_coords.length := by
  by_cases hv : v = []
  · subst hv
    exact ⟨tv, rfl, rfl, hlen⟩
  · refine ⟨_, AddToWaterfall_step M hM oob tv v hlen hv, rfl, ?_⟩
    simp only [List.length_cons, List.length_take, hlen]

theorem drainOne_eq (env : Env) (tv : TraceView) (v : GLVector) :
    drainOne env tv v =
      match (if tv.waterfall_state ≠ WaterfallState.WaterfallOFF then
          AddToWaterfall env.MAX_WATERFALL_LINES env.oob
            (if tv.persist_on then AddToPersistence env.raster tv v else (tv, [])).1 v
        else some (if tv.persist_on then AddToPersistence env.raster tv v else (tv, [])).1) with
      | none => none
      | some tv1 =>
        some (tv1, (if tv.persist_on then AddToPersistence env.raster tv v else (tv, [])).2) := by
  have hw : (if tv.persist_on then AddToPersistence env.raster tv v
      else (tv, [])).1.waterfall_state = tv.waterfall_state := by
    split
    · rw [AddToPersistence_frame]
    · rfl
  unfold drainOne
  simp only [hw]
  split
  · rfl
  · rfl

/-- The drain loop of `RenderTraces` refines the drain pass of the
specification: with more fuel than undrained vectors it feeds those vectors
to the sinks once each, in buffer order, and leaves the buffer drained. -/
theorem drainLoop_eq (env : Env) :
    ∀ (fuel : Nat) (s : Session) (tv : TraceView),
      s.trace_manager.trace_buffer.undrained.length < fuel →
      drainLoop env fuel s tv =
        (feedSinksInOrder env tv s.trace_manager.trace_buffer.undrained).map
          fun r => (s.drained, r.1, r.2) := by
  intro fuel
  induction fuel with
  | zero => intro s tv h; omega
  | succ fuel ih =>
    intro s tv hfuel
    obtain ⟨colors, prefs, titleIsNull, device, sweep, tm, now⟩ := s
    obtain ⟨traces, markers, limitLine, channelPower, tb, above⟩ := tm
    obtain ⟨capacity, undrained⟩ := tb
    cases undrained with
    | nil => rfl
    | cons v rest =>
      simp only [List.length_cons] at hfuel
      unfold drainLoop
      simp only [TraceBuffer.Back, List.head?_cons, TraceBuffer.IncrementBack, List.tail_cons]
      rw [drainOne_eq]
      unfold feedSinksInOrder
      dsimp only
      cases hstep : (if tv.waterfall_state ≠ WaterfallState.WaterfallOFF then
          AddToWaterfall env.MAX_WATERFALL_LINES env.oob
            (if tv.persist_on then AddToPersistence env.raster tv v else (tv, [])).1 v
        else some (if tv.persist_on then AddToPersistence env.raster tv v else (tv, [])).1) with
      | none => rfl
      | some tv1 =>
        simp only
        rw [ih _ tv1 (by simpa using Nat.lt_of_succ_lt_succ hfuel)]
        cases feedSinksInOrder env tv1 rest with
        | none => rfl
        | some r => rfl

theorem persistenceCalls_kinds (clear : Bool) (w h : Int) (v : GLVector) :
    ∀ c ∈ persistenceCalls clear w h v,
      c.isTraceDraw = false ∧ c.isPersistenceDraw = false := by
  have hall : (persistenceCalls clear w h v).all
      (fun c => !c.isTraceDraw && !c.isPersistenceDraw) = true := by
    cases clear <;> rfl
  intro c hc
  have := List.all_eq_true.mp hall c hc
  simpa using this

theorem AddToPersistence_kinds (R : Rasterizer) (tv : TraceView) (v : GLVector) :
    ∀ c ∈ (AddToPersistence R tv v).2,
      c.isTraceDraw = false ∧ c.isPersistenceDraw = false := by
  unfold AddToPersistence
  split
  · intro c hc
    simp at hc
  · exact persistenceCalls_kinds _ _ _ _

/-- With at least one waterfall line allowed and the two stores equally
long, the drain pass returns; it changes nothing of the view but the
persistence surface, the pending-clear flag and the two waterfall stores,
issues no call that draws a live trace or the persistence surface, and issues
no call at all when persistence is off. -/
theorem feedSinksInOrder_spec (env : Env) (hM : 1 ≤ env.MAX_WATERFALL_LINES) :
    ∀ (vs : List GLVector) (tv : TraceView),
      tv.waterfall_verts.length = tv.waterfall_coords.length →
      ∃ tv1 calls, feedSinksInOrder env tv vs = some (tv1, calls) ∧
        tv1 = { tv with persist := tv1.persist
                        clear_persistence := tv1.clear_persistence
                        waterfall_verts := tv1.waterfall_verts
                        waterfall_coords := tv1.waterfall_coords } ∧
        tv1.waterfall_verts.length = tv1.waterfall_coords.length ∧
        (∀ c ∈ calls, c.isTraceDraw = false ∧ c.isPersistenceDraw = false) ∧
        (tv.persist_on = false → calls = []) := by
  intro vs
  induction vs with
  | nil => intro tv hlen; exact ⟨tv, [], rfl, rfl, hlen, by simp, fun _ => rfl⟩
  | cons v rest ih =>
    intro tv hlen
    unfold feedSinksInOrder
    dsimp only
    have hp := AddToPersistence_frame env.raster tv v
    have hk := AddToPersistence_kinds env.raster tv v
    generalize hpe : (if tv.persist_on then AddToPersistence env.raster tv v else (tv, [])) = p
    have hp1 : p.1 = { tv with persist := p.1.persist
                               clear_persistence := p.1.clear_persistence } := by
      rw [← hpe]
      split
      · exact hp
      · rfl
    have hp2 : ∀ c ∈ p.2, c.isTraceDraw = false ∧ c.isPersistenceDraw = false := by
      rw [← hpe]
      split
      · exact hk
      · intro c hc
        simp at hc
    have hp3 : tv.persist_on = false → p.2 = [] := by
      intro hoff
      rw [← hpe, hoff]
      rfl
    have hplen : p.1.waterfall_verts.length = p.1.waterfall_coords.length := by
      rw [hp1]
      exact hlen
    obtain ⟨tvw, hw1, hw2, hw3⟩ : ∃ tvw,
        (if tv.waterfall_state ≠ WaterfallState.WaterfallOFF then
          AddToWaterfall env.MAX_WATERFALL_LINES env.oob p.1 v else some p.1) = some tvw ∧
        tvw = { p.1 with waterfall_verts := tvw.waterfall_verts
                         waterfall_coords := tvw.waterfall_coords } ∧
        tvw.waterfall_verts.length = tvw.waterfall_coords.length := by
      split
      · exact AddToWaterfall_frame _ hM _ _ _ hplen
      · exact ⟨p.1, rfl, rfl, hplen⟩
    rw [hw1]
    obtain ⟨tv2, calls2, h1, h2, h3, h4, h5⟩ := ih tvw hw3
    have hpo : tvw.persist_on = tv.persist_on := by
      rw [hw2, hp1]
    refine ⟨tv2, p.2 ++ calls2, ?_, ?_, h3, ?_, ?_⟩
    · simp only [h1]
    · rw [h2, hw2, hp1]
    · intro c hc
      rcases List.mem_append.mp hc with h | h
      · exact hp2 c h
      · exact h4 c h
    · intro hoff
      rw [hp3 hoff, h5 (hpo.trans hoff)]
      rfl

theorem renderTraceLoop_frame (env : Env) :
    ∀ (l : List (Nat × Trace)) (tv : TraceView),
      (renderTraceLoop env l tv).1 = { tv with traces := (renderTraceLoop env l tv).1.traces } ∧
        ∀ c ∈ (renderTraceLoop env l tv).2, c.isPersistenceDraw = false := by
  intro l
  induction l with
  | nil => intro tv; exact ⟨rfl, by simp [renderTraceLoop]⟩
  | cons a rest ih =>
    intro tv
    obtain ⟨i, trace⟩ := a
    unfold renderTraceLoop
    split
    · dsimp only
      obtain ⟨h1, h2⟩ := ih
        { tv with traces := (tv.traces.set i (env.normalize_trace trace tv.grat_sz)) }
      refine ⟨?_, ?_⟩
      · rw [h1]
      · intro c hc
        rcases List.mem_append.mp hc with h | h
        · have hall : (DrawTrace trace.Color (env.normalize_trace trace tv.grat_sz)).all
              (fun c => !c.isPersistenceDraw) = true := by
            unfold DrawTrace
            split <;> rfl
          simpa using List.all_eq_true.mp hall c h
        · exact h2 c h
    · exact ih tv

theorem DrawLimitLines_kinds (s : Session) (t : Trace) (v : GLVector) :
    ∀ c ∈ DrawLimitLines s t v, c.isPersistenceDraw = false := by
  have hall : (DrawLimitLines s t v).all (fun c => !c.isPersistenceDraw) = true := by
    unfold DrawLimitLines
    split <;> rfl
  intro c hc
  simpa using List.all_eq_true.mp hall c hc

theorem DrawPersistence_kinds (tv : TraceView) :
    (∀ c ∈ DrawPersistence tv, c.isTraceDraw = false) ∧
      GLCall.glBindTexture GLTexture.persist_tex ∈ DrawPersistence tv := by
  constructor
  · have hall : (DrawPersistence tv).all (fun c => !c.isTraceDraw) = true := rfl
    intro c hc
    simpa using List.all_eq_true.mp hall c hc
  · simp [DrawPersistence]

/-- The first part of `RenderTraces`, the un-buffering of persistence and
waterfall data, under the two conditions that keep `AddToWaterfall` from
faulting. -/
theorem RenderTraces_drain_part (env : Env) (s : Session) (tv : TraceView)
    (hmax : 1 ≤ env.MAX_WATERFALL_LINES)
    (hstore : tv.waterfall_verts.length = tv.waterfall_coords.length) :
    ∃ s1 tv1 calls1,
      (if tv.persist_on || decide (tv.waterfall_state ≠ WaterfallState.WaterfallOFF) then
          drainLoop env (s.trace_manager.trace_buffer.undrained.length + 1) s tv
        else some (s, tv, [])) = some (s1, tv1, calls1) ∧
      tv1 = { tv with persist := tv1.persist
                      clear_persistence := tv1.clear_persistence
                      waterfall_verts := tv1.waterfall_verts
                      waterfall_coords := tv1.waterfall_coords } ∧
      (∀ c ∈ calls1, c.isTraceDraw = false ∧ c.isPersistenceDraw = false) ∧
      (tv.persist_on = false → calls1 = []) ∧
      ((tv.persist_on = true ∨ tv.waterfall_state ≠ WaterfallState.WaterfallOFF) →
        s1 = s.drained ∧
          feedSinksInOrder env tv s.trace_manager.trace_buffer.undrained = some (tv1, calls1)) ∧
      (tv.persist_on = false → tv.waterfall_state = WaterfallState.WaterfallOFF →
        s1 = s ∧ tv1 = tv) := by
  by_cases hen : tv.persist_on = true ∨ tv.waterfall_state ≠ WaterfallState.WaterfallOFF
  · have hc : (tv.persist_on || decide (tv.waterfall_state ≠ WaterfallState.WaterfallOFF))
        = true := by
      rcases hen with h | h
      · simp [h]
      · simp [h]
    obtain ⟨tv1, calls1, h1, h2, _, h4, h5⟩ :=
      feedSinksInOrder_spec env hmax s.trace_manager.trace_buffer.undrained tv hstore
    refine ⟨s.drained, tv1, calls1, ?_, h2, h4, h5, fun _ => ⟨rfl, h1⟩, ?_⟩
    · rw [if_pos hc, drainLoop_eq env _ s tv (Nat.lt_succ_self _), h1]
      rfl
    · intro hoff hw
      rcases hen with h | h
      · rw [hoff] at h
        exact absurd h (by simp)
      · exact absurd hw h
  · have hoff : tv.persist_on = false := by
      cases hp : tv.persist_on
      · rfl
      · exact absurd (Or.inl hp) hen
    have hw : tv.waterfall_state = WaterfallState.WaterfallOFF := by
      by_contra h
      exact hen (Or.inr h)
    have hc : ¬ ((tv.persist_on || decide (tv.waterfall_state ≠ WaterfallState.WaterfallOFF))
        = true) := by
      simp [hoff, hw]
    refine ⟨s, tv, [], ?_, rfl, by simp, fun _ => rfl, fun h => absurd h hen,
      fun _ _ => ⟨rfl, rfl⟩⟩
    rw [if_neg hc]
/-- What `RenderTraces` returns when persistence is on: the drained state and
the calls of the drain pass followed by `DrawPersistence`. -/
theorem RenderTraces_persist_on (env : Env) (s : Session) (tv : TraceView)
    (hmax : 1 ≤ env.MAX_WATERFALL_LINES)
    (hstore : tv.waterfall_verts.length = tv.waterfall_coords.length)
    (hon : tv.persist_on = true) :
    ∃ tv1 calls1,
      feedSinksInOrder env tv s.trace_manager.trace_buffer.undrained = some (tv1, calls1) ∧
      RenderTraces env s tv = some (s.drained, tv1, calls1 ++ DrawPersistence tv1) ∧
      tv1.traces = tv.traces ∧
      (∀ c ∈ calls1, c.isTraceDraw = false ∧ c.isPersistenceDraw = false) := by
  obtain ⟨s1, tv1, calls1, hd, hfr, hk, _, hen, _⟩ :=
    RenderTraces_drain_part env s tv hmax hstore
  obtain ⟨hs1, hfeed⟩ := hen (Or.inl hon)
  have hon1 : tv1.persist_on = true := by rw [hfr]; exact hon
  refine ⟨tv1, calls1, hfeed, ?_, by rw [hfr], hk⟩
  unfold RenderTraces
  rw [hd]
  simp only [hon1, if_true, hs1]

theorem TraceView.with_traces_congr (x tv1 : TraceView) (t : List GLVector)
    (h : x = { tv1 with traces := x.traces }) :
    { x with traces := t } = { tv1 with traces := t } := by
  rw [h]

/-- What `RenderTraces` returns when persistence is off: the live-trace pass
on the view the drain pass leaves; none of its calls draws the persistence
surface. -/
theorem RenderTraces_persist_off (env : Env) (s : Session) (tv : TraceView)
    (hmax : 1 ≤ env.MAX_WATERFALL_LINES)
    (hstore : tv.waterfall_verts.length = tv.waterfall_coords.length)
    (hoff : tv.persist_on = false) :
    ∃ s1 tv1 tvF calls,
      (if tv.persist_on || decide (tv.waterfall_state ≠ WaterfallState.WaterfallOFF) then
          drainLoop env (s.trace_manager.trace_buffer.undrained.length + 1) s tv
        else some (s, tv, [])) = some (s1, tv1, []) ∧
      RenderTraces env s tv = some (s1, tvF, calls) ∧
      tvF = { tv1 with traces := tvF.traces } ∧
      (∀ c ∈ calls, c.isPersistenceDraw = false) := by
  obtain ⟨s1, tv1, calls1, hd, hfr, _, hnil, _, _⟩ :=
    RenderTraces_drain_part env s tv hmax hstore
  have hc1 : calls1 = [] := hnil hoff
  subst hc1
  have hoff1 : tv1.persist_on = false := by rw [hfr]; exact hoff
  have hloop := renderTraceLoop_frame env s1.trace_manager.traces.enum tv1
  have hall : ∀ l : List GLCall, l.all (fun c => !c.isPersistenceDraw) = true →
      ∀ c ∈ l, c.isPersistenceDraw = false := by
    intro l hl c hc
    simpa using List.all_eq_true.mp hl c hc
  have hRT : ∃ tvF calls, RenderTraces env s tv = some (s1, tvF, calls) ∧
      tvF = { tv1 with traces := tvF.traces } ∧
      (∀ c ∈ calls, c.isPersistenceDraw = false) := by
    have hn : ¬ (tv1.persist_on = true) := by rw [hoff1]; simp
    unfold RenderTraces
    rw [hd]
    dsimp only
    rw [if_neg hn]
    refine ⟨_, _, rfl, ?_, ?_⟩
    · split
      · dsimp only
        exact TraceView.with_traces_congr _ _ _ hloop.1
      · exact hloop.1
    · intro c hc
      simp only [List.mem_append] at hc
      rcases hc with (((hc | hc) | hc) | hc) | hc
      · simp at hc
      · refine hall _ ?_ c hc
        rfl
      · exact hloop.2 c hc
      · split at hc
        · exact DrawLimitLines_kinds _ _ _ c hc
        · simp at hc
      · refine hall _ ?_ c hc
        rfl
  obtain ⟨tvF, calls, h1, h2, h3⟩ := hRT
  exact ⟨s1, tv1, tvF, calls, hd, h1, h2, h3⟩
/-- C13. When persistence is enabled, `RenderTraces` returns the calls of the
drain pass followed by `DrawPersistence`: the persistence surface is drawn,
no live trace or limit line is normalized (the vectors `traces` are left as
they were) or drawn. When persistence is disabled no call draws the
persistence surface. In no `RenderTraces` call do persistence drawing and
live-trace drawing both occur. -/
theorem C13_persistence_excludes_live_traces (env : Env) (s : Session) (tv : TraceView)
    (hmax : 1 ≤ env.MAX_WATERFALL_LINES)
    (hstore : tv.waterfall_verts.length = tv.waterfall_coords.length) :
    (tv.persist_on = true →
        ∃ s1 tv1 calls1,
          RenderTraces env s tv = some (s1, tv1, calls1 ++ DrawPersistence tv1) ∧
          tv1.traces = tv.traces ∧
          (∀ c ∈ calls1 ++ DrawPersistence tv1, c.isTraceDraw = false) ∧
          (∃ c ∈ calls1 ++ DrawPersistence tv1, c.isPersistenceDraw = true)) ∧
      (tv.persist_on = false →
        ∃ s1 tv1 calls, RenderTraces env s tv = some (s1, tv1, calls) ∧
          ∀ c ∈ calls, c.isPersistenceDraw = false) ∧
      (∀ r, RenderTraces env s tv = some r →
        ¬ ((∃ c ∈ r.2.2, c.isPersistenceDraw = true) ∧ ∃ c ∈ r.2.2, c.isTraceDraw = true)) := by
  have hon : tv.persist_on = true →
      ∃ s1 tv1 calls1,
        RenderTraces env s tv = some (s1, tv1, calls1 ++ DrawPersistence tv1) ∧
        tv1.traces = tv.traces ∧
        (∀ c ∈ calls1 ++ DrawPersistence tv1, c.isTraceDraw = false) ∧
        (∃ c ∈ calls1 ++ DrawPersistence tv1, c.isPersistenceDraw = true) := by
    intro h
    obtain ⟨tv1, calls1, _, h2, h3, h4⟩ := RenderTraces_persist_on env s tv hmax hstore h
    refine ⟨s.drained, tv1, calls1, h2, h3, ?_, ?_⟩
    · intro c hc
      rcases List.mem_append.mp hc with hc | hc
      · exact (h4 c hc).1
      · exact (DrawPersistence_kinds tv1).1 c hc
    · exact ⟨GLCall.glBindTexture GLTexture.persist_tex,
        List.mem_append_right _ (DrawPersistence_kinds tv1).2, rfl⟩
  have hoff : tv.persist_on = false →
      ∃ s1 tv1 calls, RenderTraces env s tv = some (s1, tv1, calls) ∧
        ∀ c ∈ calls, c.isPersistenceDraw = false := by
    intro h
    obtain ⟨s1, _, tvF, calls, _, h2, _, h4⟩ := RenderTraces_persist_off env s tv hmax hstore h
    exact ⟨s1, tvF, calls, h2, h4⟩
  refine ⟨hon, hoff, ?_⟩
  intro r hr hboth
  obtain ⟨⟨c1, hc1, hp⟩, ⟨c2, hc2, ht⟩⟩ := hboth
  cases hpo : tv.persist_on
  · obtain ⟨s1, tv1, calls, h1, h2⟩ := hoff hpo
    rw [h1] at hr
    cases hr
    rw [h2 c1 hc1] at hp
    exact absurd hp (by simp)
  · obtain ⟨s1, tv1, calls1, h1, _, h3, _⟩ := hon hpo
    rw [h1] at hr
    cases hr
    rw [h3 c2 hc2] at ht
    exact absurd ht (by simp)

theorem C13_persistence_excludes_live_traces_witness :
    ∃ s1 tv1 calls, RenderTraces scenarioEnv scenarioSession scenarioView = some (s1, tv1, calls) ∧
      ∀ c ∈ calls, c.isPersistenceDraw = false :=
  (C13_persistence_excludes_live_traces scenarioEnv scenarioSession scenarioView
    (by decide) rfl).2.1 rfl

/-- C14. When persistence or the waterfall is enabled, one `RenderTraces`
call drains the trace buffer to empty: it returns, the sinks have been fed
every undrained vector exactly once, in buffer order (the same vector to
`AddToPersistence` if persistence is on and to `AddToWaterfall` if the
waterfall is not off), the drain cursor has passed every entry, so that
`Back()` reports no data, and the rest of the call changes nothing of the
view but the normalized vectors `traces`. When both are disabled the session
with its buffer and drain cursor is returned untouched, and so are the
persistence surface and the waterfall store. -/
theorem C14_render_traces_drains_buffer (env : Env) (s : Session) (tv : TraceView)
    (hmax : 1 ≤ env.MAX_WATERFALL_LINES)
    (hstore : tv.waterfall_verts.length = tv.waterfall_coords.length) :
    ((tv.persist_on = true ∨ tv.waterfall_state ≠ WaterfallState.WaterfallOFF) →
        ∃ tvD callsD tvF callsF,
          feedSinksInOrder env tv s.trace_manager.trace_buffer.undrained = some (tvD, callsD) ∧
          RenderTraces env s tv = some (s.drained, tvF, callsD ++ callsF) ∧
          s.drained.trace_manager.trace_buffer.Back = none ∧
          tvF = { tvD with traces := tvF.traces }) ∧
      (tv.persist_on = false → tv.waterfall_state = WaterfallState.WaterfallOFF →
        ∃ tvF calls, RenderTraces env s tv = some (s, tvF, calls) ∧
          tvF = { tv with traces := tvF.traces }) := by
  constructor
  · intro hen
    cases hpo : tv.persist_on
    · obtain ⟨s0, tv0, calls0, hd0, _, _, hnil, hen0, _⟩ :=
        RenderTraces_drain_part env s tv hmax hstore
      obtain ⟨hs0, hfeed⟩ := hen0 hen
      obtain ⟨s1, tv1, tvF, calls, hd, h2, h3, _⟩ :=
        RenderTraces_persist_off env s tv hmax hstore hpo
      have hc0 : calls0 = [] := hnil hpo
      subst hc0
      rw [hd0] at hd
      simp only [Option.some.injEq, Prod.mk.injEq, and_true] at hd
      obtain ⟨e1, e2⟩ := hd
      subst e1 e2
      subst hs0
      exact ⟨tv0, [], tvF, calls, hfeed, by simpa using h2, rfl, h3⟩
    · obtain ⟨tv1, calls1, h1, h2, _, _⟩ := RenderTraces_persist_on env s tv hmax hstore hpo
      exact ⟨tv1, calls1, tv1, DrawPersistence tv1, h1, h2, rfl, rfl⟩
  · intro hpo hw
    obtain ⟨s0, tv0, calls0, hd0, _, _, _, _, hdis⟩ :=
      RenderTraces_drain_part env s tv hmax hstore
    obtain ⟨hs0, htv0⟩ := hdis hpo hw
    obtain ⟨s1, tv1, tvF, calls, hd, h2, h3, _⟩ :=
      RenderTraces_persist_off env s tv hmax hstore hpo
    rw [hd0] at hd
    simp only [Option.some.injEq, Prod.mk.injEq] at hd
    obtain ⟨e1, e2, _⟩ := hd
    subst e1 e2
    subst hs0 htv0
    exact ⟨tvF, calls, h2, h3⟩

theorem C14_render_traces_drains_buffer_witness :
    ∃ tvD callsD tvF callsF,
      feedSinksInOrder scenarioEnv scenarioView
          scenarioSession.trace_manager.trace_buffer.undrained = some (tvD, callsD) ∧
      RenderTraces scenarioEnv scenarioSession scenarioView =
        some (scenarioSession.drained, tvF, callsD ++ callsF) ∧
      scenarioSession.drained.trace_manager.trace_buffer.Back = none ∧
      tvF = { tvD with traces := tvF.traces } :=
  (C14_render_traces_drains_buffer scenarioEnv scenarioSession scenarioView
    (by decide) rfl).1 (Or.inr (by decide))

/-- What the zero-area guard of `Paint` tests: with the context in the GUI
thread and a stored graticule size (`grat_sz` as the last `resizeEvent` or
`Paint` left it) of non-positive width or height, `Paint` clears to the
background colour and returns, leaving session and view as they were. -/
theorem Paint_stored_size_nonpositive (env : Env) (cam : Camera) (s : Session) (tv : TraceView)
    (hthread : tv.contextThread = Thread.gui)
    (hsize : tv.grat_sz.x ≤ 0 ∨ tv.grat_sz.y ≤ 0) :
    Paint env cam s tv =
      some (s, tv, [GLCall.makeCurrent, glQClearColor s.colors.background 0,
        GLCall.glClear true true, GLCall.glTexEnvf]) := by
  unfold Paint
  rw [if_neg (by rw [hthread]; simp), if_pos hsize]

/-- C11 at a concrete input. An 800 by 110 widget with a title set and the
waterfall off, first paint after the resize: the graticule area that applies
to this window and mode is 720 by -10, yet the stored size the guard tests
is still 720 by 10, so `Paint` goes on, stores the size 720 by -10 and issues
the draw calls of the graticule and of the active trace. -/
theorem C11_paint_draws_with_nonpositive_area :
    (paintBounds titledSession lowView).2 = ⟨720, -10⟩ ∧
      lowView.grat_sz = ⟨720, 10⟩ ∧
      ((Paint scenarioEnv Camera.initial titledSession lowView).map fun r => r.2.1.grat_sz) =
        some ⟨720, -10⟩ ∧
      ((Paint scenarioEnv Camera.initial titledSession lowView).map
          fun r => r.2.2.filter GLCall.isDrawArrays) =
        some [GLCall.glDrawArrays GLPrimitive.GL_LINES 0 44,
          GLCall.glDrawArrays GLPrimitive.GL_LINE_STRIP 0 5,
          GLCall.glDrawArrays GLPrimitive.GL_TRIANGLE_STRIP 0 4,
          GLCall.glDrawArrays GLPrimitive.GL_LINE_STRIP 0 2,
          GLCall.glDrawArrays GLPrimitive.GL_LINE_STRIP 0 2] := by
  exact ⟨rfl, rfl, rfl, rfl⟩

/-- C12 at a concrete input. Two paints in a row of the same 800 by 110
widget in the same mode (title set, waterfall off): the first finds the
stored size 720 by 10 and issues five draw calls, the second finds the size
720 by -10 the first one stored and issues none. The calls depend on the
stored bounds. -/
theorem C12_paint_depends_on_stored_bounds :
    ((Paint scenarioEnv Camera.initial titledSession lowView).map
        fun r => (r.2.1.width, r.2.1.height, r.2.1.waterfall_state, r.1.titleIsNull)) =
      some (lowView.width, lowView.height, lowView.waterfall_state, titledSession.titleIsNull) ∧
      ((Paint scenarioEnv Camera.initial titledSession lowView).map
          fun r => (r.2.2.filter GLCall.isDrawArrays).length) = some 5 ∧
      (((Paint scenarioEnv Camera.initial titledSession lowView).bind
          fun r => Paint scenarioEnv Camera.initial r.1 r.2.1).map
          fun r => (r.2.2.filter GLCall.isDrawArrays).length) = some 0 ∧
      (((Paint scenarioEnv Camera.initial titledSession lowView).bind
          fun r => Paint scenarioEnv Camera.initial r.1 r.2.1).map fun r => r.2.2) =
        some [GLCall.makeCurrent, glQClearColor titledSession.colors.background 0,
          GLCall.glClear true true, GLCall.glTexEnvf] := by
  exact ⟨rfl, rfl, rfl, rfl⟩
theorem Vec3.sq_pos_of_ne_zero (v : Vec3 ℝ) (hv : v ≠ ⟨0, 0, 0⟩) :
    0 < v.x * v.x + v.y * v.y + v.z * v.z := by
  obtain ⟨x, y, z⟩ := v
  by_contra hn
  have h0 : x * x + y * y + z * z = 0 := by
    have : 0 ≤ x * x + y * y + z * z := by
      nlinarith [mul_self_nonneg x, mul_self_nonneg y, mul_self_nonneg z]
    linarith [not_lt.mp hn]
  have hx : x = 0 := by nlinarith [mul_self_nonneg x, mul_self_nonneg y, mul_self_nonneg z]
  have hy : y = 0 := by nlinarith [mul_self_nonneg x, mul_self_nonneg y, mul_self_nonneg z]
  have hz : z = 0 := by nlinarith [mul_self_nonneg x, mul_self_nonneg y, mul_self_nonneg z]
  exact hv (by rw [hx, hy, hz])

/-- Over the reals `normalize` divides a non-zero vector by its length. -/
theorem normalize_real (v : Vec3 ℝ) (hv : v ≠ ⟨0, 0, 0⟩) :
    0 < Real.sqrt (v.x * v.x + v.y * v.y + v.z * v.z) ∧
      normalize Real.sqrt v =
        ⟨v.x / Real.sqrt (v.x * v.x + v.y * v.y + v.z * v.z),
         v.y / Real.sqrt (v.x * v.x + v.y * v.y + v.z * v.z),
         v.z / Real.sqrt (v.x * v.x + v.y * v.y + v.z * v.z)⟩ := by
  have hpos := Real.sqrt_pos.mpr (Vec3.sq_pos_of_ne_zero v hv)
  refine ⟨hpos, ?_⟩
  unfold normalize
  simp only [if_neg (ne_of_gt hpos)]
  congr 1 <;> ring

theorem normalize_real_dot_self (v : Vec3 ℝ) (hv : v ≠ ⟨0, 0, 0⟩) :
    (normalize Real.sqrt v).dot (normalize Real.sqrt v) = 1 := by
  obtain ⟨hpos, hn⟩ := normalize_real v hv
  have hsq := Real.mul_self_sqrt (le_of_lt (Vec3.sq_pos_of_ne_zero v hv))
  rw [hn]
  unfold Vec3.dot
  field_simp
  nlinarith [hsq]

/-- Over the reals `normalize` does not see a positive scaling of its
argument. -/
theorem normalize_real_scale (v : Vec3 ℝ) (t : ℝ) (ht : 0 < t) (hv : v ≠ ⟨0, 0, 0⟩) :
    normalize Real.sqrt ⟨t * v.x, t * v.y, t * v.z⟩ = normalize Real.sqrt v := by
  have hv2 : (⟨t * v.x, t * v.y, t * v.z⟩ : Vec3 ℝ) ≠ ⟨0, 0, 0⟩ := by
    intro h
    simp only [Vec3.mk.injEq, mul_eq_zero] at h
    obtain ⟨h1, h2, h3⟩ := h
    apply hv
    obtain ⟨x, y, z⟩ := v
    simp only [Vec3.mk.injEq]
    exact ⟨h1.resolve_left (ne_of_gt ht), h2.resolve_left (ne_of_gt ht),
      h3.resolve_left (ne_of_gt ht)⟩
  obtain ⟨hp1, hn1⟩ := normalize_real _ hv2
  obtain ⟨hp2, hn2⟩ := normalize_real v hv
  rw [hn1, hn2]
  have hs : Real.sqrt (t * v.x * (t * v.x) + t * v.y * (t * v.y) + t * v.z * (t * v.z)) =
      t * Real.sqrt (v.x * v.x + v.y * v.y + v.z * v.z) := by
    have e : t * v.x * (t * v.x) + t * v.y * (t * v.y) + t * v.z * (t * v.z) =
        t ^ 2 * (v.x * v.x + v.y * v.y + v.z * v.z) := by ring
    rw [e, Real.sqrt_mul (by positivity), Real.sqrt_sq (le_of_lt ht)]
  simp only [hs]
  congr 1 <;> field_simp <;> ring

theorem cross_dot_left {K : Type} [Field K] (a b : Vec3 K) : (cross a b).dot a = 0 := by
  simp only [cross, Vec3.dot]
  ring

theorem cross_dot_right {K : Type} [Field K] (a b : Vec3 K) : (cross a b).dot b = 0 := by
  simp only [cross, Vec3.dot]
  ring

theorem cross_dot_self {K : Type} [Field K] (a b : Vec3 K) :
    (cross a b).dot (cross a b) = a.dot a * b.dot b - a.dot b * a.dot b := by
  simp only [cross, Vec3.dot]
  ring

theorem Vec3.dot_comm {K : Type} [Field K] (a b : Vec3 K) : a.dot b = b.dot a := by
  simp only [Vec3.dot]
  ring
theorem normalize_real_dot (a b : Vec3 ℝ) (ha : a ≠ ⟨0, 0, 0⟩) (hb : b ≠ ⟨0, 0, 0⟩) :
    (normalize Real.sqrt a).dot (normalize Real.sqrt b) =
      a.dot b / (Real.sqrt (a.x * a.x + a.y * a.y + a.z * a.z) *
        Real.sqrt (b.x * b.x + b.y * b.y + b.z * b.z)) := by
  obtain ⟨hpa, hna⟩ := normalize_real a ha
  obtain ⟨hpb, hnb⟩ := normalize_real b hb
  rw [hna, hnb]
  unfold Vec3.dot
  field_simp

/-- C18. Over the reals, for every eye `e`, target `c` and up vector `up` with
`c ≠ e`, `up ≠ 0` and `(c - e) × up ≠ 0` (the direction is not parallel to
up), the vectors `glLookAt` computes satisfy: the forward vector `f` is
`c - e` divided by its length, the side vector is `s = normalize(f × up)`,
the recomputed up is `u = s × f`, and `(s, u, f)` is an orthonormal basis:
each has length 1 and they are pairwise orthogonal. -/
theorem C18_look_at_orthonormal (e c up : Vec3 ℝ) (htarget : c ≠ e)
    (hup : up ≠ ⟨0, 0, 0⟩)
    (hpar : cross ⟨c.x - e.x, c.y - e.y, c.z - e.z⟩ up ≠ ⟨0, 0, 0⟩) :
    (glLookAtBasis Real.sqrt e c up).f =
        ⟨(c.x - e.x) / Real.sqrt ((c.x - e.x) * (c.x - e.x) + (c.y - e.y) * (c.y - e.y) +
            (c.z - e.z) * (c.z - e.z)),
         (c.y - e.y) / Real.sqrt ((c.x - e.x) * (c.x - e.x) + (c.y - e.y) * (c.y - e.y) +
            (c.z - e.z) * (c.z - e.z)),
         (c.z - e.z) / Real.sqrt ((c.x - e.x) * (c.x - e.x) + (c.y - e.y) * (c.y - e.y) +
            (c.z - e.z) * (c.z - e.z))⟩ ∧
      (glLookAtBasis Real.sqrt e c up).s =
        normalize Real.sqrt (cross (glLookAtBasis Real.sqrt e c up).f up) ∧
      (glLookAtBasis Real.sqrt e c up).u =
        cross (glLookAtBasis Real.sqrt e c up).s (glLookAtBasis Real.sqrt e c up).f ∧
      (glLookAtBasis Real.sqrt e c up).s.dot (glLookAtBasis Real.sqrt e c up).s = 1 ∧
      (glLookAtBasis Real.sqrt e c up).u.dot (glLookAtBasis Real.sqrt e c up).u = 1 ∧
      (glLookAtBasis Real.sqrt e c up).f.dot (glLookAtBasis Real.sqrt e c up).f = 1 ∧
      (glLookAtBasis Real.sqrt e c up).s.dot (glLookAtBasis Real.sqrt e c up).u = 0 ∧
      (glLookAtBasis Real.sqrt e c up).s.dot (glLookAtBasis Real.sqrt e c up).f = 0 ∧
      (glLookAtBasis Real.sqrt e c up).u.dot (glLookAtBasis Real.sqrt e c up).f = 0 := by
  have hd : (⟨c.x - e.x, c.y - e.y, c.z - e.z⟩ : Vec3 ℝ) ≠ ⟨0, 0, 0⟩ := by
    intro h
    simp only [Vec3.mk.injEq] at h
    obtain ⟨h1, h2, h3⟩ := h
    apply htarget
    obtain ⟨cx, cy, cz⟩ := c
    obtain ⟨ex, ey, ez⟩ := e
    simp only [Vec3.mk.injEq]
    exact ⟨by linarith, by linarith, by linarith⟩
  obtain ⟨hdp, hfn⟩ := normalize_real ⟨c.x - e.x, c.y - e.y, c.z - e.z⟩ hd
  obtain ⟨hupp, hUn⟩ := normalize_real up hup
  -- the two cross products are positive multiples of `(c - e) × up`
  have hFU : cross (normalize Real.sqrt ⟨c.x - e.x, c.y - e.y, c.z - e.z⟩)
      (normalize Real.sqrt up) =
      ⟨1 / (Real.sqrt ((c.x - e.x) * (c.x - e.x) + (c.y - e.y) * (c.y - e.y) +
            (c.z - e.z) * (c.z - e.z)) * Real.sqrt (up.x * up.x + up.y * up.y + up.z * up.z)) *
          (cross ⟨c.x - e.x, c.y - e.y, c.z - e.z⟩ up).x,
        1 / (Real.sqrt ((c.x - e.x) * (c.x - e.x) + (c.y - e.y) * (c.y - e.y) +
            (c.z - e.z) * (c.z - e.z)) * Real.sqrt (up.x * up.x + up.y * up.y + up.z * up.z)) *
          (cross ⟨c.x - e.x, c.y - e.y, c.z - e.z⟩ up).y,
        1 / (Real.sqrt ((c.x - e.x) * (c.x - e.x) + (c.y - e.y) * (c.y - e.y) +
            (c.z - e.z) * (c.z - e.z)) * Real.sqrt (up.x * up.x + up.y * up.y + up.z * up.z)) *
          (cross ⟨c.x - e.x, c.y - e.y, c.z - e.z⟩ up).z⟩ := by
    rw [hfn, hUn]
    simp only [cross]
    congr 1 <;> field_simp
  have hFup : cross (normalize Real.sqrt ⟨c.x - e.x, c.y - e.y, c.z - e.z⟩) up =
      ⟨1 / Real.sqrt ((c.x - e.x) * (c.x - e.x) + (c.y - e.y) * (c.y - e.y) +
            (c.z - e.z) * (c.z - e.z)) * (cross ⟨c.x - e.x, c.y - e.y, c.z - e.z⟩ up).x,
        1 / Real.sqrt ((c.x - e.x) * (c.x - e.x) + (c.y - e.y) * (c.y - e.y) +
            (c.z - e.z) * (c.z - e.z)) * (cross ⟨c.x - e.x, c.y - e.y, c.z - e.z⟩ up).y,
        1 / Real.sqrt ((c.x - e.x) * (c.x - e.x) + (c.y - e.y) * (c.y - e.y) +
            (c.z - e.z) * (c.z - e.z)) * (cross ⟨c.x - e.x, c.y - e.y, c.z - e.z⟩ up).z⟩ := by
    rw [hfn]
    simp only [cross]
    congr 1 <;> field_simp
  have hs1 : (glLookAtBasis Real.sqrt e c up).s =
      normalize Real.sqrt (cross ⟨c.x - e.x, c.y - e.y, c.z - e.z⟩ up) := by
    show normalize Real.sqrt (cross (normalize Real.sqrt ⟨c.x - e.x, c.y - e.y, c.z - e.z⟩)
      (normalize Real.sqrt up)) = _
    rw [hFU]
    exact normalize_real_scale _ _ (by positivity) hpar
  have hs2 : normalize Real.sqrt (cross (glLookAtBasis Real.sqrt e c up).f up) =
      normalize Real.sqrt (cross ⟨c.x - e.x, c.y - e.y, c.z - e.z⟩ up) := by
    show normalize Real.sqrt (cross (normalize Real.sqrt ⟨c.x - e.x, c.y - e.y, c.z - e.z⟩)
      up) = _
    rw [hFup]
    exact normalize_real_scale _ _ (by positivity) hpar
  have hf : (glLookAtBasis Real.sqrt e c up).f =
      normalize Real.sqrt ⟨c.x - e.x, c.y - e.y, c.z - e.z⟩ := rfl
  have hu : (glLookAtBasis Real.sqrt e c up).u =
      cross (glLookAtBasis Real.sqrt e c up).s (glLookAtBasis Real.sqrt e c up).f := rfl
  have hss : (glLookAtBasis Real.sqrt e c up).s.dot (glLookAtBasis Real.sqrt e c up).s = 1 := by
    rw [hs1]
    exact normalize_real_dot_self _ hpar
  have hff : (glLookAtBasis Real.sqrt e c up).f.dot (glLookAtBasis Real.sqrt e c up).f = 1 := by
    rw [hf]
    exact normalize_real_dot_self _ hd
  have hsf : (glLookAtBasis Real.sqrt e c up).s.dot (glLookAtBasis Real.sqrt e c up).f = 0 := by
    rw [hs1, hf, normalize_real_dot _ _ hpar hd, cross_dot_left]
    simp
  refine ⟨hf.trans hfn, hs1.trans hs2.symm, hu, hss, ?_, hff, ?_, hsf, ?_⟩
  · rw [hu, cross_dot_self, hss, hff, hsf]
    norm_num
  · rw [hu, Vec3.dot_comm, cross_dot_left]
  · rw [hu, cross_dot_right]

theorem C18_look_at_orthonormal_witness :
    (glLookAtBasis Real.sqrt ⟨1 / 2, -1, 1 / 2⟩ ⟨1 / 2, 0, 1 / 2⟩ ⟨0, 0, 1⟩).s.dot
        (glLookAtBasis Real.sqrt ⟨1 / 2, -1, 1 / 2⟩ ⟨1 / 2, 0, 1 / 2⟩ ⟨0, 0, 1⟩).s = 1 ∧
      (glLookAtBasis Real.sqrt ⟨1 / 2, -1, 1 / 2⟩ ⟨1 / 2, 0, 1 / 2⟩ ⟨0, 0, 1⟩).s.dot
        (glLookAtBasis Real.sqrt ⟨1 / 2, -1, 1 / 2⟩ ⟨1 / 2, 0, 1 / 2⟩ ⟨0, 0, 1⟩).f = 0 := by
  obtain ⟨_, _, _, h4, _, _, _, h8, _⟩ :=
    C18_look_at_orthonormal ⟨1 / 2, -1, 1 / 2⟩ ⟨1 / 2, 0, 1 / 2⟩ ⟨0, 0, 1⟩
      (by
        intro h
        have := congrArg Vec3.y h
        norm_num at this)
      (by
        intro h
        have := congrArg Vec3.z h
        norm_num at this)
      (by
        intro h
        have := congrArg Vec3.x h
        norm_num [cross] at this)
  exact ⟨h4, h8⟩

theorem truncToInt_of_floor (q : ℚ) (z : Int) (h0 : 0 ≤ q) (h1 : (z : ℚ) ≤ q)
    (h2 : q < (z : ℚ) + 1) : truncToInt q = z := by
  unfold truncToInt
  rw [if_pos h0, Int.floor_eq_iff]
  exact ⟨h1, h2⟩

theorem truncToInt_of_ceil (q : ℚ) (z : Int) (h0 : q < 0) (h1 : (z : ℚ) - 1 < q)
    (h2 : q ≤ (z : ℚ)) : truncToInt q = z := by
  unfold truncToInt
  rw [if_neg (not_le.mpr h0), Int.ceil_eq_iff]
  exact ⟨h1, h2⟩

/-- The value `power(a, 0)` is 1 for every `a`. -/
theorem bb_lib.power_zero (a : ℚ) : bb_lib.power a 0 = some 1 := by
  simp [bb_lib.power]

/-- C19 at a concrete input. `power(1.5, 1)` and `power(1.5, 2)` both return
1, while `1.5 ^ 1 = 1.5` and `1.5 ^ 2 = 2.25`: the accumulator is an `int`,
so the base is truncated on entry and every product again. -/
theorem C19_power_truncates :
    bb_lib.power (3 / 2) 1 = some 1 ∧ ((3 / 2 : ℚ) ^ 1 = 3 / 2) ∧
      bb_lib.power (3 / 2) 2 = some 1 ∧ ((3 / 2 : ℚ) ^ 2 = 9 / 4) := by
  have ht : truncToInt (3 / 2) = 1 := truncToInt_of_floor _ 1 (by norm_num) (by norm_num)
    (by norm_num)
  have hc : doubleToInt (3 / 2) = some 1 := by
    unfold doubleToInt
    rw [ht]
    rfl
  refine ⟨?_, by norm_num, ?_, by norm_num⟩
  · unfold bb_lib.power
    rw [if_neg (by decide), if_neg (by decide), hc]
    rfl
  · have hc2 : doubleToInt (((1 : Int) : ℚ) * (3 / 2)) = some 1 := by
      rw [Int.cast_one, one_mul]
      exact hc
    unfold bb_lib.power
    rw [if_neg (by decide), if_neg (by decide), hc]
    show Option.map _ (bb_lib.powerLoop (3 / 2) 1 1) = _
    unfold bb_lib.powerLoop
    rw [hc2]
    rfl

/-- C20 at concrete inputs. The documented example holds: factor 25 and
start 38 give 50. For start -38 the function returns 0, although -25 is a
multiple of 25 that is greater than -38 and smaller than 0: the quotient
-1.52 is truncated toward zero, not rounded down. -/
theorem C20_next_multiple_of_negative_start :
    bb_lib.next_multiple_of 25 38 = some 50 ∧
      bb_lib.next_multiple_of 25 (-38) = some 0 ∧
      ((-38 : ℚ) < ((-1 : Int) : ℚ) * 25 ∧ ((-1 : Int) : ℚ) * 25 < 0) := by
  have ht1 : truncToInt ((38 : ℚ) / 25) = 1 :=
    truncToInt_of_floor _ 1 (by norm_num) (by norm_num) (by norm_num)
  have ht2 : truncToInt ((-38 : ℚ) / 25) = -1 :=
    truncToInt_of_ceil _ (-1) (by norm_num) (by norm_num) (by norm_num)
  refine ⟨?_, ?_, by norm_num, by norm_num⟩
  · unfold bb_lib.next_multiple_of bb_lib.fmod doubleToInt
    rw [ht1]
    norm_num
  · unfold bb_lib.next_multiple_of bb_lib.fmod doubleToInt
    rw [ht2]
    norm_num

/-- Where `next_multiple_of` does what its comment says: for a positive
factor and a non-negative start whose quotient fits an `int`, it returns the
smallest integer multiple of `factor` that is at least `start`, which is
`start` itself exactly when `start` is a multiple. -/
theorem bb_lib.next_multiple_of_nonneg (factor start : ℚ) (hf : 0 < factor)
    (hs : 0 ≤ start) (hfit : start / factor < 2 ^ 31 - 1) :
    ∃ r, bb_lib.next_multiple_of factor start = some r ∧
      (∃ m : Int, r = (m : ℚ) * factor) ∧ start ≤ r ∧ r < start + factor ∧
      ((∃ m : Int, start = (m : ℚ) * factor) → r = start) ∧
      ((¬ ∃ m : Int, start = (m : ℚ) * factor) → start < r) := by
  have hq0 : 0 ≤ start / factor := div_nonneg hs (le_of_lt hf)
  have ht : truncToInt (start / factor) = Int.floor (start / factor) := by
    unfold truncToInt
    rw [if_pos hq0]
  have hfl : ((Int.floor (start / factor) : Int) : ℚ) ≤ start / factor := Int.floor_le _
  have hfu : start / factor < ((Int.floor (start / factor) : Int) : ℚ) + 1 :=
    Int.lt_floor_add_one _
  have hmul : start = start / factor * factor := by
    field_simp
  have hlow : ((Int.floor (start / factor) : Int) : ℚ) * factor ≤ start := by
    calc ((Int.floor (start / factor) : Int) : ℚ) * factor
        ≤ start / factor * factor := mul_le_mul_of_nonneg_right hfl (le_of_lt hf)
      _ = start := hmul.symm
  have hupp : start < (((Int.floor (start / factor) : Int) : ℚ) + 1) * factor := by
    calc start = start / factor * factor := hmul
      _ < (((Int.floor (start / factor) : Int) : ℚ) + 1) * factor :=
        mul_lt_mul_of_pos_right hfu hf
  have hmult : ∀ m : Int, start = (m : ℚ) * factor →
      start = ((Int.floor (start / factor) : Int) : ℚ) * factor := by
    intro m hm
    have hq : start / factor = (m : ℚ) := by
      rw [hm]
      field_simp
    rw [hq, Int.floor_intCast]
    exact hm
  unfold bb_lib.next_multiple_of bb_lib.fmod
  rw [ht]
  by_cases hz : start - ((Int.floor (start / factor) : Int) : ℚ) * factor = 0
  · rw [if_pos hz]
    refine ⟨start, rfl, ⟨Int.floor (start / factor), by linarith⟩, le_refl _, by linarith,
      fun _ => rfl, ?_⟩
    intro hno
    exact absurd ⟨Int.floor (start / factor), by linarith⟩ hno
  · rw [if_neg hz]
    have hfloor0 : (0 : Int) ≤ Int.floor (start / factor) := Int.floor_nonneg.mpr hq0
    have hfloorlt : Int.floor (start / factor) < (2 : Int) ^ 31 - 1 := by
      have : ((Int.floor (start / factor) : Int) : ℚ) < 2 ^ 31 - 1 := lt_of_le_of_lt hfl hfit
      exact_mod_cast this
    have hc : doubleToInt (start / factor) = some (Int.floor (start / factor)) := by
      unfold doubleToInt
      rw [ht, if_pos ⟨by omega, by omega⟩]
    have hlt : ((Int.floor (start / factor) : Int) : ℚ) * factor < start :=
      lt_of_le_of_ne hlow (fun h => hz (by linarith))
    rw [hc]
    simp only
    rw [if_pos (by omega)]
    refine ⟨_, rfl, ⟨Int.floor (start / factor) + 1, rfl⟩, ?_, ?_, ?_, ?_⟩
    · push_cast
      linarith
    · push_cast
      linarith
    · intro hm
      obtain ⟨m, hm⟩ := hm
      exact absurd (by linarith [hmult m hm]) hz
    · intro _
      push_cast
      linarith

theorem vecAt_eq_getD (oob : Nat → ℚ) (v : GLVector) (i : Nat) (h : i < v.length) :
    vecAt oob v i = v.getD i 0 := by
  have h1 := vecAt_of_lt oob v i h
  rw [List.getD_eq_getElem?_getD, h1]
  rfl

/-- The selected sample of group `k` on the two paths of `AddToWaterfall`, for
a vector of `m` groups shorter than `2 ^ 31` floats. -/
theorem waterfallZ_eq (oob : Nat → ℚ) (v : GLVector) (m k : Nat) (hv : v.length = 4 * m)
    (hsmall : 4 * m < 2 ^ 31) (hk : k < m) :
    waterfallZ oob v true (4 * k) =
        bb_lib.max3 (v.getD (if k = 0 then 1 else 4 * k - 1) 0) (v.getD (4 * k + 1) 0)
          (v.getD (if k + 1 = m then 4 * k + 1 else 4 * k + 3) 0) ∧
      waterfallZ oob v false (4 * k) = v.getD (4 * k + 1) 0 := by
  obtain ⟨hl, hr⟩ := waterfall_degenerate_indices m k hk hsmall
  have hmid : vecAt oob v (4 * k + 1) = v.getD (4 * k + 1) 0 :=
    vecAt_eq_getD oob v _ (by omega)
  have hleft : vecAt oob v (if k = 0 then 1 else 4 * k - 1) =
      v.getD (if k = 0 then 1 else 4 * k - 1) 0 :=
    vecAt_eq_getD oob v _ (by split <;> omega)
  have hright : vecAt oob v (if k + 1 = m then 4 * k + 1 else 4 * k + 3) =
      v.getD (if k + 1 = m then 4 * k + 1 else 4 * k + 3) 0 :=
    vecAt_eq_getD oob v _ (by split <;> omega)
  constructor
  · unfold waterfallZ
    rw [if_pos rfl, hv, hl, hr, hmid, hleft, hright]
  · unfold waterfallZ
    rw [if_neg (by simp), hmid]

/-- C21. For every `start < stop` and `start ≤ f ≤ stop`, `frac_between`
returns `(f - start) / (stop - start)`, a value in `[0, 1]`; it is 0 at
`f = start`, 1 at `f = stop`, and monotone in `f`. -/
theorem C21_frac_between_unit (start stop f : ℚ) (hlt : start < stop) (hlo : start ≤ f)
    (hhi : f ≤ stop) :
    bb_lib.frac_between start stop f = (f - start) / (stop - start) ∧
      0 ≤ bb_lib.frac_between start stop f ∧ bb_lib.frac_between start stop f ≤ 1 ∧
      bb_lib.frac_between start stop start = 0 ∧ bb_lib.frac_between start stop stop = 1 ∧
      (∀ g : ℚ, f ≤ g →
        bb_lib.frac_between start stop f ≤ bb_lib.frac_between start stop g) := by
  have hpos : 0 < stop - start := by linarith
  unfold bb_lib.frac_between
  refine ⟨rfl, ?_, ?_, ?_, ?_, ?_⟩
  · exact div_nonneg (by linarith) (le_of_lt hpos)
  · rw [div_le_one hpos]
    linarith
  · rw [sub_self, zero_div]
  · exact div_self (ne_of_gt hpos)
  · intro g hg
    exact div_le_div_of_nonneg_right (by linarith) (le_of_lt hpos)

theorem C21_frac_between_unit_witness :
    bb_lib.frac_between 10 20 15 = (15 - 10) / (20 - 10) ∧
      0 ≤ bb_lib.frac_between 10 20 15 ∧ bb_lib.frac_between 10 20 15 ≤ 1 ∧
      bb_lib.frac_between 10 20 10 = 0 ∧ bb_lib.frac_between 10 20 20 = 1 ∧
      (∀ g : ℚ, 15 ≤ g → bb_lib.frac_between 10 20 15 ≤ bb_lib.frac_between 10 20 g) :=
  C21_frac_between_unit 10 20 15 (by norm_num) (by norm_num) (by norm_num)

/-- What `Load` does agree with: a store written by `Save` is read back as
the colours saved. -/
theorem ColorPrefs.Load_Save (c : ColorPrefs) (s : QSettings) :
    ColorPrefs.Load (c.Save s) = c := by
  rfl

/-- C22 on the empty settings store. `Load` yields the printer-friendly
colours: a white background and black text, graticule, markers and marker
text, where `LoadDefaults` gives the background (34, 40, 42) and white for
the other four; only the limit-line colour agrees. -/
theorem C22_load_defaults_differ :
    ColorPrefs.Load QSettings.empty = ColorPrefs.LoadPrinterFriendly ∧
      (ColorPrefs.Load QSettings.empty).background = QColor 255 255 255 ∧
      ColorPrefs.LoadDefaults.background = QColor 34 40 42 ∧
      (ColorPrefs.Load QSettings.empty).background ≠ ColorPrefs.LoadDefaults.background ∧
      (ColorPrefs.Load QSettings.empty).text ≠ ColorPrefs.LoadDefaults.text ∧
      (ColorPrefs.Load QSettings.empty).graticule ≠ ColorPrefs.LoadDefaults.graticule ∧
      (ColorPrefs.Load QSettings.empty).markers ≠ ColorPrefs.LoadDefaults.markers ∧
      (ColorPrefs.Load QSettings.empty).markerText ≠ ColorPrefs.LoadDefaults.markerText ∧
      (ColorPrefs.Load QSettings.empty).limitLines = ColorPrefs.LoadDefaults.limitLines := by
  have hne : ∀ a b : Rgba, a.r ≠ b.r → a ≠ b := fun a b h e => h (congrArg Rgba.r e)
  refine ⟨rfl, rfl, rfl, ?_, ?_, ?_, ?_, ?_, rfl⟩ <;>
    · apply hne
      norm_num [ColorPrefs.Load, ColorPrefs.LoadDefaults, QSettings.value, QSettings.empty,
        QColor]

/-- C27. Whenever `mousePressEvent` calls `PlaceMarker` on a graticule of
positive width, the ratio it passes is `(x - grat_ul.x) / grat_sz.x` and lies
in `[0, 1]`; `PlaceMarker` is called exactly when the point is in the
graticule and the offset is between 0 and the width; a press whose offset is
negative or exceeds the width places no marker; a press inside the graticule
leaves the camera statics as they were, so it starts no drag. -/
theorem C27_place_marker_ratio (PointInGrat : TraceView → QPoint → Bool) (tv : TraceView)
    (cam : Camera) (pos : QPoint) (hwidth : 0 < tv.grat_sz.x) :
    (∀ r, (mousePressEvent PointInGrat tv cam pos).2 = some r →
        r = ((pos.x - tv.grat_ul.x : Int) : ℚ) / (tv.grat_sz.x : ℚ) ∧ 0 ≤ r ∧ r ≤ 1) ∧
      ((mousePressEvent PointInGrat tv cam pos).2.isSome = true ↔
        (PointInGrat tv pos = true ∧ 0 ≤ pos.x - tv.grat_ul.x ∧
          pos.x - tv.grat_ul.x ≤ tv.grat_sz.x)) ∧
      ((pos.x - tv.grat_ul.x < 0 ∨ pos.x - tv.grat_ul.x > tv.grat_sz.x) →
        (mousePressEvent PointInGrat tv cam pos).2 = none) ∧
      (PointInGrat tv pos = true → (mousePressEvent PointInGrat tv cam pos).1 = cam) := by
  have hw : (0 : ℚ) < (tv.grat_sz.x : ℚ) := by exact_mod_cast hwidth
  unfold mousePressEvent
  by_cases hp : PointInGrat tv pos = true
  · rw [if_pos hp]
    dsimp only
    by_cases hx : pos.x - tv.grat_ul.x < 0 ∨ pos.x - tv.grat_ul.x > tv.grat_sz.x
    · rw [if_pos hx]
      refine ⟨?_, ?_, ?_, ?_⟩
      · intro r hr
        simp at hr
      · constructor
        · intro h
          simp at h
        · rintro ⟨_, h1, h2⟩
          rcases hx with hx | hx <;> omega
      · intro _
        rfl
      · intro _
        rfl
    · rw [if_neg hx]
      have h0 : 0 ≤ pos.x - tv.grat_ul.x := by
        by_contra h
        exact hx (Or.inl (by omega))
      have h1 : pos.x - tv.grat_ul.x ≤ tv.grat_sz.x := by
        by_contra h
        exact hx (Or.inr (by omega))
      have q0 : (0 : ℚ) ≤ ((pos.x - tv.grat_ul.x : Int) : ℚ) := by exact_mod_cast h0
      have q1 : ((pos.x - tv.grat_ul.x : Int) : ℚ) ≤ (tv.grat_sz.x : ℚ) := by exact_mod_cast h1
      refine ⟨?_, ?_, ?_, ?_⟩
      · intro r hr
        simp only [Option.some.injEq] at hr
        subst hr
        refine ⟨rfl, div_nonneg q0 (le_of_lt hw), ?_⟩
        rw [div_le_one hw]
        exact q1
      · constructor
        · intro _
          exact ⟨hp, h0, h1⟩
        · intro _
          rfl
      · intro h
        exact absurd h hx
      · intro _
        rfl
  · rw [if_neg hp]
    refine ⟨?_, ?_, ?_, ?_⟩
    · intro r hr
      split at hr <;> simp at hr
    · constructor
      · intro h
        split at h <;> simp at h
      · rintro ⟨h, _⟩
        exact absurd h hp
    · intro _
      split <;> rfl
    · intro h
      exact absurd h hp

theorem C27_place_marker_ratio_witness :
    (mousePressEvent (fun _ _ => true) scenarioView Camera.initial ⟨100, 400⟩).2.isSome = true ∧
      ∀ r, (mousePressEvent (fun _ _ => true) scenarioView Camera.initial ⟨100, 400⟩).2 = some r →
        r = (((100 : Int) - scenarioView.grat_ul.x : Int) : ℚ) / (scenarioView.grat_sz.x : ℚ) ∧
          0 ≤ r ∧ r ≤ 1 :=
  ⟨((C27_place_marker_ratio (fun _ _ => true) scenarioView Camera.initial ⟨100, 400⟩
      (by decide)).2.1).mpr ⟨rfl, by decide, by decide⟩,
    (C27_place_marker_ratio (fun _ _ => true) scenarioView Camera.initial ⟨100, 400⟩
      (by decide)).1⟩

/-- On both paths the frame `AddToWaterfall` builds from a vector of `m`
groups (shorter than `2 ^ 31` floats) does not depend on what lies past the
end of the vector. -/
theorem waterfallFrame_oob_irrelevant (oob1 oob2 : Nat → ℚ) (g : Int) (v : GLVector) (m : Nat)
    (hv : v.length = 4 * m) (hsmall : 4 * m < 2 ^ 31) :
    waterfallFrame oob1 g v = waterfallFrame oob2 g v := by
  have hz : ∀ k ∈ List.range m, ∀ d : Bool,
      waterfallZ oob1 v d (4 * k) = waterfallZ oob2 v d (4 * k) := by
    intro k hk d
    have hk1 : k < m := List.mem_range.mp hk
    obtain ⟨a1, a2⟩ := waterfallZ_eq oob1 v m k hv hsmall hk1
    obtain ⟨b1, b2⟩ := waterfallZ_eq oob2 v m k hv hsmall hk1
    cases d
    · rw [a2, b2]
    · rw [a1, b1]
  rw [waterfallFrame_eq oob1 g v m hv, waterfallFrame_eq oob2 g v m hv]
  congr 2
  · apply List.map_congr_left
    intro k hk
    rw [hz k hk]
  · apply List.map_congr_left
    intro k hk
    rw [hz k hk]

/-- C24. For every input vector of `m > 0` groups of 4 floats (shorter than
`2 ^ 31` floats, so that `(int)i` is exact) and every graticule width, the
indices `AddToWaterfall` reads at counter `i = 4k`, `k < m`, are within
bounds: `i`, `i + 1`, `max2(1, (int)i - 1)` and `min2(i + 3, size - 3)`; the
unsigned subtraction `size - 3` does not wrap; and the frame built is the
same whatever lies past the end of the vector. -/
theorem C24_waterfall_reads_in_bounds (v : GLVector) (m k : Nat) (hv : v.length = 4 * m)
    (hsmall : 4 * m < 2 ^ 31) (hk : k < m) :
    4 * k < v.length ∧ 4 * k + 1 < v.length ∧
      waterfallLeftIndex (4 * k) < v.length ∧
      waterfallRightIndex v.length (4 * k) < v.length ∧
      (v.length % 2 ^ 32 + 2 ^ 32 - 3) % 2 ^ 32 + 3 = v.length ∧
      (∀ (oob1 oob2 : Nat → ℚ) (g : Int),
        waterfallFrame oob1 g v = waterfallFrame oob2 g v) := by
  obtain ⟨hl, hr⟩ := waterfall_degenerate_indices m k hk hsmall
  refine ⟨by omega, by omega, ?_, ?_, ?_, ?_⟩
  · rw [hl]
    split <;> omega
  · rw [hv, hr]
    split <;> omega
  · rw [hv]
    omega
  · intro oob1 oob2 g
    exact waterfallFrame_oob_irrelevant oob1 oob2 g v m hv hsmall

theorem C24_waterfall_reads_in_bounds_witness :
    waterfallLeftIndex (4 * 1) < risingSweep.length ∧
      waterfallRightIndex risingSweep.length (4 * 1) < risingSweep.length ∧
      (∀ (oob1 oob2 : Nat → ℚ) (g : Int),
        waterfallFrame oob1 g risingSweep = waterfallFrame oob2 g risingSweep) := by
  obtain ⟨_, _, h3, h4, _, h6⟩ :=
    C24_waterfall_reads_in_bounds risingSweep 3 1 rfl (by norm_num) (by decide)
  exact ⟨h3, h4, h6⟩

/-- At every loop counter the clamped height of the degenerate-avoidance
path is at least the clamped height of the normal path. -/
theorem waterfall_degenerate_height_ge (oob : Nat → ℚ) (v : GLVector) (i : Nat) :
    bb_lib.clamp (waterfallZ oob v false i) 0 1 ≤ bb_lib.clamp (waterfallZ oob v true i) 0 1 := by
  unfold waterfallZ bb_lib.max3 bb_lib.clamp
  simp only [Bool.false_eq_true, if_false, if_true]
  split_ifs <;> linarith

/-- C25. For every input vector of `m > 0` groups of 4 floats and every point
`k` of it, the height `AddToWaterfall` stores for the point on the
degenerate-avoidance path (a view whose graticule is narrow enough for the
rule to apply) is greater than or equal to the height it stores for the same
point on the normal path (a view where the rule does not apply). -/
theorem C25_degenerate_height_not_lower (MAX_WATERFALL_LINES : Nat) (oob : Nat → ℚ)
    (tvD tvN : TraceView) (v : GLVector) (m k : Nat) (hmax : 1 ≤ MAX_WATERFALL_LINES)
    (hstoreD : tvD.waterfall_verts.length = tvD.waterfall_coords.length)
    (hstoreN : tvN.waterfall_verts.length = tvN.waterfall_coords.length)
    (hm : 0 < m) (hv : v.length = 4 * m) (hk : k < m)
    (hD : degenHack tvD.grat_sz.x v = true) (hN : degenHack tvN.grat_sz.x v = false) :
    ∃ tvD1 tvN1 frD frN zD zN,
      AddToWaterfall MAX_WATERFALL_LINES oob tvD v = some tvD1 ∧
      AddToWaterfall MAX_WATERFALL_LINES oob tvN v = some tvN1 ∧
      tvD1.waterfall_verts.head? = some frD ∧ tvN1.waterfall_verts.head? = some frN ∧
      frD[6 * k + 2]? = some zD ∧ frN[6 * k + 2]? = some zN ∧
      zD = bb_lib.clamp (bb_lib.max3 (vecAt oob v (waterfallLeftIndex (4 * k)))
        (vecAt oob v (4 * k + 1)) (vecAt oob v (waterfallRightIndex v.length (4 * k)))) 0 1 ∧
      zN = bb_lib.clamp (vecAt oob v (4 * k + 1)) 0 1 ∧ zN ≤ zD := by
  obtain ⟨tvD1, frD, _, d1, d2, _, d4, _⟩ :=
    AddToWaterfall_stored_height MAX_WATERFALL_LINES oob tvD v m k hmax hstoreD hm hv hk
  obtain ⟨tvN1, frN, _, n1, n2, _, n4, _⟩ :=
    AddToWaterfall_stored_height MAX_WATERFALL_LINES oob tvN v m k hmax hstoreN hm hv hk
  rw [hD] at d4
  rw [hN] at n4
  refine ⟨tvD1, tvN1, frD, frN, _, _, d1, n1, d2, n2, d4, n4, ?_, ?_,
    waterfall_degenerate_height_ge oob v (4 * k)⟩
  · unfold waterfallZ
    rw [if_pos rfl]
  · unfold waterfallZ
    rw [if_neg (by simp)]

theorem C25_degenerate_height_not_lower_witness :
    ∃ tvD1 tvN1 frD frN zD zN,
      AddToWaterfall 48 (fun _ => 0) { scenarioView with grat_sz := ⟨4, 250⟩ } risingSweep =
        some tvD1 ∧
      AddToWaterfall 48 (fun _ => 0) scenarioView risingSweep = some tvN1 ∧
      tvD1.waterfall_verts.head? = some frD ∧ tvN1.waterfall_verts.head? = some frN ∧
      frD[6 * 1 + 2]? = some zD ∧ frN[6 * 1 + 2]? = some zN ∧ zN ≤ zD := by
  obtain ⟨tvD1, tvN1, frD, frN, zD, zN, h1, h2, h3, h4, h5, h6, _, _, h9⟩ :=
    C25_degenerate_height_not_lower 48 (fun _ => 0) { scenarioView with grat_sz := ⟨4, 250⟩ }
      scenarioView risingSweep 3 1 (by decide) rfl rfl (by decide) rfl (by decide)
      (by norm_num [degenHack, risingSweep]) (by norm_num [degenHack, risingSweep, scenarioView])
  exact ⟨tvD1, tvN1, frD, frN, zD, zN, h1, h2, h3, h4, h5, h6, h9⟩

/-- The loop of `DrawIQLines` in closed form: iteration `j` appends the pair
`(i + j, iq[i + j].re)` to the first trace and `(i + j, iq[i + j].im)` to the
second. -/
theorem DemodIQTimePlot.iqLoop_eq (oob : Nat → complex_f) (iq : List complex_f) :
    ∀ (n i : Nat) (t : GLVector × GLVector),
      DemodIQTimePlot.iqLoop oob iq n i t =
        (t.1 ++ ((List.range n).map fun (j : Nat) =>
            [((i + j : Nat) : ℚ), (iqAt oob iq (i + j)).re]).flatten,
          t.2 ++ ((List.range n).map fun (j : Nat) =>
            [((i + j : Nat) : ℚ), (iqAt oob iq (i + j)).im]).flatten) := by
  intro n
  induction n with
  | zero => intro i t; simp [DemodIQTimePlot.iqLoop]
  | succ n ih =>
    intro i t
    rw [DemodIQTimePlot.iqLoop, ih, List.range_succ_eq_map]
    have e : ∀ j : Nat, i + 1 + j = i + (j + 1) := fun j => by omega
    simp [e, Function.comp_def]

/-- The traces `DrawIQLines` builds from a non-empty capture: 1024 pairs
each, pair `k` holding `k` and the component of `iq[k]`, whatever the size of
the capture. -/
theorem DemodIQTimePlot.DrawIQLines_traces (oob : Nat → complex_f) (prefs : Preferences)
    (iq : List complex_f) (plot : DemodIQTimePlot) (hne : iq ≠ []) :
    (DemodIQTimePlot.DrawIQLines oob prefs iq plot).1.traces =
      (((List.range 1024).map fun (j : Nat) => [(j : ℚ), (iqAt oob iq j).re]).flatten,
        ((List.range 1024).map fun (j : Nat) => [(j : ℚ), (iqAt oob iq j).im]).flatten) := by
  have hlen : ¬ iq.length ≤ 0 := by
    cases iq with
    | nil => exact absurd rfl hne
    | cons a l => simp
  unfold DemodIQTimePlot.DrawIQLines
  rw [if_neg hlen]
  dsimp only
  rw [DemodIQTimePlot.iqLoop_eq]
  simp

/-- C28 at a concrete input. For a capture of one sample, `DrawIQLines` still
builds two traces of 1024 pairs; the value of pair 1 is what lies at `iq[1]`,
past the end of the capture (index 1 is not below `iq.size() = 1`), and so is
the value of pair 1023. -/
theorem C28_iq_lines_read_past_capture (oob : Nat → complex_f) (prefs : Preferences)
    (plot : DemodIQTimePlot) :
    oneSampleCapture.length = 1 ∧
      (DemodIQTimePlot.DrawIQLines oob prefs oneSampleCapture plot).1.traces.1.length = 2048 ∧
      (DemodIQTimePlot.DrawIQLines oob prefs oneSampleCapture plot).1.traces.2.length = 2048 ∧
      (DemodIQTimePlot.DrawIQLines oob prefs oneSampleCapture plot).1.traces.1[2 * 0 + 1]? =
        some (1 / 4) ∧
      (DemodIQTimePlot.DrawIQLines oob prefs oneSampleCapture plot).1.traces.1[2 * 1 + 1]? =
        some (oob 1).re ∧
      (DemodIQTimePlot.DrawIQLines oob prefs oneSampleCapture plot).1.traces.2[2 * 1 + 1]? =
        some (oob 1).im ∧
      (DemodIQTimePlot.DrawIQLines oob prefs oneSampleCapture plot).1.traces.1[2 * 1023 + 1]? =
        some (oob 1023).re := by
  have ht := DemodIQTimePlot.DrawIQLines_traces oob prefs oneSampleCapture plot
    (by simp [oneSampleCapture])
  have h1 : (DemodIQTimePlot.DrawIQLines oob prefs oneSampleCapture plot).1.traces.1 =
      ((List.range 1024).map fun (j : Nat) =>
        [(j : ℚ), (iqAt oob oneSampleCapture j).re]).flatten := by
    rw [ht]
  have h2 : (DemodIQTimePlot.DrawIQLines oob prefs oneSampleCapture plot).1.traces.2 =
      ((List.range 1024).map fun (j : Nat) =>
        [(j : ℚ), (iqAt oob oneSampleCapture j).im]).flatten := by
    rw [ht]
  have lre := flatten_chunks_length
    (fun (j : Nat) => [(j : ℚ), (iqAt oob oneSampleCapture j).re]) 2 (fun _ => rfl) 1024
  have lim := flatten_chunks_length
    (fun (j : Nat) => [(j : ℚ), (iqAt oob oneSampleCapture j).im]) 2 (fun _ => rfl) 1024
  have gre := flatten_chunks_getElem?
    (fun (j : Nat) => [(j : ℚ), (iqAt oob oneSampleCapture j).re]) 2 (fun _ => rfl) 1
    (by omega) 1024
  have gim := flatten_chunks_getElem?
    (fun (j : Nat) => [(j : ℚ), (iqAt oob oneSampleCapture j).im]) 2 (fun _ => rfl) 1
    (by omega) 1024
  rw [h1, h2]
  refine ⟨rfl, lre, lim, ?_, ?_, ?_, ?_⟩
  · rw [gre 0 (by omega)]
    rfl
  · rw [gre 1 (by omega)]
    rfl
  · rw [gim 1 (by omega)]
    rfl
  · rw [gre 1023 (by omega)]
    rfl

/-- Where `DrawIQLines` does read only valid elements: for a capture of at
least 1024 samples every index it reads is below `iq.size()`, and the traces
are the first 1024 samples whatever lies past the end. -/
theorem DemodIQTimePlot.DrawIQLines_long_capture (oob : Nat → complex_f) (prefs : Preferences)
    (iq : List complex_f) (plot : DemodIQTimePlot) (hlong : 1024 ≤ iq.length) :
    (DemodIQTimePlot.DrawIQLines oob prefs iq plot).1.traces =
      (((List.range 1024).map fun (j : Nat) =>
          [(j : ℚ), ((iq.get? j).map complex_f.re).getD 0]).flatten,
        ((List.range 1024).map fun (j : Nat) =>
          [(j : ℚ), ((iq.get? j).map complex_f.im).getD 0]).flatten) ∧
      ∀ j ∈ List.range 1024, j < iq.length := by
  have hne : iq ≠ [] := by
    intro h
    rw [h] at hlong
    simp at hlong
  have hin : ∀ j ∈ List.range 1024, j < iq.length := by
    intro j hj
    have := List.mem_range.mp hj
    omega
  refine ⟨?_, hin⟩
  rw [DemodIQTimePlot.DrawIQLines_traces oob prefs iq plot hne]
  have hat : ∀ (j : Nat) (hj : j < iq.length), iqAt oob iq j = iq.get ⟨j, hj⟩ := by
    intro j hj
    unfold iqAt
    rw [List.get?_eq_get hj]
  have e1 : ((List.range 1024).map fun (j : Nat) => [(j : ℚ), (iqAt oob iq j).re]) =
      (List.range 1024).map fun (j : Nat) =>
        [(j : ℚ), ((iq.get? j).map complex_f.re).getD 0] := by
    apply List.map_congr_left
    intro j hj
    rw [hat j (hin j hj), List.get?_eq_get (hin j hj)]
    rfl
  have e2 : ((List.range 1024).map fun (j : Nat) => [(j : ℚ), (iqAt oob iq j).im]) =
      (List.range 1024).map fun (j : Nat) =>
        [(j : ℚ), ((iq.get? j).map complex_f.im).getD 0] := by
    apply List.map_congr_left
    intro j hj
    rw [hat j (hin j hj), List.get?_eq_get (hin j hj)]
    rfl
  rw [e1, e2]

/-- The loop of `RenderMarkers` in the words of the specification: the
markers that are active and in view each get one block, the text line of the
`j`-th of them (counting from `n`) at height `y0 - 20 * j`; every other
marker is skipped. -/
theorem renderMarkerLoop_eq (env : Env) (s : Session) (tv : TraceView) (x_print y0 : Int) :
    ∀ (ms : List (Nat × Marker)) (n : Nat),
      renderMarkerLoop env s tv x_print ms (y0 - 20 * (n : Int)) =
        (((ms.filter fun p => p.2.shown).enumFrom n).map fun (p : Nat × Nat × Marker) =>
          markerBlock env s tv x_print (y0 - 20 * (p.1 : Int)) p.2.1 p.2.2).flatten := by
  intro ms
  induction ms with
  | nil =>
    intro n
    rfl
  | cons a rest ih =>
    intro n
    obtain ⟨i, m⟩ := a
    have hstep : y0 - 20 * (n : Int) - 20 = y0 - 20 * ((n + 1 : Nat) : Int) := by
      push_cast
      ring
    by_cases hs : m.shown = true
    · have hA : m.Active = true := by
        unfold Marker.shown at hs
        simp at hs
        exact hs.1
      have hV : m.InView = true := by
        unfold Marker.shown at hs
        simp at hs
        exact hs.2
      rw [List.filter_cons_of_pos (by simpa using hs), List.enumFrom_cons, List.map_cons,
        List.flatten_cons, ← ih (n + 1), ← hstep]
      cases hD : m.DeltaActive <;>
        simp [renderMarkerLoop, markerBlock, hA, hV, hD]
    · have hskip : (!m.Active || !m.InView) = true := by
        unfold Marker.shown at hs
        cases hA : m.Active <;> cases hV : m.InView <;> simp [hA, hV] at hs ⊢
      rw [List.filter_cons_of_neg (by simpa using hs), ← ih n, renderMarkerLoop, if_pos hskip]

/-- Filtering a concatenation of blocks that each hold exactly one element of
the kind `p` leaves one element for each block, in order. -/
theorem filter_flatten_map_singleton {α β : Type} (p : β → Bool) (f : α → List β) (g : α → β)
    (h : ∀ a, (f a).filter p = [g a]) :
    ∀ l : List α, ((l.map f).flatten).filter p = l.map g := by
  intro l
  induction l with
  | nil => rfl
  | cons a l ih =>
    rw [List.map_cons, List.flatten_cons, List.filter_append, h, ih]
    rfl

/-- The one marker text line of a block. -/
theorem markerBlock_line (env : Env) (s : Session) (tv : TraceView) (x_print y : Int) (i : Nat)
    (m : Marker) :
    (markerBlock env s tv x_print y i m).filter GLCall.isMarkerLine =
      [GLCall.renderText (x_print - env.GetTextWidth (markerLineText i m) Font.textFont) y 0
        (markerLineText i m) Font.textFont] := by
  unfold markerBlock markerLineText
  cases hD : m.DeltaActive <;> cases hV : m.DeltaInView <;> rfl

/-- C23, amended. `RenderMarkers` draws, for every marker that is active and
in view, one block: the marker glyph at `(xRatio * grat_sz.x, yRatio *
grat_sz.y)` with label index + 1, the delta glyph only when the delta
reference is active and in view, and exactly one right-aligned text line (the
delta text when a delta reference is active, otherwise the value); the lines
end at `x = grat_sz.x - 5` and are stacked downward 20 pixels apart starting
at `y = grat_sz.y - 20`, in marker order. A marker that is not active or not
in view gets no glyph and no text line and takes no place in the stack. The
calls before and after the blocks draw no glyph and no text. -/
theorem C23_shown_markers_get_one_line (env : Env) (s : Session) (tv : TraceView) :
    (∃ pre post,
      (RenderMarkers env s tv).2 =
        pre ++ markerStack env (RenderMarkers env s tv).1 tv (tv.grat_sz.x - 5)
          (tv.grat_sz.y - 20) (RenderMarkers env s tv).1.trace_manager.markers.enum ++ post ∧
      ∀ c ∈ pre ++ post, c.isGlyphOrText = false) ∧
    (RenderMarkers env s tv).2.filter GLCall.isMarkerLine =
      (((RenderMarkers env s tv).1.trace_manager.markers.enum.filter
          fun p => p.2.shown).enum.map fun (p : Nat × Nat × Marker) =>
        GLCall.renderText
          (tv.grat_sz.x - 5 - env.GetTextWidth (markerLineText p.2.1 p.2.2) Font.textFont)
          (tv.grat_sz.y - 20 - 20 * (p.1 : Int)) 0 (markerLineText p.2.1 p.2.2) Font.textFont) := by
  have hloop : ∀ (s1 : Session) (ms : List (Nat × Marker)),
      renderMarkerLoop env s1 tv (tv.grat_sz.x - 5) ms (tv.grat_sz.y - 20) =
        markerStack env s1 tv (tv.grat_sz.x - 5) (tv.grat_sz.y - 20) ms := by
    intro s1 ms
    have h := renderMarkerLoop_eq env s1 tv (tv.grat_sz.x - 5) (tv.grat_sz.y - 20) ms 0
    rw [Nat.cast_zero, mul_zero, sub_zero] at h
    exact h
  constructor
  · refine ⟨[ GLCall.glPushAttrib,
        GLCall.glViewport tv.grat_ll.x tv.grat_ll.y tv.grat_sz.x tv.grat_sz.y,
        GLCall.glMatrixMode GLMatrixMode.GL_MODELVIEW,
        GLCall.glPushMatrix,
        GLCall.glLoadIdentity,
        GLCall.glMatrixMode GLMatrixMode.GL_PROJECTION,
        GLCall.glPushMatrix,
        GLCall.glLoadIdentity,
        GLCall.glOrtho 0 tv.grat_sz.x 0 tv.grat_sz.y (-1) 1,
        GLCall.glEnable GLCap.GL_LINE_SMOOTH,
        GLCall.glEnable GLCap.GL_BLEND,
        GLCall.glBlendFunc GLBlendFactor.GL_SRC_ALPHA GLBlendFactor.GL_ONE_MINUS_SRC_ALPHA,
        GLCall.glBlendEquation,
        GLCall.glLineWidth 1 ],
      [ GLCall.glDisable GLCap.GL_LINE_SMOOTH,
        GLCall.glDisable GLCap.GL_BLEND,
        GLCall.glMatrixMode GLMatrixMode.GL_MODELVIEW,
        GLCall.glPopMatrix,
        GLCall.glMatrixMode GLMatrixMode.GL_PROJECTION,
        GLCall.glPopMatrix,
        GLCall.glPopAttrib ], ?_, ?_⟩
    · unfold RenderMarkers
      dsimp only
      rw [hloop]
    · intro c hc
      have hall : List.all
          ([ GLCall.glPushAttrib,
            GLCall.glViewport tv.grat_ll.x tv.grat_ll.y tv.grat_sz.x tv.grat_sz.y,
            GLCall.glMatrixMode GLMatrixMode.GL_MODELVIEW,
            GLCall.glPushMatrix,
            GLCall.glLoadIdentity,
            GLCall.glMatrixMode GLMatrixMode.GL_PROJECTION,
            GLCall.glPushMatrix,
            GLCall.glLoadIdentity,
            GLCall.glOrtho 0 tv.grat_sz.x 0 tv.grat_sz.y (-1) 1,
            GLCall.glEnable GLCap.GL_LINE_SMOOTH,
            GLCall.glEnable GLCap.GL_BLEND,
            GLCall.glBlendFunc GLBlendFactor.GL_SRC_ALPHA GLBlendFactor.GL_ONE_MINUS_SRC_ALPHA,
            GLCall.glBlendEquation,
            GLCall.glLineWidth 1 ] ++
          [ GLCall.glDisable GLCap.GL_LINE_SMOOTH,
            GLCall.glDisable GLCap.GL_BLEND,
            GLCall.glMatrixMode GLMatrixMode.GL_MODELVIEW,
            GLCall.glPopMatrix,
            GLCall.glMatrixMode GLMatrixMode.GL_PROJECTION,
            GLCall.glPopMatrix,
            GLCall.glPopAttrib ]) (fun c => !c.isGlyphOrText) = true := rfl
      have := List.all_eq_true.mp hall c hc
      simpa using this
  · unfold RenderMarkers
    dsimp only
    rw [hloop, List.filter_append, List.filter_append]
    unfold markerStack
    rw [filter_flatten_map_singleton GLCall.isMarkerLine _
      (fun (p : Nat × Nat × Marker) =>
        GLCall.renderText
          (tv.grat_sz.x - 5 - env.GetTextWidth (markerLineText p.2.1 p.2.2) Font.textFont)
          (tv.grat_sz.y - 20 - 20 * (p.1 : Int)) 0 (markerLineText p.2.1 p.2.2) Font.textFont)
      (fun p => markerBlock_line env _ tv _ _ p.2.1 p.2.2)]
    simp [GLCall.isMarkerLine]

/-- C23, as stated, fails. With marker 1 active (its delta reference active
too) but out of view and marker 2 active and in view, `RenderMarkers` draws a
single marker text line, that of marker 2, at the top of the stack
(`y = 250 - 20`): the active marker 1 gets no text line. -/
theorem C23_active_hidden_marker_has_no_line :
    hiddenMarker.Active = true ∧
      (RenderMarkers scenarioEnv markerSession scenarioView).2.filter GLCall.isMarkerLine =
        [GLCall.renderText 715 230 0 (Text.markerValue 2) Font.textFont] := by
  exact ⟨rfl, rfl⟩

/-- A list found between two others inside a longer concatenation. -/
theorem infix_of_append {α : Type} (A B C D L E F : List α) :
    ∃ pre post, A ++ (B ++ C ++ D ++ L) ++ E ++ F = pre ++ L ++ post :=
  ⟨A ++ (B ++ C ++ D), E ++ F, by simp only [List.append_assoc]⟩

/-- In 3D waterfall mode `DrawWaterfall` calls `glLookAt` with the eye at
`sphereToCart(theta, phi, rho)` moved by `(0.5, 0, 0.5)`, the centre
`(0.5, 0, 0.5)` and the up vector `(0, 0, 1)`. -/
theorem DrawWaterfall_look_at (env : Env) (cam : Camera) (tv : TraceView)
    (h3d : tv.waterfall_state = WaterfallState.Waterfall3D) :
    ∃ pre post, DrawWaterfall env cam tv =
      pre ++ glLookAt env.math
        ⟨(sphereToCart env.math.sin env.math.cos cam.theta cam.phi cam.rho).x + 0.5,
          (sphereToCart env.math.sin env.math.cos cam.theta cam.phi cam.rho).y,
          (sphereToCart env.math.sin env.math.cos cam.theta cam.phi cam.rho).z + 0.5⟩
        ⟨0.5, 0, 0.5⟩ ⟨0, 0, 1⟩ ++ post := by
  unfold DrawWaterfall
  rw [h3d, if_neg (by decide), if_pos rfl]
  exact infix_of_append _ _ _ _ _ _ _

/-- Over the reals the point `sphereToCart` returns has squared length
`rho ^ 2`. -/
theorem sphereToCart_real_dot_self (theta phi rho : ℝ) :
    (sphereToCart Real.sin Real.cos theta phi rho).dot
      (sphereToCart Real.sin Real.cos theta phi rho) = rho ^ 2 := by
  have h : (sphereToCart Real.sin Real.cos theta phi rho).dot
      (sphereToCart Real.sin Real.cos theta phi rho) =
      rho ^ 2 * (Real.sin phi ^ 2 * (Real.cos theta ^ 2 + Real.sin theta ^ 2) +
        Real.cos phi ^ 2) := by
    simp only [sphereToCart, Vec3.dot]
    ring
  rw [h, Real.cos_sq_add_sin_sq, mul_one, Real.sin_sq_add_cos_sq, mul_one]

/-- C26. Over the reals `sphereToCart(theta, phi, rho)` returns a point at
Euclidean distance `|rho|` from the origin. Hence for every camera state
within the clamps (`rho` in `[0.5, 4.0]`, `phi` in `[0.1 * M_PI, 0.5 * M_PI]`)
the look-at of `DrawWaterfall` is non-degenerate: the eye
`sphereToCart(theta, phi, rho) + (0.5, 0, 0.5)` is at distance `rho ≥ 0.5`
from the centre `(0.5, 0, 0.5)`, so eye and centre differ, and the forward
vector `centre - eye` is not parallel to the up vector `(0, 0, 1)`: their
cross product is not zero. -/
theorem C26_look_at_non_degenerate (cam : Camera) (hrho0 : 0.5 ≤ cam.rho) (_hrho1 : cam.rho ≤ 4.0)
    (hphi0 : 0.1 * M_PI ≤ cam.phi) (hphi1 : cam.phi ≤ 0.5 * M_PI) :
    (∀ theta phi rho : ℝ,
      Real.sqrt ((sphereToCart Real.sin Real.cos theta phi rho).dot
        (sphereToCart Real.sin Real.cos theta phi rho)) = |rho|) ∧
    Real.sqrt ((Vec3.mk
        ((sphereToCart Real.sin Real.cos (cam.theta : ℝ) cam.phi cam.rho).x + 1 / 2 - 1 / 2)
        ((sphereToCart Real.sin Real.cos (cam.theta : ℝ) cam.phi cam.rho).y - 0)
        ((sphereToCart Real.sin Real.cos (cam.theta : ℝ) cam.phi cam.rho).z + 1 / 2 - 1 / 2)).dot
      (Vec3.mk
        ((sphereToCart Real.sin Real.cos (cam.theta : ℝ) cam.phi cam.rho).x + 1 / 2 - 1 / 2)
        ((sphereToCart Real.sin Real.cos (cam.theta : ℝ) cam.phi cam.rho).y - 0)
        ((sphereToCart Real.sin Real.cos (cam.theta : ℝ) cam.phi cam.rho).z + 1 / 2 - 1 / 2))) =
      (cam.rho : ℝ) ∧
    (1 / 2 : ℝ) ≤ (cam.rho : ℝ) ∧
    (Vec3.mk (1 / 2 : ℝ) 0 (1 / 2)) ≠
      Vec3.mk ((sphereToCart Real.sin Real.cos (cam.theta : ℝ) cam.phi cam.rho).x + 1 / 2)
        (sphereToCart Real.sin Real.cos (cam.theta : ℝ) cam.phi cam.rho).y
        ((sphereToCart Real.sin Real.cos (cam.theta : ℝ) cam.phi cam.rho).z + 1 / 2) ∧
    cross
      (Vec3.mk
        (1 / 2 - ((sphereToCart Real.sin Real.cos (cam.theta : ℝ) cam.phi cam.rho).x + 1 / 2))
        (0 - (sphereToCart Real.sin Real.cos (cam.theta : ℝ) cam.phi cam.rho).y)
        (1 / 2 - ((sphereToCart Real.sin Real.cos (cam.theta : ℝ) cam.phi cam.rho).z + 1 / 2)))
      (Vec3.mk (0 : ℝ) 0 1) ≠ ⟨0, 0, 0⟩ := by
  have hr0 : (1 / 2 : ℝ) ≤ (cam.rho : ℝ) := by
    have : ((0.5 : ℚ) : ℝ) ≤ (cam.rho : ℝ) := by exact_mod_cast hrho0
    norm_num at this
    linarith
  have hrpos : (0 : ℝ) < (cam.rho : ℝ) := by linarith
  have hp0 : (0 : ℝ) < (cam.phi : ℝ) := by
    have h : ((0.1 * M_PI : ℚ) : ℝ) ≤ (cam.phi : ℝ) := by exact_mod_cast hphi0
    have h2 : (0 : ℝ) < ((0.1 * M_PI : ℚ) : ℝ) := by
      have : (0 : ℚ) < 0.1 * M_PI := by norm_num [M_PI]
      exact_mod_cast this
    linarith
  have hp1 : (cam.phi : ℝ) < Real.pi := by
    have h : (cam.phi : ℝ) ≤ ((0.5 * M_PI : ℚ) : ℝ) := by exact_mod_cast hphi1
    have h2 : ((0.5 * M_PI : ℚ) : ℝ) < 3 := by
      have : (0.5 * M_PI : ℚ) < 3 := by norm_num [M_PI]
      exact_mod_cast this
    linarith [Real.pi_gt_three]
  have hsin : 0 < Real.sin (cam.phi : ℝ) := Real.sin_pos_of_pos_of_lt_pi hp0 hp1
  have hrs : (cam.rho : ℝ) * Real.sin (cam.phi : ℝ) ≠ 0 := ne_of_gt (mul_pos hrpos hsin)
  have hdist : ∀ theta phi rho : ℝ,
      Real.sqrt ((sphereToCart Real.sin Real.cos theta phi rho).dot
        (sphereToCart Real.sin Real.cos theta phi rho)) = |rho| := by
    intro theta phi rho
    rw [sphereToCart_real_dot_self, Real.sqrt_sq_eq_abs]
  have hxy : ¬ ((sphereToCart Real.sin Real.cos (cam.theta : ℝ) cam.phi cam.rho).x = 0 ∧
      (sphereToCart Real.sin Real.cos (cam.theta : ℝ) cam.phi cam.rho).y = 0) := by
    rintro ⟨hx, hy⟩
    simp only [sphereToCart] at hx hy
    have hc : Real.cos (cam.theta : ℝ) = 0 := by
      rcases mul_eq_zero.mp hx with h | h
      · exact absurd h hrs
      · exact h
    have hs : Real.sin (cam.theta : ℝ) = 0 := by
      rcases mul_eq_zero.mp hy with h | h
      · exact absurd h hrs
      · exact h
    have h1 := Real.sin_sq_add_cos_sq (cam.theta : ℝ)
    rw [hc, hs] at h1
    norm_num at h1
  refine ⟨hdist, ?_, hr0, ?_, ?_⟩
  · have hd := hdist (cam.theta : ℝ) cam.phi cam.rho
    rw [abs_of_pos hrpos] at hd
    refine Eq.trans ?_ hd
    congr 1
    simp only [Vec3.dot]
    ring
  · intro h
    apply hxy
    have h1 := congrArg Vec3.x h
    have h2 := congrArg Vec3.y h
    simp only at h1 h2
    constructor
    · linarith
    · linarith
  · intro h
    apply hxy
    have h1 := congrArg Vec3.x h
    have h2 := congrArg Vec3.y h
    simp only [cross] at h1 h2
    constructor
    · linarith
    · linarith

theorem C26_look_at_non_degenerate_witness :
    (1 / 2 : ℝ) ≤ (Camera.initial.rho : ℝ) ∧
      cross
        (Vec3.mk
          (1 / 2 - ((sphereToCart Real.sin Real.cos (Camera.initial.theta : ℝ) Camera.initial.phi
            Camera.initial.rho).x + 1 / 2))
          (0 - (sphereToCart Real.sin Real.cos (Camera.initial.theta : ℝ) Camera.initial.phi
            Camera.initial.rho).y)
          (1 / 2 - ((sphereToCart Real.sin Real.cos (Camera.initial.theta : ℝ) Camera.initial.phi
            Camera.initial.rho).z + 1 / 2)))
        (Vec3.mk (0 : ℝ) 0 1) ≠ ⟨0, 0, 0⟩ := by
  obtain ⟨_, _, h3, _, h5⟩ :=
    C26_look_at_non_degenerate Camera.initial (by norm_num [Camera.initial])
      (by norm_num [Camera.initial]) (by norm_num [Camera.initial, M_PI])
      (by norm_num [Camera.initial, M_PI])
  exact ⟨h3, h5⟩

/-- The template `max3` returns the maximum of its three arguments. -/
theorem bb_lib.max3_eq_max (a b c : ℚ) : bb_lib.max3 a b c = max (max a b) c := by
  unfold bb_lib.max3
  dsimp only
  rcases le_total a b with h | h
  · rw [max_eq_right h, if_neg (not_lt.mpr h)]
    rcases le_total b c with h2 | h2
    · rw [max_eq_right h2, if_neg (not_lt.mpr h2)]
    · rw [max_eq_left h2]
      split_ifs with h3
      · rfl
      · exact le_antisymm h2 (not_lt.mp h3)
  · rw [max_eq_left h]
    have ha : (if a > b then a else b) = a := by
      split_ifs with h3
      · rfl
      · exact le_antisymm h (not_lt.mp h3)
    rw [ha]
    rcases le_total a c with h2 | h2
    · rw [max_eq_right h2, if_neg (not_lt.mpr h2)]
    · rw [max_eq_left h2]
      split_ifs with h3
      · rfl
      · exact le_antisymm h2 (not_lt.mp h3)

/-- The height `AddToWaterfall` stores for point `k` of an interleaved
`(x, max, x, min)` vector of `m` points (shorter than `2 ^ 31` floats). The
degenerate-avoidance rule applies exactly when the point count `v.size()/4`
exceeds half the graticule width. When it applies, the height is the maximum
of three samples, clamped to `[0, 1]`: the sample `v[4k+1]` itself, the
sample `v[4k-1]`, which is the min sample of point `k - 1` (for the first
point the sample itself), and the sample `v[4k+3]`, which is the min sample
of the same point `k` (for the last point the sample itself). No sample of
point `k + 1` is among them. Otherwise the height is the single sample
`v[4k+1]` clamped. -/
theorem AddToWaterfall_degenerate_height (M : Nat) (oob : Nat → ℚ)
    (tv : TraceView) (v : GLVector) (m k : Nat) (hmax : 1 ≤ M)
    (hstore : tv.waterfall_verts.length = tv.waterfall_coords.length)
    (hm : 0 < m) (hv : v.length = 4 * m) (hsmall : 4 * m < 2 ^ 31) (hk : k < m) :
    ∃ tv1 fr, AddToWaterfall M oob tv v = some tv1 ∧
      tv1.waterfall_verts.head? = some fr ∧
      (degenHack tv.grat_sz.x v = true ↔ (tv.grat_sz.x : ℚ) / 2 < (v.length / 4 : Nat)) ∧
      (degenHack tv.grat_sz.x v = true →
        fr[6 * k + 2]? = some (bb_lib.clamp
          (max (max (v.getD (if k = 0 then 1 else 4 * k - 1) 0) (v.getD (4 * k + 1) 0))
            (v.getD (if k + 1 = m then 4 * k + 1 else 4 * k + 3) 0)) 0 1)) ∧
      (degenHack tv.grat_sz.x v = false →
        fr[6 * k + 2]? = some (bb_lib.clamp (v.getD (4 * k + 1) 0) 0 1)) := by
  obtain ⟨tv1, fr, tc, h1, h2, _, h4, _⟩ :=
    AddToWaterfall_stored_height M oob tv v m k hmax hstore hm hv hk
  obtain ⟨hz1, hz2⟩ := waterfallZ_eq oob v m k hv hsmall hk
  refine ⟨tv1, fr, h1, h2, ?_, ?_, ?_⟩
  · have hq : v.length / 4 = m := by omega
    unfold degenHack
    rw [hq, hv, decide_eq_true_iff]
    push_cast
    constructor <;> intro h <;> linarith
  · intro hd
    rw [hd, hz1, bb_lib.max3_eq_max] at h4
    exact h4
  · intro hd
    rw [hd, hz2] at h4
    exact h4

/-- C16 at a concrete input. A sweep of three points, maxima 1/2, 3/10, 9/10
and minima 2/5, 1/4, 4/5, on a graticule 4 pixels wide, so that the
degenerate-avoidance rule applies. For the middle point `AddToWaterfall`
reads `v[3]`, `v[5]` and `v[7]`: the min sample 2/5 of the point on its left,
its own max sample 3/10 and its own min sample 1/4, and stores their maximum
2/5. Both samples of the point on its right, 9/10 and 4/5, are larger: a
maximum over the sample itself, any sample of the left point and any sample
of the right point is at least 4/5, never the 2/5 that is stored. -/
theorem C16_degenerate_height_misses_right_neighbour :
    degenHack narrowView.grat_sz.x dippingSweep = true ∧
      (∃ tv1 fr, AddToWaterfall 48 (fun _ => 0) narrowView dippingSweep = some tv1 ∧
        tv1.waterfall_verts.head? = some fr ∧ fr[6 * 1 + 2]? = some (2 / 5)) ∧
      waterfallLeftIndex (4 * 1) = 3 ∧ waterfallRightIndex dippingSweep.length (4 * 1) = 7 ∧
      dippingSweep[3]? = some (2 / 5) ∧ dippingSweep[4 * 1 + 1]? = some (3 / 10) ∧
      dippingSweep[7]? = some (1 / 4) ∧
      dippingSweep[4 * 2 + 1]? = some (9 / 10) ∧ dippingSweep[4 * 2 + 3]? = some (4 / 5) ∧
      (∀ l r : ℚ, (l = 1 / 2 ∨ l = 2 / 5) → (r = 9 / 10 ∨ r = 4 / 5) →
        bb_lib.clamp (max (max l (3 / 10)) r) 0 1 ≠ 2 / 5) := by
  have hd : degenHack narrowView.grat_sz.x dippingSweep = true := by
    norm_num [degenHack, narrowView, dippingSweep]
  refine ⟨hd, ?_, by decide, by decide, rfl, rfl, rfl, rfl, rfl, ?_⟩
  · obtain ⟨tv1, fr, _, h1, h2, _, h4, _⟩ :=
      AddToWaterfall_stored_height 48 (fun _ => 0) narrowView dippingSweep 3 1
        (by decide) rfl (by decide) rfl (by decide)
    have hl : waterfallLeftIndex 4 = 3 := by decide
    have hr : waterfallRightIndex 12 4 = 7 := by decide
    have hlen : dippingSweep.length = 12 := rfl
    have hz : waterfallZ (fun _ => 0) dippingSweep true 4 = 2 / 5 := by
      simp only [waterfallZ, if_true, hl, hlen, hr]
      norm_num [vecAt, dippingSweep, bb_lib.max3]
    have hc : bb_lib.clamp (2 / 5 : ℚ) 0 1 = 2 / 5 := by norm_num [bb_lib.clamp]
    refine ⟨tv1, fr, h1, h2, ?_⟩
    rw [h4, hd]
    simp only [Nat.mul_one, hz, hc]
  · intro l r _ hr
    have h1 : (4 / 5 : ℚ) ≤ max (max l (3 / 10)) r := by
      rcases hr with hr | hr <;> rw [hr] <;> exact le_trans (by norm_num) (le_max_right _ _)
    unfold bb_lib.clamp
    dsimp only
    split_ifs <;> linarith

end BBApp
